import Mathlib

/-!
# Databricks receiver: pagination and aggregation services

A shallow embedding of `databricks_service.go`, `databricks_raw_client.go`,
`spark_service.go`, `spark_metrics_builder.go` (package `databricksreceiver`) and of
`internal/spark/client.go`, `internal/spark/raw_client.go` (package `spark`).

Conventions of the embedding.

* Go `int` / `int64` values are `Int`, the Go `int` being the 64-bit one.  The only
  arithmetic of the sources that can leave the 64-bit range is the product `s.limit*i` of
  the page walks: it is `intMul`, the product wrapped to 64 bits in two's complement.  The
  loop counter `i` itself is a `Nat`: wrapping it before the product would not change the
  wrapped product.
* A Go slice is a `Slice`: the nil slice and a non-nil slice are different values, because
  `completedJobRuns` tests `resp.Runs == nil` before it indexes the slice.
* A Go `error` is an `error` value carrying its message and, for `fmt.Errorf` with `%w`,
  the wrapped error.
* The unmarshaller (`databricksUnmarshaller`, whose methods live outside this file of the
  repository) is a record of response functions.  For the paginated endpoints and for the
  per-pipeline lookup the response may depend on how many calls of that method the running
  operation has already made, as well as on the arguments of the call.
* Every operation returns, next to the Go results, the list of calls it made on the
  unmarshaller, in order.
* A Go map is a `GoMap`: the nil map, or the list of its entries, each key once.  The order
  in which `range` visits a map is not fixed by Go; where the source ranges over a map the
  order is a parameter of the embedded function.
* `json.Unmarshal`, which `internal/spark/client.go` calls, is library code: it is a
  parameter `json` of the functions that decode.
* `fmt.Sprintf` is embedded for the verbs `%d` and `%s` of the path formats; a run-time
  panic is an `Outcome.panicked` value.
* The `for ...; hasMore; ...` loops need not terminate (the upstream may answer
  `hasMore = true` for ever), so each loop takes a bound `fuel` on the number of requests and
  returns `none` when the bound is hit.
-/

namespace databricksreceiver

/-! ## Go values -/

/-- Two's-complement wrap of an integer to the 64-bit range of a Go `int`. -/
def wrapInt (x : Int) : Int :=
  (x + 2 ^ 63) % 2 ^ 64 - 2 ^ 63

/-- Go `a * b` on `int`: the product, wrapped to 64 bits on overflow. -/
def intMul (a b : Int) : Int :=
  wrapInt (a * b)

/-- Go error value: a plain failure with its message, or an error built by `fmt.Errorf`
with a `%w` verb, which keeps the error it wraps. -/
inductive error where
  | failure (msg : String)
  | wrapping (msg : String) (inner : error)
deriving DecidableEq, Repr

/-- The `Error()` method: message of the error. -/
def error.Error : error → String
  | .failure msg => msg
  | .wrapping msg _ => msg

/-- The `Unwrap()` method: wrapped error, when there is one. -/
def error.Unwrap : error → Option error
  | .failure _ => none
  | .wrapping _ inner => some inner

/-- The call `fmt.Errorf(pre + "%w", err)`: the message is `pre` followed by the message of
`err`, and `err` is kept as the wrapped error. -/
def Errorf (pre : String) (err : error) : error :=
  .wrapping (pre ++ err.Error) err

/-- Go slice of `α`: `nil` is the nil slice, `mk l` a non-nil slice with elements `l`. -/
inductive Slice (α : Type) where
  | nil
  | mk (elems : List α)
deriving DecidableEq, Repr

namespace Slice

variable {α : Type}

/-- Elements of a slice, in order (none for the nil slice). -/
def toList : Slice α → List α
  | nil => []
  | mk l => l

/-- Go `len(s)`. -/
def len (s : Slice α) : Int := s.toList.length

/-- Go `s == nil`. -/
def isNil : Slice α → Bool
  | nil => true
  | mk _ => false

/-- Go `append(s, xs...)`: appending no element gives `s` back unchanged (so a nil slice
stays nil); otherwise the result is a non-nil slice. -/
def append (s xs : Slice α) : Slice α :=
  match xs.toList with
  | [] => s
  | x :: t => mk (s.toList ++ x :: t)

/-- Appending every slice of a list to `out`, one after the other, as the page walks do. -/
def appendAll (out : Slice α) (ps : List (Slice α)) : Slice α :=
  ps.foldl Slice.append out

/-- Go `s[i]`: `none` stands for the run-time panic "index out of range". -/
def index (s : Slice α) (i : Int) : Option α :=
  if 0 ≤ i ∧ i < s.len then s.toList[i.toNat]? else none

end Slice

/-! ## Data model -/

/-- Modelled from the spec: the declaration of `job` is not among the sources ("opaque
per-workspace scheduled-task definition; identified by an integer id"). -/
structure job where
  JobID : Int
deriving DecidableEq, Repr

/-- Modelled from the spec: the declaration of `jobRun` is not among the sources ("one
execution instance of a Job; carries a start timestamp").  `StartTime` is the only field the
service reads; `RunID` stands for the rest of the record. -/
structure jobRun where
  RunID : Int
  StartTime : Int
deriving DecidableEq, Repr

/-- Modelled from the spec: the declaration of `cluster` is not among the sources ("compute
resource with an id and a state enum"); the field names are those the service reads. -/
structure cluster where
  ClusterId : String
  State : String
deriving DecidableEq, Repr

/-- Modelled from the spec: the declaration of the pipeline status record is not among the
sources ("a pipeline's summary record (id, name, state)"); the field names are those the
service reads. -/
structure pipelineStatus where
  PipelineId : String
  Name : String
  State : String
deriving DecidableEq, Repr

/-- Summary of a running pipeline (`type pipelineSummary struct`). -/
structure pipelineSummary where
  id : String
  name : String
  clusterID : String
deriving DecidableEq, Repr

/-- Modelled from the spec: response of the job-listing endpoint (declaration not among the
sources); the service reads `Jobs` and `HasMore`. -/
structure jobsListResponse where
  Jobs : Slice job
  HasMore : Bool
deriving DecidableEq, Repr

/-- Modelled from the spec: response of the two job-run endpoints (declaration not among the
sources); the service reads `Runs` and `HasMore`. -/
structure jobRunsResponse where
  Runs : Slice jobRun
  HasMore : Bool
deriving DecidableEq, Repr

/-- Modelled from the spec: response of the cluster-roster endpoint (declaration not among
the sources); the service reads `Clusters`. -/
structure clusterListResponse where
  Clusters : Slice cluster
deriving DecidableEq, Repr

/-- Modelled from the spec: response of the pipeline-listing endpoint (declaration not among
the sources); the service reads `Statuses`. -/
structure pipelinesResponse where
  Statuses : Slice pipelineStatus
deriving DecidableEq, Repr

/-- Modelled from the spec: response of the per-pipeline detail endpoint (declaration not
among the sources); the service reads `ClusterId`. -/
structure pipelineResponse where
  ClusterId : String
deriving DecidableEq, Repr

/-- A call made on the unmarshaller, with its arguments. -/
inductive Call where
  | jobsList (limit offset : Int)
  | activeJobRuns (limit offset : Int)
  | completedJobRuns (jobID limit offset : Int)
  | clusterList
  | pipelines
  | pipeline (id : String)
deriving DecidableEq, Repr

/-- Modelled from the spec: the unmarshaller the service calls (its methods are not among
the sources): each method performs one request and returns the decoded response or an
error.  The first argument of the methods that an operation calls repeatedly is the number
of calls of that method the operation has already made. -/
structure databricksUnmarshaller where
  jobsList : Nat → Int → Int → Except error jobsListResponse
  activeJobRuns : Nat → Int → Int → Except error jobRunsResponse
  completedJobRuns : Nat → Int → Int → Int → Except error jobRunsResponse
  clusterList : Except error clusterListResponse
  pipelines : Except error pipelinesResponse
  pipeline : Nat → String → Except error pipelineResponse

/-- The service (`type databricksService struct`).  The field `limit` is a Go `int`: it
lies in the 64-bit range. -/
structure databricksService where
  unmarshaller : databricksUnmarshaller
  limit : Int
  limitInRange : -2 ^ 63 ≤ limit ∧ limit < 2 ^ 63

/-- What a call of `completedJobRuns` ends in: the two Go results, or a run-time panic. -/
inductive Outcome (α : Type) where
  | returned (out : Slice α) (err : Option error)
  | panicked (msg : String)
deriving DecidableEq, Repr

/-! ## The operations of `databricksService` -/

namespace databricksService

/-- Loop of `jobs()`: `i` is the loop counter, `hasMore` the loop condition, `out` the
slice accumulated so far and `calls` the requests made so far. -/
def jobsLoop (s : databricksService) :
    Nat → Nat → Bool → Slice job → List Call → Option ((Slice job × Option error) × List Call)
  | _, _, false, out, calls => some ((out, none), calls)
  | 0, _, true, _, _ => none
  | fuel + 1, i, true, out, calls =>
    match s.unmarshaller.jobsList i s.limit (intMul s.limit i) with
    | .error err =>
      some ((Slice.nil, some (Errorf "databricksService.jobs(): " err)),
        calls ++ [Call.jobsList s.limit (intMul s.limit i)])
    | .ok resp =>
      jobsLoop s fuel (i + 1) resp.HasMore (out.append resp.Jobs)
        (calls ++ [Call.jobsList s.limit (intMul s.limit i)])

/-- The method `jobs()`. -/
def jobs (s : databricksService) (fuel : Nat) :
    Option ((Slice job × Option error) × List Call) :=
  s.jobsLoop fuel 0 true Slice.nil []

/-- Loop of `activeJobRuns()`. -/
def activeJobRunsLoop (s : databricksService) :
    Nat → Nat → Bool → Slice jobRun → List Call →
      Option ((Slice jobRun × Option error) × List Call)
  | _, _, false, out, calls => some ((out, none), calls)
  | 0, _, true, _, _ => none
  | fuel + 1, i, true, out, calls =>
    match s.unmarshaller.activeJobRuns i s.limit (intMul s.limit i) with
    | .error err =>
      some ((Slice.nil, some (Errorf "databricksService.activeJobRuns(): " err)),
        calls ++ [Call.activeJobRuns s.limit (intMul s.limit i)])
    | .ok resp =>
      activeJobRunsLoop s fuel (i + 1) resp.HasMore (out.append resp.Runs)
        (calls ++ [Call.activeJobRuns s.limit (intMul s.limit i)])

/-- The method `activeJobRuns()`. -/
def activeJobRuns (s : databricksService) (fuel : Nat) :
    Option ((Slice jobRun × Option error) × List Call) :=
  s.activeJobRunsLoop fuel 0 true Slice.nil []

/-- Loop of `completedJobRuns(jobID, prevStartTime)`.  After the page is appended the
condition of the `if` is evaluated left to right: `prevStartTime == 0`, then
`resp.Runs == nil`, then the index expression `resp.Runs[len(resp.Runs)-1]`, which panics
when the index is out of range. -/
def completedJobRunsLoop (s : databricksService) (jobID prevStartTime : Int) :
    Nat → Nat → Bool → Slice jobRun → List Call → Option (Outcome jobRun × List Call)
  | _, _, false, out, calls => some (.returned out none, calls)
  | 0, _, true, _, _ => none
  | fuel + 1, i, true, out, calls =>
    match s.unmarshaller.completedJobRuns i jobID s.limit (intMul s.limit i) with
    | .error err =>
      some (.returned Slice.nil (some (Errorf "databricksService.completedJobRuns(): " err)),
        calls ++ [Call.completedJobRuns jobID s.limit (intMul s.limit i)])
    | .ok resp =>
      if prevStartTime = 0 ∨ resp.Runs.isNil = true then
        some (.returned (out.append resp.Runs) none,
          calls ++ [Call.completedJobRuns jobID s.limit (intMul s.limit i)])
      else
        match resp.Runs.index (resp.Runs.len - 1) with
        | none =>
          some (.panicked
              ("runtime error: index out of range [" ++ toString (resp.Runs.len - 1) ++ "]"),
            calls ++ [Call.completedJobRuns jobID s.limit (intMul s.limit i)])
        | some r =>
          if r.StartTime < prevStartTime then
            some (.returned (out.append resp.Runs) none,
              calls ++ [Call.completedJobRuns jobID s.limit (intMul s.limit i)])
          else
            completedJobRunsLoop s jobID prevStartTime fuel (i + 1) resp.HasMore
              (out.append resp.Runs)
              (calls ++ [Call.completedJobRuns jobID s.limit (intMul s.limit i)])

/-- The method `completedJobRuns(jobID, prevStartTime)`. -/
def completedJobRuns (s : databricksService) (jobID prevStartTime : Int) (fuel : Nat) :
    Option (Outcome jobRun × List Call) :=
  s.completedJobRunsLoop jobID prevStartTime fuel 0 true Slice.nil []

/-- Loop of `runningClusters()` over `cl.Clusters`. -/
def runningClustersLoop : List cluster → Slice cluster → Slice cluster
  | [], out => out
  | c :: rest, out =>
    if c.State ≠ "RUNNING" then runningClustersLoop rest out
    else runningClustersLoop rest (out.append (Slice.mk [c]))

/-- The method `runningClusters()`. -/
def runningClusters (s : databricksService) : (Slice cluster × Option error) × List Call :=
  match s.unmarshaller.clusterList with
  | .error err =>
    ((Slice.nil, some (Errorf "databricksService.runningClusterIDs(): " err)),
      [Call.clusterList])
  | .ok cl => ((runningClustersLoop cl.Clusters.toList Slice.nil, none), [Call.clusterList])

/-- Loop of `runningPipelines()` over `pipelines.Statuses`; `n` counts the per-pipeline
calls made so far. -/
def runningPipelinesLoop (s : databricksService) :
    List pipelineStatus → Nat → Slice pipelineSummary → List Call →
      (Slice pipelineSummary × Option error) × List Call
  | [], _, out, calls => ((out, none), calls)
  | status :: rest, n, out, calls =>
    if status.State ≠ "RUNNING" then runningPipelinesLoop s rest n out calls
    else
      match s.unmarshaller.pipeline n status.PipelineId with
      | .error err =>
        ((Slice.nil,
          some (Errorf
            ("databricksService.runningPipelines(): failed to get pipeline info: pipeline id: "
              ++ status.PipelineId ++ ": ") err)),
          calls ++ [Call.pipeline status.PipelineId])
      | .ok pipeline =>
        runningPipelinesLoop s rest (n + 1)
          (out.append (Slice.mk [⟨status.PipelineId, status.Name, pipeline.ClusterId⟩]))
          (calls ++ [Call.pipeline status.PipelineId])

/-- The method `runningPipelines()`. -/
def runningPipelines (s : databricksService) :
    (Slice pipelineSummary × Option error) × List Call :=
  match s.unmarshaller.pipelines with
  | .error err =>
    ((Slice.nil, some (Errorf "databricksService.runningPipelines(): " err)), [Call.pipelines])
  | .ok pipelines => runningPipelinesLoop s pipelines.Statuses.toList 0 Slice.nil [Call.pipelines]

end databricksService

/-! ## Example inputs -/

/-- An unmarshaller that answers from fixed lists: the `n`-th call of a paginated method, or
of the per-pipeline lookup, gets the `n`-th entry of its list whatever its arguments, and a
failure once the list is used up.  Both job-run endpoints answer from `runPages`. -/
def scripted (jobPages : List (Except error jobsListResponse))
    (runPages : List (Except error jobRunsResponse))
    (roster : Except error clusterListResponse) (statuses : Except error pipelinesResponse)
    (details : List (Except error pipelineResponse)) : databricksUnmarshaller where
  jobsList := fun n _ _ => jobPages.getD n (.error (.failure "no response"))
  activeJobRuns := fun n _ _ => runPages.getD n (.error (.failure "no response"))
  completedJobRuns := fun n _ _ _ => runPages.getD n (.error (.failure "no response"))
  clusterList := roster
  pipelines := statuses
  pipeline := fun n _ => details.getD n (.error (.failure "no response"))

/-- Two pages of jobs and two pages of runs, the second page being the last; page size 2. -/
def twoPageService : databricksService where
  unmarshaller :=
    scripted [.ok ⟨.mk [⟨1⟩, ⟨2⟩], true⟩, .ok ⟨.mk [⟨3⟩], false⟩]
      [.ok ⟨.mk [⟨11, 500⟩, ⟨12, 400⟩], true⟩, .ok ⟨.mk [⟨13, 300⟩], false⟩]
      (.ok ⟨.nil⟩) (.ok ⟨.nil⟩) []
  limit := 2
  limitInRange := by decide

/-- Pages of `twoPageService` for the job-listing endpoint. -/
def twoPageJobs (i : Nat) : jobsListResponse :=
  if i = 0 then ⟨.mk [⟨1⟩, ⟨2⟩], true⟩ else ⟨.mk [⟨3⟩], false⟩

/-- Pages of `twoPageService` for the job-run endpoints. -/
def twoPageRuns (i : Nat) : jobRunsResponse :=
  if i = 0 then ⟨.mk [⟨11, 500⟩, ⟨12, 400⟩], true⟩ else ⟨.mk [⟨13, 300⟩], false⟩

/-- A first page that announces more, then a failing fetch; page size 2. -/
def failingService : databricksService where
  unmarshaller :=
    scripted [.ok ⟨.mk [⟨1⟩, ⟨2⟩], true⟩, .error (.failure "boom")]
      [.ok ⟨.mk [⟨11, 500⟩, ⟨12, 400⟩], true⟩, .error (.failure "boom")]
      (.ok ⟨.nil⟩) (.ok ⟨.nil⟩) []
  limit := 2
  limitInRange := by decide

/-- Completed runs served newest first in three pages whose oldest runs start at 80, 60 and
50; page size 2. -/
def watermarkService : databricksService where
  unmarshaller :=
    scripted []
      [.ok ⟨.mk [⟨1, 90⟩, ⟨2, 80⟩], true⟩, .ok ⟨.mk [⟨3, 70⟩, ⟨4, 60⟩], true⟩,
        .ok ⟨.mk [⟨5, 50⟩], false⟩]
      (.ok ⟨.nil⟩) (.ok ⟨.nil⟩) []
  limit := 2
  limitInRange := by decide

/-- Pages of `watermarkService`. -/
def watermarkPages (i : Nat) : jobRunsResponse :=
  if i = 0 then ⟨.mk [⟨1, 90⟩, ⟨2, 80⟩], true⟩
  else if i = 1 then ⟨.mk [⟨3, 70⟩, ⟨4, 60⟩], true⟩
  else ⟨.mk [⟨5, 50⟩], false⟩

/-- Oldest runs of the pages of `watermarkService`. -/
def watermarkOldest (i : Nat) : jobRun :=
  if i = 0 then ⟨2, 80⟩ else if i = 1 then ⟨4, 60⟩ else ⟨5, 50⟩

/-- Page `P0` (more announced) with oldest run starting at 100, then page `P1` with oldest
run starting at 50; page size 2. -/
def hundredFiftyService : databricksService where
  unmarshaller :=
    scripted []
      [.ok ⟨.mk [⟨1, 120⟩, ⟨2, 100⟩], true⟩, .ok ⟨.mk [⟨3, 60⟩, ⟨4, 50⟩], false⟩]
      (.ok ⟨.nil⟩) (.ok ⟨.nil⟩) []
  limit := 2
  limitInRange := by decide

/-- A first page whose oldest run starts at 80 and which announces no more pages, then a
page whose oldest run starts at 60; page size 2. -/
def earlyLastPageService : databricksService where
  unmarshaller :=
    scripted []
      [.ok ⟨.mk [⟨1, 90⟩, ⟨2, 80⟩], false⟩, .ok ⟨.mk [⟨3, 70⟩, ⟨4, 60⟩], true⟩]
      (.ok ⟨.nil⟩) (.ok ⟨.nil⟩) []
  limit := 2
  limitInRange := by decide

/-- Three pages of jobs served with the page size 2^62, for which the offset of the third
request overflows the 64-bit range. -/
def hugeLimitService : databricksService where
  unmarshaller :=
    scripted [.ok ⟨.mk [⟨1⟩], true⟩, .ok ⟨.mk [⟨2⟩], true⟩, .ok ⟨.mk [⟨3⟩], false⟩] []
      (.ok ⟨.nil⟩) (.ok ⟨.nil⟩) []
  limit := 4611686018427387904
  limitInRange := by decide

/-- A completed-run page whose run list is present but holds no run; page size 2. -/
def emptyPageService : databricksService where
  unmarshaller := scripted [] [.ok ⟨.mk [], false⟩] (.ok ⟨.nil⟩) (.ok ⟨.nil⟩) []
  limit := 2
  limitInRange := by decide

/-- A roster of four clusters in states RUNNING, TERMINATED, RUNNING, PENDING, and the two
pipelines `a` (RUNNING) and `b` (STOPPED); the one scripted detail call answers cluster
`c-a`. -/
def rosterService : databricksService where
  unmarshaller :=
    scripted [] []
      (.ok ⟨.mk [⟨"c1", "RUNNING"⟩, ⟨"c2", "TERMINATED"⟩, ⟨"c3", "RUNNING"⟩, ⟨"c4", "PENDING"⟩]⟩)
      (.ok ⟨.mk [⟨"a", "alpha", "RUNNING"⟩, ⟨"b", "beta", "STOPPED"⟩]⟩)
      [.ok ⟨"c-a"⟩]
  limit := 2
  limitInRange := by decide

/-- Four pipelines `a`, `c`, `d` (RUNNING) and `b` (STOPPED); the detail call for `a`
answers cluster `c-a`, the next detail call fails. -/
def brokenDetailService : databricksService where
  unmarshaller :=
    scripted [] [] (.ok ⟨.nil⟩)
      (.ok ⟨.mk [⟨"a", "alpha", "RUNNING"⟩, ⟨"b", "beta", "STOPPED"⟩,
        ⟨"c", "gamma", "RUNNING"⟩, ⟨"d", "delta", "RUNNING"⟩]⟩)
      [.ok ⟨"c-a"⟩, .error (.failure "boom")]
  limit := 2
  limitInRange := by decide

/-- Whether the text `part` occurs somewhere in the message `msg`. -/
def mentions (msg part : String) : Bool :=
  decide (part.toList <:+: msg.toList)

/-- The same objects served more than once: job 2 is in both job pages, run 11 is twice in
the first run page and once more in the second; page size 2. -/
def repeatingService : databricksService where
  unmarshaller :=
    scripted [.ok ⟨.mk [⟨1⟩, ⟨2⟩], true⟩, .ok ⟨.mk [⟨2⟩, ⟨3⟩], false⟩]
      [.ok ⟨.mk [⟨11, 500⟩, ⟨11, 500⟩], true⟩, .ok ⟨.mk [⟨11, 500⟩, ⟨12, 400⟩], false⟩]
      (.ok ⟨.nil⟩) (.ok ⟨.nil⟩) []
  limit := 2
  limitInRange := by decide

/-- Pages of `repeatingService` for the job-listing endpoint. -/
def repeatingJobs (i : Nat) : jobsListResponse :=
  if i = 0 then ⟨.mk [⟨1⟩, ⟨2⟩], true⟩ else ⟨.mk [⟨2⟩, ⟨3⟩], false⟩

/-- Pages of `repeatingService` for the job-run endpoints. -/
def repeatingRuns (i : Nat) : jobRunsResponse :=
  if i = 0 then ⟨.mk [⟨11, 500⟩, ⟨11, 500⟩], true⟩ else ⟨.mk [⟨11, 500⟩, ⟨12, 400⟩], false⟩

/-! ## The Spark side: package `spark` (`internal/spark/client.go`) -/

/-- Go map from `κ` to `ν`: `nil` is the nil map, `mk l` a map made by a map literal or
`make`, holding the entries `l`, each key once.  A Go map has no order; the list keeps the
entries in the order in which their keys were first set. -/
inductive GoMap (κ ν : Type) where
  | nil
  | mk (entries : List (κ × ν))
deriving DecidableEq, Repr

namespace GoMap

variable {κ ν : Type}

/-- Entries of a map (none for the nil map). -/
def entries : GoMap κ ν → List (κ × ν)
  | nil => []
  | mk l => l

/-- Keys of a map. -/
def keys (m : GoMap κ ν) : List κ := m.entries.map Prod.fst

/-- Go `m[k]` with the "comma ok" form: the value stored under `k`, if any. -/
def get? [DecidableEq κ] (m : GoMap κ ν) (k : κ) : Option ν := m.entries.lookup k

/-- Go `m[k] = v` on the entries of a non-nil map: the value under `k` is replaced when the
key is already there, and the entry is added otherwise. -/
def setEntry [DecidableEq κ] : List (κ × ν) → κ → ν → List (κ × ν)
  | [], k, v => [(k, v)]
  | (k1, v1) :: rest, k, v =>
    if k1 = k then (k1, v) :: rest else (k1, v1) :: setEntry rest k v

end GoMap

namespace spark

/-- Modelled from the spec: the declaration of `Application` is not among the sources
("identified by an id").  `Id` is the only field the services read; `Name` stands for the
rest of the record. -/
structure Application where
  Id : String
  Name : String
deriving DecidableEq, Repr

/-- Modelled from the spec: the declaration of `ClusterMetrics` is not among the sources; no
field of it is read by the services, `Body` stands for its content. -/
structure ClusterMetrics where
  Body : String
deriving DecidableEq, Repr

/-- Modelled from the spec: the declaration of `ExecutorInfo` is not among the sources
("per-application resource-usage and progress records"); the fields are those the metrics
builder reads, numbers being integers. -/
structure ExecutorInfo where
  Id : String
  MemoryUsed : Int
  DiskUsed : Int
  TotalInputBytes : Int
  TotalShuffleRead : Int
  TotalShuffleWrite : Int
  MaxMemory : Int
deriving DecidableEq, Repr

/-- Modelled from the spec: the declaration of `JobInfo` is not among the sources; `JobId`
identifies the record and `NumTasks` stands for its counters. -/
structure JobInfo where
  JobId : Int
  NumTasks : Int
deriving DecidableEq, Repr

/-- Modelled from the spec: the declaration of `StageInfo` is not among the sources;
`StageId` identifies the record and `ExecutorRunTime` stands for its counters. -/
structure StageInfo where
  StageId : Int
  ExecutorRunTime : Int
deriving DecidableEq, Repr

/-- The interface `RawClientIntf`: each method performs one request and returns the response
body or an error.  The per-application methods, which an operation calls repeatedly, take as
first argument the number of calls of that method the operation has already made. -/
structure RawClientIntf where
  Metrics : Except error String
  Applications : Except error String
  AppExecutors : Nat → String → Except error String
  AppJobs : Nat → String → Except error String
  AppStages : Nat → String → Except error String

/-- Modelled from the spec: `json.Unmarshal` of the Go library (the "decoding
collaborator"), one decoding function per target type. -/
structure Unmarshal where
  ClusterMetrics : String → Except error ClusterMetrics
  Applications : String → Except error (Slice Application)
  ExecutorInfos : String → Except error (Slice ExecutorInfo)
  JobInfos : String → Except error (Slice JobInfo)
  StageInfos : String → Except error (Slice StageInfo)

/-- The struct `Client`. -/
structure Client where
  RawClient : RawClientIntf

/-- A request made through a `Client`. -/
inductive RawCall where
  | Metrics
  | Applications
  | AppExecutors (appID : String)
  | AppJobs (appID : String)
  | AppStages (appID : String)
deriving DecidableEq, Repr

namespace Client

/-- The method `Metrics()`.  Here and below the result is the decoded value or the error;
the value Go returns next to a non-nil error is not read by the services. -/
def Metrics (json : Unmarshal) (c : Client) : Except error ClusterMetrics :=
  match c.RawClient.Metrics with
  | .error err => .error (Errorf "failed to get metrics from spark: " err)
  | .ok bytes =>
    match json.ClusterMetrics bytes with
    | .error err => .error (Errorf "failed to unmarshal spark metrics: " err)
    | .ok cm => .ok cm

/-- The method `Applications()`. -/
def Applications (json : Unmarshal) (c : Client) : Except error (Slice Application) :=
  match c.RawClient.Applications with
  | .error err => .error (Errorf "failed to get applications from spark: " err)
  | .ok bytes =>
    match json.Applications bytes with
    | .error err => .error (Errorf "failed to unmarshal spark applications: " err)
    | .ok apps => .ok apps

/-- The method `AppExecutors(appID)`; `n` is the number of earlier calls. -/
def AppExecutors (json : Unmarshal) (c : Client) (n : Nat) (appID : String) :
    Except error (Slice ExecutorInfo) :=
  match c.RawClient.AppExecutors n appID with
  | .error err => .error (Errorf "failed to get app executors from spark: " err)
  | .ok bytes =>
    match json.ExecutorInfos bytes with
    | .error err => .error (Errorf "failed to unmarshal executor info: " err)
    | .ok ei => .ok ei

/-- The method `AppJobs(appID)`; `n` is the number of earlier calls. -/
def AppJobs (json : Unmarshal) (c : Client) (n : Nat) (appID : String) :
    Except error (Slice JobInfo) :=
  match c.RawClient.AppJobs n appID with
  | .error err => .error (Errorf "failed to get jobs from spark: " err)
  | .ok bytes =>
    match json.JobInfos bytes with
    | .error err => .error (Errorf "failed to unmarshal job info: " err)
    | .ok jobs => .ok jobs

/-- The method `AppStages(appID)`; `n` is the number of earlier calls. -/
def AppStages (json : Unmarshal) (c : Client) (n : Nat) (appID : String) :
    Except error (Slice StageInfo) :=
  match c.RawClient.AppStages n appID with
  | .error err => .error (Errorf "failed to get jobs from spark: " err)
  | .ok bytes =>
    match json.StageInfos bytes with
    | .error err => .error (Errorf "failed to unmarshal job info: " err)
    | .ok stages => .ok stages

end Client

end spark

/-! ## The Spark service (`spark_service.go`) -/

/-- The rendering of a `cluster` by the verb `%s` of `fmt`: the fields of the (modelled)
struct between braces, separated by a blank. -/
def cluster.format (c : cluster) : String :=
  "\x7b" ++ c.ClusterId ++ " " ++ c.State ++ "\x7d"

/-- The struct `sparkRestService`.  The logger and the HTTP client, which the service only
hands to the factory, are left out.  The factory, which an operation may call repeatedly,
takes as first argument the number of clients the operation has already created; its other
arguments are those of the Go function: proxy URL, organisation id, port, token and cluster
id. -/
structure sparkRestService where
  dbsvc : databricksService
  sparkAPIEndpoint : String
  sparkUIPort : Int
  orgID : String
  tok : String
  sparkClientFactory : Nat → String → String → Int → String → String → spark.Client

namespace sparkRestService

/-- The method `newClient(clusterID)`; `n` is the number of clients created so far. -/
def newClient (s : sparkRestService) (n : Nat) (clusterID : String) : spark.Client :=
  s.sparkClientFactory n s.sparkAPIEndpoint s.orgID s.sparkUIPort s.tok clusterID

/-- The method `getSparkCoreMetricsForCluster(clusterID)`. -/
def getSparkCoreMetricsForCluster (json : spark.Unmarshal) (s : sparkRestService) (n : Nat)
    (clusterID : String) : Except error spark.ClusterMetrics :=
  (s.newClient n clusterID).Metrics json

/-- Loop of `getSparkCoreMetricsForClusters` over `clusters`; `n` counts the iterations done
and `out` holds the entries of the map built so far. -/
def getSparkCoreMetricsForClustersLoop (json : spark.Unmarshal) (s : sparkRestService) :
    List cluster → Nat → List (cluster × spark.ClusterMetrics) →
      GoMap cluster spark.ClusterMetrics × Option error
  | [], _, out => (GoMap.mk out, none)
  | clstr :: rest, n, out =>
    match s.getSparkCoreMetricsForCluster json n clstr.ClusterId with
    | .error err =>
      (GoMap.nil,
        some (Errorf ("error getting spark metrics for cluster: " ++ clstr.format ++ ": ") err))
    | .ok metrics =>
      getSparkCoreMetricsForClustersLoop json s rest (n + 1) (GoMap.setEntry out clstr metrics)

/-- The method `getSparkCoreMetricsForClusters(clusters)`. -/
def getSparkCoreMetricsForClusters (json : spark.Unmarshal) (s : sparkRestService)
    (clusters : Slice cluster) : GoMap cluster spark.ClusterMetrics × Option error :=
  getSparkCoreMetricsForClustersLoop json s clusters.toList 0 []

/-- Loop of `getSparkExecutorInfoSliceByApp` over `apps`; `n` counts the sub-fetches made,
`out` holds the entries of the map built so far and `calls` the requests made so far. -/
def getSparkExecutorInfoSliceByAppLoop (json : spark.Unmarshal) (unm : spark.Client) :
    List spark.Application → Nat → List (spark.Application × Slice spark.ExecutorInfo) →
      List spark.RawCall →
      (GoMap spark.Application (Slice spark.ExecutorInfo) × Option error) × List spark.RawCall
  | [], _, out, calls => ((GoMap.mk out, none), calls)
  | app :: rest, n, out, calls =>
    match unm.AppExecutors json n app.Id with
    | .error err =>
      ((GoMap.nil,
          some (Errorf ("failed to get executors for app id: " ++ app.Id ++ ": ") err)),
        calls ++ [spark.RawCall.AppExecutors app.Id])
    | .ok executors =>
      getSparkExecutorInfoSliceByAppLoop json unm rest (n + 1)
        (GoMap.setEntry out app executors) (calls ++ [spark.RawCall.AppExecutors app.Id])

/-- The method `getSparkExecutorInfoSliceByApp(clusterID)`. -/
def getSparkExecutorInfoSliceByApp (json : spark.Unmarshal) (s : sparkRestService)
    (clusterID : String) :
    (GoMap spark.Application (Slice spark.ExecutorInfo) × Option error) × List spark.RawCall :=
  match (s.newClient 0 clusterID).Applications json with
  | .error err =>
    ((GoMap.nil, some (Errorf "failed to get applications from spark: " err)),
      [spark.RawCall.Applications])
  | .ok apps =>
    getSparkExecutorInfoSliceByAppLoop json (s.newClient 0 clusterID) apps.toList 0 []
      [spark.RawCall.Applications]

/-- Loop of `getSparkJobInfoSliceByApp` over `apps`. -/
def getSparkJobInfoSliceByAppLoop (json : spark.Unmarshal) (unm : spark.Client) :
    List spark.Application → Nat → List (spark.Application × Slice spark.JobInfo) →
      List spark.RawCall →
      (GoMap spark.Application (Slice spark.JobInfo) × Option error) × List spark.RawCall
  | [], _, out, calls => ((GoMap.mk out, none), calls)
  | app :: rest, n, out, calls =>
    match unm.AppJobs json n app.Id with
    | .error err =>
      ((GoMap.nil, some (Errorf ("failed to get jobs for app id: " ++ app.Id ++ ": ") err)),
        calls ++ [spark.RawCall.AppJobs app.Id])
    | .ok jobs =>
      getSparkJobInfoSliceByAppLoop json unm rest (n + 1) (GoMap.setEntry out app jobs)
        (calls ++ [spark.RawCall.AppJobs app.Id])

/-- The method `getSparkJobInfoSliceByApp(clusterID)`. -/
def getSparkJobInfoSliceByApp (json : spark.Unmarshal) (s : sparkRestService)
    (clusterID : String) :
    (GoMap spark.Application (Slice spark.JobInfo) × Option error) × List spark.RawCall :=
  match (s.newClient 0 clusterID).Applications json with
  | .error err =>
    ((GoMap.nil, some (Errorf "failed to get applications from spark: " err)),
      [spark.RawCall.Applications])
  | .ok apps =>
    getSparkJobInfoSliceByAppLoop json (s.newClient 0 clusterID) apps.toList 0 []
      [spark.RawCall.Applications]

/-- Loop of `getSparkStageInfoSliceByApp` over `apps`. -/
def getSparkStageInfoSliceByAppLoop (json : spark.Unmarshal) (unm : spark.Client) :
    List spark.Application → Nat → List (spark.Application × Slice spark.StageInfo) →
      List spark.RawCall →
      (GoMap spark.Application (Slice spark.StageInfo) × Option error) × List spark.RawCall
  | [], _, out, calls => ((GoMap.mk out, none), calls)
  | app :: rest, n, out, calls =>
    match unm.AppStages json n app.Id with
    | .error err =>
      ((GoMap.nil, some (Errorf ("failed to get jobs for app id: " ++ app.Id ++ ": ") err)),
        calls ++ [spark.RawCall.AppStages app.Id])
    | .ok stages =>
      getSparkStageInfoSliceByAppLoop json unm rest (n + 1) (GoMap.setEntry out app stages)
        (calls ++ [spark.RawCall.AppStages app.Id])

/-- The method `getSparkStageInfoSliceByApp(clusterID)`. -/
def getSparkStageInfoSliceByApp (json : spark.Unmarshal) (s : sparkRestService)
    (clusterID : String) :
    (GoMap spark.Application (Slice spark.StageInfo) × Option error) × List spark.RawCall :=
  match (s.newClient 0 clusterID).Applications json with
  | .error err =>
    ((GoMap.nil, some (Errorf "failed to get applications from spark: " err)),
      [spark.RawCall.Applications])
  | .ok apps =>
    getSparkStageInfoSliceByAppLoop json (s.newClient 0 clusterID) apps.toList 0 []
      [spark.RawCall.Applications]

end sparkRestService

/-! ## The metrics builder (`spark_metrics_builder.go`) -/

/-- The interface `sparkService`.  Each method returns the two Go results.  The three
per-cluster fan-out methods, which the metrics builder calls once per cluster, take as first
argument the number of calls of that method the running operation has already made. -/
structure sparkService where
  getSparkCoreMetricsForClusters :
    Slice cluster → GoMap cluster spark.ClusterMetrics × Option error
  getSparkCoreMetricsForCluster : String → spark.ClusterMetrics × Option error
  getSparkExecutorInfoSliceByApp :
    Nat → String → GoMap spark.Application (Slice spark.ExecutorInfo) × Option error
  getSparkJobInfoSliceByApp :
    Nat → String → GoMap spark.Application (Slice spark.JobInfo) × Option error
  getSparkStageInfoSliceByApp :
    Nat → String → GoMap spark.Application (Slice spark.StageInfo) × Option error

/-- Modelled from the spec: a measurement handed to the metrics-emission collaborator
("timestamped named measurements tagged with identifying dimensions"): the name of the
metric, the timestamp, the value, and the cluster, application and executor ids. -/
structure DataPoint where
  metric : String
  ts : Nat
  val : Int
  clusterId : String
  sparkAppId : String
  executorId : String
deriving DecidableEq, Repr

/-- Modelled from the spec: the generated `metadata.MetricsBuilder` is not among the
sources; it is the list of the data points recorded so far, in the order of the calls. -/
structure MetricsBuilder where
  recorded : List DataPoint
deriving DecidableEq, Repr

namespace MetricsBuilder

/-- Modelled from the spec: `RecordDatabricksSparkExecutorMemoryUsedDataPoint` of the
generated builder records one data point of that metric. -/
def RecordDatabricksSparkExecutorMemoryUsedDataPoint (b : MetricsBuilder) (ts : Nat)
    (val : Int) (clusterId sparkAppId executorId : String) : MetricsBuilder :=
  ⟨b.recorded ++ [⟨"DatabricksSparkExecutorMemoryUsed", ts, val, clusterId, sparkAppId,
    executorId⟩]⟩

/-- Modelled from the spec: `RecordDatabricksSparkExecutorDiskUsedDataPoint` of the
generated builder records one data point of that metric. -/
def RecordDatabricksSparkExecutorDiskUsedDataPoint (b : MetricsBuilder) (ts : Nat)
    (val : Int) (clusterId sparkAppId executorId : String) : MetricsBuilder :=
  ⟨b.recorded ++ [⟨"DatabricksSparkExecutorDiskUsed", ts, val, clusterId, sparkAppId,
    executorId⟩]⟩

/-- Modelled from the spec: `RecordDatabricksSparkExecutorTotalInputBytesDataPoint` of the
generated builder records one data point of that metric. -/
def RecordDatabricksSparkExecutorTotalInputBytesDataPoint (b : MetricsBuilder) (ts : Nat)
    (val : Int) (clusterId sparkAppId executorId : String) : MetricsBuilder :=
  ⟨b.recorded ++ [⟨"DatabricksSparkExecutorTotalInputBytes", ts, val, clusterId, sparkAppId,
    executorId⟩]⟩

/-- Modelled from the spec: `RecordDatabricksSparkExecutorTotalShuffleReadDataPoint` of the
generated builder records one data point of that metric. -/
def RecordDatabricksSparkExecutorTotalShuffleReadDataPoint (b : MetricsBuilder) (ts : Nat)
    (val : Int) (clusterId sparkAppId executorId : String) : MetricsBuilder :=
  ⟨b.recorded ++ [⟨"DatabricksSparkExecutorTotalShuffleRead", ts, val, clusterId, sparkAppId,
    executorId⟩]⟩

/-- Modelled from the spec: `RecordDatabricksSparkExecutorTotalShuffleWriteDataPoint` of the
generated builder records one data point of that metric. -/
def RecordDatabricksSparkExecutorTotalShuffleWriteDataPoint (b : MetricsBuilder) (ts : Nat)
    (val : Int) (clusterId sparkAppId executorId : String) : MetricsBuilder :=
  ⟨b.recorded ++ [⟨"DatabricksSparkExecutorTotalShuffleWrite", ts, val, clusterId, sparkAppId,
    executorId⟩]⟩

/-- Modelled from the spec: `RecordDatabricksSparkExecutorMaxMemoryDataPoint` of the
generated builder records one data point of that metric. -/
def RecordDatabricksSparkExecutorMaxMemoryDataPoint (b : MetricsBuilder) (ts : Nat)
    (val : Int) (clusterId sparkAppId executorId : String) : MetricsBuilder :=
  ⟨b.recorded ++ [⟨"DatabricksSparkExecutorMaxMemory", ts, val, clusterId, sparkAppId,
    executorId⟩]⟩

end MetricsBuilder

/-- The struct `sparkExtraMetricsBuilder`. -/
structure sparkExtraMetricsBuilder where
  ssvc : sparkService

namespace sparkExtraMetricsBuilder

/-- Body of the innermost loop of `buildExecutorMetrics`: the six `Record...DataPoint` calls
for one executor record. -/
def recordExecutor (builder : MetricsBuilder) (now : Nat) (clstr : cluster)
    (sparkApp : spark.Application) (execInfo : spark.ExecutorInfo) : MetricsBuilder :=
  let builder := builder.RecordDatabricksSparkExecutorMemoryUsedDataPoint now
    execInfo.MemoryUsed clstr.ClusterId sparkApp.Id execInfo.Id
  let builder := builder.RecordDatabricksSparkExecutorDiskUsedDataPoint now
    execInfo.DiskUsed clstr.ClusterId sparkApp.Id execInfo.Id
  let builder := builder.RecordDatabricksSparkExecutorTotalInputBytesDataPoint now
    execInfo.TotalInputBytes clstr.ClusterId sparkApp.Id execInfo.Id
  let builder := builder.RecordDatabricksSparkExecutorTotalShuffleReadDataPoint now
    execInfo.TotalShuffleRead clstr.ClusterId sparkApp.Id execInfo.Id
  let builder := builder.RecordDatabricksSparkExecutorTotalShuffleWriteDataPoint now
    execInfo.TotalShuffleWrite clstr.ClusterId sparkApp.Id execInfo.Id
  builder.RecordDatabricksSparkExecutorMaxMemoryDataPoint now
    execInfo.MaxMemory clstr.ClusterId sparkApp.Id execInfo.Id

/-- The two inner loops of `buildExecutorMetrics` for one cluster: over the entries of the
map, taken in the order `visit`, and over the executor records of each entry. -/
def recordCluster (builder : MetricsBuilder) (now : Nat) (clstr : cluster)
    (visit : List (spark.Application × Slice spark.ExecutorInfo)) : MetricsBuilder :=
  visit.foldl
    (fun bld entry =>
      entry.2.toList.foldl (fun bld1 execInfo => recordExecutor bld1 now clstr entry.1 execInfo)
        bld)
    builder

/-- Outer loop of `buildExecutorMetrics` over `clusters`; `n` counts the iterations done.
The order in which `range` visits the entries of a map is not fixed by Go: `rangeOrder n m`
is the order taken for the map `m` in iteration `n`. -/
def buildExecutorMetricsLoop (b : sparkExtraMetricsBuilder)
    (rangeOrder : Nat → GoMap spark.Application (Slice spark.ExecutorInfo) →
      List (spark.Application × Slice spark.ExecutorInfo))
    (now : Nat) : List cluster → Nat → MetricsBuilder → Option error × MetricsBuilder
  | [], _, builder => (none, builder)
  | clstr :: rest, n, builder =>
    match b.ssvc.getSparkExecutorInfoSliceByApp n clstr.ClusterId with
    | (_, some err) =>
      (some (Errorf ("failed to get executor info for cluster: " ++ clstr.ClusterId ++ ": ")
        err), builder)
    | (execInfosByApp, none) =>
      buildExecutorMetricsLoop b rangeOrder now rest (n + 1)
        (recordCluster builder now clstr (rangeOrder n execInfosByApp))

/-- The method `buildExecutorMetrics(builder, now, clusters)`: the error returned and the
builder as the call leaves it. -/
def buildExecutorMetrics (b : sparkExtraMetricsBuilder)
    (rangeOrder : Nat → GoMap spark.Application (Slice spark.ExecutorInfo) →
      List (spark.Application × Slice spark.ExecutorInfo))
    (builder : MetricsBuilder) (now : Nat) (clusters : Slice cluster) :
    Option error × MetricsBuilder :=
  buildExecutorMetricsLoop b rangeOrder now clusters.toList 0 builder

end sparkExtraMetricsBuilder

/-- The six data points of one executor record, in the order of the six calls. -/
def executorDataPoints (now : Nat) (clusterId sparkAppId : String)
    (execInfo : spark.ExecutorInfo) : List DataPoint :=
  [⟨"DatabricksSparkExecutorMemoryUsed", now, execInfo.MemoryUsed, clusterId, sparkAppId,
      execInfo.Id⟩,
    ⟨"DatabricksSparkExecutorDiskUsed", now, execInfo.DiskUsed, clusterId, sparkAppId,
      execInfo.Id⟩,
    ⟨"DatabricksSparkExecutorTotalInputBytes", now, execInfo.TotalInputBytes, clusterId,
      sparkAppId, execInfo.Id⟩,
    ⟨"DatabricksSparkExecutorTotalShuffleRead", now, execInfo.TotalShuffleRead, clusterId,
      sparkAppId, execInfo.Id⟩,
    ⟨"DatabricksSparkExecutorTotalShuffleWrite", now, execInfo.TotalShuffleWrite, clusterId,
      sparkAppId, execInfo.Id⟩,
    ⟨"DatabricksSparkExecutorMaxMemory", now, execInfo.MaxMemory, clusterId, sparkAppId,
      execInfo.Id⟩]

/-- The data points of the executor records of one cluster, its map being visited in the
order `visit`. -/
def clusterDataPoints (now : Nat) (clusterId : String)
    (visit : List (spark.Application × Slice spark.ExecutorInfo)) : List DataPoint :=
  visit.flatMap (fun entry =>
    entry.2.toList.flatMap (fun execInfo => executorDataPoints now clusterId entry.1.Id execInfo))

/-- Common shape of the loops that fill a map from a list of keys with one fetch per key:
the two Go results and the keys for which a fetch was made.  The loops of the Spark service
are instances of it. -/
def fillMap {κ ν : Type} [DecidableEq κ] (fetch : Nat → κ → Except error ν)
    (wrap : κ → error → error) :
    List κ → Nat → List (κ × ν) → (GoMap κ ν × Option error) × List κ
  | [], _, out => ((GoMap.mk out, none), [])
  | k :: rest, n, out =>
    match fetch n k with
    | .error err => ((GoMap.nil, some (wrap k err)), [k])
    | .ok v =>
      ((fillMap fetch wrap rest (n + 1) (GoMap.setEntry out k v)).1,
        k :: (fillMap fetch wrap rest (n + 1) (GoMap.setEntry out k v)).2)

/-! ## Example inputs for the Spark side -/

/-- A toy decoder: the bodies "apps", "x1", "x2", "j1", "j2", "s1", "s2" decode to fixed
values, any body decodes as cluster metrics, everything else is rejected. -/
def toyJson : spark.Unmarshal where
  ClusterMetrics := fun b => .ok ⟨b⟩
  Applications := fun b =>
    if b = "apps" then .ok (.mk [⟨"app-1", "first"⟩, ⟨"app-2", "second"⟩])
    else .error (.failure "invalid character")
  ExecutorInfos := fun b =>
    if b = "x1" then .ok (.mk [⟨"driver", 10, 20, 30, 40, 50, 60⟩])
    else if b = "x2" then
      .ok (.mk [⟨"driver", 11, 21, 31, 41, 51, 61⟩, ⟨"1", 12, 22, 32, 42, 52, 62⟩])
    else .error (.failure "invalid character")
  JobInfos := fun b =>
    if b = "j1" then .ok (.mk [⟨1, 8⟩])
    else if b = "j2" then .ok (.mk [⟨2, 16⟩, ⟨3, 4⟩])
    else .error (.failure "invalid character")
  StageInfos := fun b =>
    if b = "s1" then .ok (.mk [⟨1, 100⟩])
    else if b = "s2" then .ok (.mk [⟨2, 200⟩, ⟨3, 300⟩])
    else .error (.failure "invalid character")

/-- A raw client of a cluster hosting the applications `app-1` and `app-2`; when `broken` is
set the requests about `app-2` fail with "boom". -/
def toyRawClient (broken : Bool) (clusterID : String) : spark.RawClientIntf where
  Metrics := .ok ("metrics of " ++ clusterID)
  Applications := .ok "apps"
  AppExecutors := fun _ appID =>
    if appID = "app-1" then .ok "x1"
    else if broken then .error (.failure "boom") else .ok "x2"
  AppJobs := fun _ appID =>
    if appID = "app-1" then .ok "j1"
    else if broken then .error (.failure "boom") else .ok "j2"
  AppStages := fun _ appID =>
    if appID = "app-1" then .ok "s1"
    else if broken then .error (.failure "boom") else .ok "s2"

/-- A raw client of a cluster that cannot be reached. -/
def downRawClient : spark.RawClientIntf where
  Metrics := .error (.failure "down")
  Applications := .error (.failure "down")
  AppExecutors := fun _ _ => .error (.failure "down")
  AppJobs := fun _ _ => .error (.failure "down")
  AppStages := fun _ _ => .error (.failure "down")

/-- A Spark service whose clusters all answer; the cluster `c-down` cannot be reached. -/
def toySparkService : sparkRestService where
  dbsvc := twoPageService
  sparkAPIEndpoint := "https://spark.example"
  sparkUIPort := 40001
  orgID := "org"
  tok := "token"
  sparkClientFactory := fun _ _ _ _ _ clusterID =>
    if clusterID = "c-down" then ⟨downRawClient⟩ else ⟨toyRawClient false clusterID⟩

/-- A Spark service whose requests about `app-2` fail. -/
def brokenSparkService : sparkRestService where
  dbsvc := twoPageService
  sparkAPIEndpoint := "https://spark.example"
  sparkUIPort := 40001
  orgID := "org"
  tok := "token"
  sparkClientFactory := fun _ _ _ _ _ clusterID => ⟨toyRawClient true clusterID⟩

/-- The map of the executors of the two toy applications. -/
def toyExecutors : GoMap spark.Application (Slice spark.ExecutorInfo) :=
  .mk [(⟨"app-1", "first"⟩, .mk [⟨"driver", 10, 20, 30, 40, 50, 60⟩]),
    (⟨"app-2", "second"⟩,
      .mk [⟨"driver", 11, 21, 31, 41, 51, 61⟩, ⟨"1", 12, 22, 32, 42, 52, 62⟩])]

/-- A `sparkService` whose executor fan-out answers `toyExecutors` for every cluster but
`c-down`, for which it fails. -/
def toyExecutorService : sparkService where
  getSparkCoreMetricsForClusters := fun _ => (.mk [], none)
  getSparkCoreMetricsForCluster := fun _ => (⟨""⟩, none)
  getSparkExecutorInfoSliceByApp := fun _ clusterID =>
    if clusterID = "c-down" then (.nil, some (.failure "boom")) else (toyExecutors, none)
  getSparkJobInfoSliceByApp := fun _ _ => (.mk [], none)
  getSparkStageInfoSliceByApp := fun _ _ => (.mk [], none)

/-- Executor records answered for the two toy applications, by position. -/
def toyExecutorRecs (i : Nat) : Slice spark.ExecutorInfo :=
  if i = 0 then .mk [⟨"driver", 10, 20, 30, 40, 50, 60⟩]
  else .mk [⟨"driver", 11, 21, 31, 41, 51, 61⟩, ⟨"1", 12, 22, 32, 42, 52, 62⟩]

/-- Job records answered for the two toy applications, by position. -/
def toyJobRecs (i : Nat) : Slice spark.JobInfo :=
  if i = 0 then .mk [⟨1, 8⟩] else .mk [⟨2, 16⟩, ⟨3, 4⟩]

/-- Stage records answered for the two toy applications, by position. -/
def toyStageRecs (i : Nat) : Slice spark.StageInfo :=
  if i = 0 then .mk [⟨1, 100⟩] else .mk [⟨2, 200⟩, ⟨3, 300⟩]

/-! ## The raw clients (`databricks_raw_client.go`, `internal/spark/raw_client.go`) -/

/-- An argument handed to `fmt.Sprintf`: a Go integer or a Go string. -/
inductive FmtArg where
  | int (n : Int)
  | str (s : String)
deriving DecidableEq, Repr

/-- The text a verb puts in place of its argument: `%d` renders an integer in decimal, with
a leading minus sign when it is negative, and `%s` copies a string. -/
def FmtArg.render : FmtArg → List Char
  | .int n => (toString n).toList
  | .str s => s.toList

/-- Scan of the format of `fmt.Sprintf`, for the formats the sources use; `pending` tells
that the character before was a `%` still to be interpreted.  A verb `%d` or `%s` takes the
next argument and is replaced by its rendering, `%%` gives one `%`, and every other
character is copied (other verbs, and verbs left without an argument, are outside the
formats of the sources and are copied as they stand). -/
def SprintfChars : List Char → Bool → List FmtArg → List Char
  | [], pending, _ => if pending then ['%'] else []
  | c :: rest, false, args =>
    if c = '%' then SprintfChars rest true args else c :: SprintfChars rest false args
  | c :: rest, true, [] =>
    if c = '%' then '%' :: SprintfChars rest false []
    else '%' :: c :: SprintfChars rest false []
  | c :: rest, true, a :: args =>
    if c = 'd' ∨ c = 's' then a.render ++ SprintfChars rest false args
    else if c = '%' then '%' :: SprintfChars rest false (a :: args)
    else '%' :: c :: SprintfChars rest false (a :: args)

/-- The function `fmt.Sprintf(format, args...)`, for the formats the sources use. -/
def Sprintf (format : String) (args : List FmtArg) : String :=
  String.mk (SprintfChars format.toList false args)

/-- The constant `jobsListPath`. -/
def jobsListPath : String := "/api/2.1/jobs/list?expand_tasks=true&limit=%d&offset=%d"

/-- The constant `activeJobRunsPath`. -/
def activeJobRunsPath : String :=
  "/api/2.1/jobs/runs/list?active_only=true&limit=%d&offset=%d"

/-- The constant `completedJobRunsPath`. -/
def completedJobRunsPath : String :=
  "/api/2.1/jobs/runs/list?completed_only=true&expand_tasks=true&job_id=%d&limit=%d&offset=%d"

/-- The constant `clustersListPath`. -/
def clustersListPath : String := "/api/2.0/clusters/list"

/-- The constant `pipelinesPath`. -/
def pipelinesPath : String := "/api/2.0/pipelines"

/-- The constant `pipelinePath`. -/
def pipelinePath : String := "/api/2.0/pipelines/%s"

namespace httpauth

/-- Modelled from the spec: the interface `httpauth.ClientIntf` is not among the sources
(the transport collaborator, "a single operation `get(path) -> (bytes, error)`"). -/
structure ClientIntf where
  Get : String → Except error String

end httpauth

/-- What a method of a raw client does besides returning: a debug line of the logger, with
its message and the path logged, or a request of the transport for a path. -/
inductive Effect where
  | Debug (msg path : String)
  | Get (path : String)
deriving DecidableEq, Repr

/-- The struct `databricksRawClient`; the logger is an output, see `Effect`. -/
structure databricksRawClient where
  authClient : httpauth.ClientIntf

namespace databricksRawClient

/-- The method `jobsList(limit, offset)`: the two Go results as one value, and the effects
in order. -/
def jobsList (c : databricksRawClient) (limit offset : Int) :
    Except error String × List Effect :=
  let path := Sprintf jobsListPath [.int limit, .int offset]
  (c.authClient.Get path, [.Debug "databricksRawClient.jobsList" path, .Get path])

/-- The method `activeJobRuns(limit, offset)`. -/
def activeJobRuns (c : databricksRawClient) (limit offset : Int) :
    Except error String × List Effect :=
  let path := Sprintf activeJobRunsPath [.int limit, .int offset]
  (c.authClient.Get path, [.Debug "databricksRawClient.activeJobRuns" path, .Get path])

/-- The method `completedJobRuns(jobID, limit, offset)`. -/
def completedJobRuns (c : databricksRawClient) (jobID limit offset : Int) :
    Except error String × List Effect :=
  let path := Sprintf completedJobRunsPath [.int jobID, .int limit, .int offset]
  (c.authClient.Get path, [.Debug "databricksRawClient.completedJobRuns" path, .Get path])

/-- The method `clustersList()`. -/
def clustersList (c : databricksRawClient) : Except error String × List Effect :=
  (c.authClient.Get clustersListPath,
    [.Debug "databricksRawClient.clustersList" clustersListPath, .Get clustersListPath])

/-- The method `pipelines()`. -/
def pipelines (c : databricksRawClient) : Except error String × List Effect :=
  (c.authClient.Get pipelinesPath,
    [.Debug "databricksRawClient.pipelines" pipelinesPath, .Get pipelinesPath])

/-- The method `pipeline(s)`. -/
def pipeline (c : databricksRawClient) (s : String) : Except error String × List Effect :=
  let path := Sprintf pipelinePath [.str s]
  (c.authClient.Get path, [.Debug "databricksRawClient.pipeline" path, .Get path])

end databricksRawClient

namespace spark

/-- The constant `metricsPath`. -/
def metricsPath : String := "/metrics/json"

/-- The constant `applicationsPath`. -/
def applicationsPath : String := "/api/v1/applications"

/-- The constant `appExecutorsPathFmt`. -/
def appExecutorsPathFmt : String := applicationsPath ++ "/%s/executors"

/-- The constant `appJobsPathFmt`. -/
def appJobsPathFmt : String := applicationsPath ++ "/%s/jobs"

/-- The constant `appStagesPathFmt`. -/
def appStagesPathFmt : String := applicationsPath ++ "/%s/stages"

/-- The struct `rawClient`. -/
structure rawClient where
  authClient : httpauth.ClientIntf

namespace rawClient

/-- The method `Metrics()`. -/
def Metrics (c : rawClient) : Except error String × List Effect :=
  (c.authClient.Get metricsPath, [.Get metricsPath])

/-- The method `Applications()`. -/
def Applications (c : rawClient) : Except error String × List Effect :=
  (c.authClient.Get applicationsPath, [.Get applicationsPath])

/-- The method `AppExecutors(appID)`. -/
def AppExecutors (c : rawClient) (appID : String) : Except error String × List Effect :=
  (c.authClient.Get (Sprintf appExecutorsPathFmt [.str appID]),
    [.Get (Sprintf appExecutorsPathFmt [.str appID])])

/-- The method `AppJobs(appID)`. -/
def AppJobs (c : rawClient) (appID : String) : Except error String × List Effect :=
  (c.authClient.Get (Sprintf appJobsPathFmt [.str appID]),
    [.Get (Sprintf appJobsPathFmt [.str appID])])

/-- The method `AppStages(appID)`. -/
def AppStages (c : rawClient) (appID : String) : Except error String × List Effect :=
  (c.authClient.Get (Sprintf appStagesPathFmt [.str appID]),
    [.Get (Sprintf appStagesPathFmt [.str appID])])

end rawClient

end spark

namespace sparkRestService

/-- The method `activeJobRuns()` of `sparkRestService`: `panic("implement me")`. -/
def activeJobRuns (_s : sparkRestService) : Outcome jobRun :=
  .panicked "implement me"

/-- The method `completedJobRuns(i, i2)` of `sparkRestService`: `panic("implement me")`. -/
def completedJobRuns (_s : sparkRestService) (_i _i2 : Int) : Outcome jobRun :=
  .panicked "implement me"

/-- The method `runningClusters()` of `sparkRestService`: `panic("implement me")`. -/
def runningClusters (_s : sparkRestService) : Outcome cluster :=
  .panicked "implement me"

/-- The method `runningPipelines()` of `sparkRestService`: `panic("implement me")`. -/
def runningPipelines (_s : sparkRestService) : Outcome pipelineSummary :=
  .panicked "implement me"

/-- The method `jobs()` of `sparkRestService`: `panic("implement me")`. -/
def jobs (_s : sparkRestService) : Outcome job :=
  .panicked "implement me"

end sparkRestService

/-- A transport that answers every path with the path itself. -/
def echoTransport : httpauth.ClientIntf where
  Get := fun path => .ok path

/-! ## The product on `int` -/

theorem wrapInt_of_inRange (x : Int) (h1 : -2 ^ 63 ≤ x) (h2 : x < 2 ^ 63) : wrapInt x = x := by
  unfold wrapInt
  rw [Int.emod_eq_of_lt (by omega) (by omega)]
  omega

theorem intMul_of_inRange (a b : Int) (h1 : -2 ^ 63 ≤ a * b) (h2 : a * b < 2 ^ 63) :
    intMul a b = a * b :=
  wrapInt_of_inRange (a * b) h1 h2

theorem intMul_zero (a : Int) : intMul a 0 = 0 := by
  simp [intMul, wrapInt]

theorem intMul_one (a : Int) (h : -2 ^ 63 ≤ a ∧ a < 2 ^ 63) : intMul a 1 = a := by
  simpa using intMul_of_inRange a 1 (by simpa using h.1) (by simpa using h.2)

/-- Wrapping the second factor first, as Go does with the loop counter, does not change the
wrapped product. -/
theorem intMul_wrapInt_right (a b : Int) : intMul a (wrapInt b) = intMul a b := by
  unfold intMul wrapInt
  congr 1
  rw [Int.emod_def (b + 2 ^ 63)]
  have h : a * (b + 2 ^ 63 - 2 ^ 64 * ((b + 2 ^ 63) / 2 ^ 64) - 2 ^ 63) + 2 ^ 63 =
      a * b + 2 ^ 63 + 2 ^ 64 * (-(a * ((b + 2 ^ 63) / 2 ^ 64))) := by ring
  rw [h, Int.add_mul_emod_self_left]

/-! ## Slices: auxiliary facts -/

namespace Slice

variable {α : Type}

theorem toList_append (s xs : Slice α) : (s.append xs).toList = s.toList ++ xs.toList := by
  unfold append
  cases h : xs.toList with
  | nil => simp
  | cons x t => simp [toList]

theorem toList_appendAll (out : Slice α) (ps : List (Slice α)) :
    (appendAll out ps).toList = out.toList ++ (ps.map toList).flatten := by
  induction ps generalizing out with
  | nil => simp [appendAll]
  | cons p ps ih =>
    have h := ih (out.append p)
    simp only [appendAll, List.foldl_cons] at h ⊢
    rw [h, toList_append]
    simp

theorem appendAll_nil (out : Slice α) : appendAll out [] = out := rfl

theorem appendAll_cons (out p : Slice α) (ps : List (Slice α)) :
    appendAll out (p :: ps) = appendAll (out.append p) ps := rfl

theorem appendAll_singleton (out p : Slice α) : appendAll out [p] = out.append p := rfl

theorem appendAll_concat (out p : Slice α) (ps : List (Slice α)) :
    appendAll out (ps ++ [p]) = (appendAll out ps).append p := by
  simp [appendAll, List.foldl_append]

/-- The index expression `s[len(s)-1]` yields the last element, and fails exactly when the
slice has no element. -/
theorem index_last (s : Slice α) : s.index (s.len - 1) = s.toList.getLast? := by
  unfold index len
  cases h : s.toList with
  | nil => simp
  | cons x t =>
    have h1 : (0 : Int) ≤ ((x :: t).length : Int) - 1 ∧
        ((x :: t).length : Int) - 1 < ((x :: t).length : Int) := by
      simp only [List.length_cons]; push_cast; omega
    rw [if_pos h1, List.getLast?_eq_getElem?]
    congr 1
    simp only [List.length_cons]; push_cast; omega

end Slice

/-! ## The has-more page walks -/

namespace databricksService

theorem jobsLoop_advance (s : databricksService) (pages : Nat → jobsListResponse) :
    ∀ (n i fuel : Nat) (out : Slice job) (calls : List Call),
      (∀ j, i ≤ j → j < i + n →
        s.unmarshaller.jobsList j s.limit (intMul s.limit j) = .ok (pages j) ∧
          (pages j).HasMore = true) →
      s.jobsLoop (fuel + n) i true out calls =
        s.jobsLoop fuel (i + n) true
          (Slice.appendAll out ((List.range' i n).map (fun j => (pages j).Jobs)))
          (calls ++ (List.range' i n).map (fun (j : Nat) => Call.jobsList s.limit (intMul s.limit j))) := by
  intro n
  induction n with
  | zero => intro i fuel out calls _; simp [Slice.appendAll_nil]
  | succ n ih =>
    intro i fuel out calls h
    obtain ⟨hf, hm⟩ := h i (le_refl i) (by omega)
    have hstep : s.jobsLoop (fuel + n + 1) i true out calls =
        s.jobsLoop (fuel + n) (i + 1) true (out.append (pages i).Jobs)
          (calls ++ [Call.jobsList s.limit (intMul s.limit i)]) := by
      simp only [jobsLoop, hf, hm]
    rw [show fuel + (n + 1) = fuel + n + 1 by omega, hstep,
      ih (i + 1) fuel _ _ (fun j h1 h2 => h j (by omega) (by omega))]
    simp [List.range'_succ, Slice.appendAll_cons, Nat.add_assoc, Nat.add_comm 1 n]

theorem jobsLoop_last (s : databricksService) (p : jobsListResponse) (fuel i : Nat)
    (out : Slice job) (calls : List Call)
    (hf : s.unmarshaller.jobsList i s.limit (intMul s.limit i) = .ok p) (hm : p.HasMore = false) :
    s.jobsLoop (fuel + 1) i true out calls =
      some ((out.append p.Jobs, none), calls ++ [Call.jobsList s.limit (intMul s.limit i)]) := by
  simp only [jobsLoop, hf, hm]

theorem jobsLoop_fail (s : databricksService) (e : error) (fuel i : Nat)
    (out : Slice job) (calls : List Call)
    (hf : s.unmarshaller.jobsList i s.limit (intMul s.limit i) = .error e) :
    s.jobsLoop (fuel + 1) i true out calls =
      some ((Slice.nil, some (Errorf "databricksService.jobs(): " e)),
        calls ++ [Call.jobsList s.limit (intMul s.limit i)]) := by
  simp only [jobsLoop, hf]

/-- The walk of `jobs()` over pages `0..k`, page `k` being the first without more. -/
theorem jobs_walk (s : databricksService) (pages : Nat → jobsListResponse) (k fuel : Nat)
    (hfuel : k < fuel)
    (hfetch : ∀ i ≤ k, s.unmarshaller.jobsList i s.limit (intMul s.limit i) = .ok (pages i))
    (hmore : ∀ i < k, (pages i).HasMore = true) (hlast : (pages k).HasMore = false) :
    s.jobs fuel =
      some ((Slice.appendAll Slice.nil ((List.range (k + 1)).map (fun i => (pages i).Jobs)), none),
        (List.range (k + 1)).map (fun (i : Nat) => Call.jobsList s.limit (intMul s.limit i))) := by
  obtain ⟨f, rfl⟩ : ∃ f, fuel = f + 1 + k := ⟨fuel - k - 1, by omega⟩
  unfold jobs
  rw [jobsLoop_advance s pages k 0 (f + 1) Slice.nil []
      (fun j _ h2 => ⟨hfetch j (by omega), hmore j (by omega)⟩),
    jobsLoop_last s (pages (0 + k)) f (0 + k) _ _ (by simpa using hfetch k (le_refl k))
      (by simpa using hlast)]
  simp [List.range_succ, Slice.appendAll_concat, ← List.range_eq_range']

/-- The walk of `jobs()` when the fetch of page `k` fails. -/
theorem jobs_abort (s : databricksService) (pages : Nat → jobsListResponse) (k fuel : Nat)
    (e : error) (hfuel : k < fuel)
    (hreach : ∀ i < k, s.unmarshaller.jobsList i s.limit (intMul s.limit i) = .ok (pages i) ∧
      (pages i).HasMore = true)
    (hfail : s.unmarshaller.jobsList k s.limit (intMul s.limit k) = .error e) :
    s.jobs fuel =
      some ((Slice.nil, some (Errorf "databricksService.jobs(): " e)),
        (List.range (k + 1)).map (fun (i : Nat) => Call.jobsList s.limit (intMul s.limit i))) := by
  obtain ⟨f, rfl⟩ : ∃ f, fuel = f + 1 + k := ⟨fuel - k - 1, by omega⟩
  unfold jobs
  rw [jobsLoop_advance s pages k 0 (f + 1) Slice.nil [] (fun j _ h2 => hreach j (by omega)),
    jobsLoop_fail s e f (0 + k) _ _ (by simpa using hfail)]
  simp [List.range_succ, ← List.range_eq_range']

theorem activeJobRunsLoop_advance (s : databricksService) (pages : Nat → jobRunsResponse) :
    ∀ (n i fuel : Nat) (out : Slice jobRun) (calls : List Call),
      (∀ j, i ≤ j → j < i + n →
        s.unmarshaller.activeJobRuns j s.limit (intMul s.limit j) = .ok (pages j) ∧
          (pages j).HasMore = true) →
      s.activeJobRunsLoop (fuel + n) i true out calls =
        s.activeJobRunsLoop fuel (i + n) true
          (Slice.appendAll out ((List.range' i n).map (fun j => (pages j).Runs)))
          (calls ++
            (List.range' i n).map (fun (j : Nat) => Call.activeJobRuns s.limit (intMul s.limit j))) := by
  intro n
  induction n with
  | zero => intro i fuel out calls _; simp [Slice.appendAll_nil]
  | succ n ih =>
    intro i fuel out calls h
    obtain ⟨hf, hm⟩ := h i (le_refl i) (by omega)
    have hstep : s.activeJobRunsLoop (fuel + n + 1) i true out calls =
        s.activeJobRunsLoop (fuel + n) (i + 1) true (out.append (pages i).Runs)
          (calls ++ [Call.activeJobRuns s.limit (intMul s.limit i)]) := by
      simp only [activeJobRunsLoop, hf, hm]
    rw [show fuel + (n + 1) = fuel + n + 1 by omega, hstep,
      ih (i + 1) fuel _ _ (fun j h1 h2 => h j (by omega) (by omega))]
    simp [List.range'_succ, Slice.appendAll_cons, Nat.add_assoc, Nat.add_comm 1 n]

theorem activeJobRunsLoop_last (s : databricksService) (p : jobRunsResponse) (fuel i : Nat)
    (out : Slice jobRun) (calls : List Call)
    (hf : s.unmarshaller.activeJobRuns i s.limit (intMul s.limit i) = .ok p)
    (hm : p.HasMore = false) :
    s.activeJobRunsLoop (fuel + 1) i true out calls =
      some ((out.append p.Runs, none), calls ++ [Call.activeJobRuns s.limit (intMul s.limit i)]) := by
  simp only [activeJobRunsLoop, hf, hm]

theorem activeJobRunsLoop_fail (s : databricksService) (e : error) (fuel i : Nat)
    (out : Slice jobRun) (calls : List Call)
    (hf : s.unmarshaller.activeJobRuns i s.limit (intMul s.limit i) = .error e) :
    s.activeJobRunsLoop (fuel + 1) i true out calls =
      some ((Slice.nil, some (Errorf "databricksService.activeJobRuns(): " e)),
        calls ++ [Call.activeJobRuns s.limit (intMul s.limit i)]) := by
  simp only [activeJobRunsLoop, hf]

/-- The walk of `activeJobRuns()` over pages `0..k`, page `k` being the first without more. -/
theorem activeJobRuns_walk (s : databricksService) (pages : Nat → jobRunsResponse)
    (k fuel : Nat) (hfuel : k < fuel)
    (hfetch : ∀ i ≤ k, s.unmarshaller.activeJobRuns i s.limit (intMul s.limit i) = .ok (pages i))
    (hmore : ∀ i < k, (pages i).HasMore = true) (hlast : (pages k).HasMore = false) :
    s.activeJobRuns fuel =
      some ((Slice.appendAll Slice.nil ((List.range (k + 1)).map (fun i => (pages i).Runs)), none),
        (List.range (k + 1)).map (fun (i : Nat) => Call.activeJobRuns s.limit (intMul s.limit i))) := by
  obtain ⟨f, rfl⟩ : ∃ f, fuel = f + 1 + k := ⟨fuel - k - 1, by omega⟩
  unfold activeJobRuns
  rw [activeJobRunsLoop_advance s pages k 0 (f + 1) Slice.nil []
      (fun j _ h2 => ⟨hfetch j (by omega), hmore j (by omega)⟩),
    activeJobRunsLoop_last s (pages (0 + k)) f (0 + k) _ _
      (by simpa using hfetch k (le_refl k)) (by simpa using hlast)]
  simp [List.range_succ, Slice.appendAll_concat, ← List.range_eq_range']

/-- The walk of `activeJobRuns()` when the fetch of page `k` fails. -/
theorem activeJobRuns_abort (s : databricksService) (pages : Nat → jobRunsResponse)
    (k fuel : Nat) (e : error) (hfuel : k < fuel)
    (hreach : ∀ i < k, s.unmarshaller.activeJobRuns i s.limit (intMul s.limit i) = .ok (pages i) ∧
      (pages i).HasMore = true)
    (hfail : s.unmarshaller.activeJobRuns k s.limit (intMul s.limit k) = .error e) :
    s.activeJobRuns fuel =
      some ((Slice.nil, some (Errorf "databricksService.activeJobRuns(): " e)),
        (List.range (k + 1)).map (fun (i : Nat) => Call.activeJobRuns s.limit (intMul s.limit i))) := by
  obtain ⟨f, rfl⟩ : ∃ f, fuel = f + 1 + k := ⟨fuel - k - 1, by omega⟩
  unfold activeJobRuns
  rw [activeJobRunsLoop_advance s pages k 0 (f + 1) Slice.nil []
      (fun j _ h2 => hreach j (by omega)),
    activeJobRunsLoop_fail s e f (0 + k) _ _ (by simpa using hfail)]
  simp [List.range_succ, ← List.range_eq_range']

/-! ## The walk of `completedJobRuns` -/

/-- One iteration of the loop of `completedJobRuns` on a page that was fetched. -/
theorem completedJobRunsLoop_step (s : databricksService) (jobID prevStartTime : Int)
    (p : jobRunsResponse) (fuel i : Nat) (out : Slice jobRun) (calls : List Call)
    (hf : s.unmarshaller.completedJobRuns i jobID s.limit (intMul s.limit i) = .ok p) :
    s.completedJobRunsLoop jobID prevStartTime (fuel + 1) i true out calls =
      if prevStartTime = 0 ∨ p.Runs.isNil = true then
        some (.returned (out.append p.Runs) none,
          calls ++ [Call.completedJobRuns jobID s.limit (intMul s.limit i)])
      else
        match p.Runs.toList.getLast? with
        | none =>
          some (.panicked
              ("runtime error: index out of range [" ++ toString (p.Runs.len - 1) ++ "]"),
            calls ++ [Call.completedJobRuns jobID s.limit (intMul s.limit i)])
        | some r =>
          if r.StartTime < prevStartTime then
            some (.returned (out.append p.Runs) none,
              calls ++ [Call.completedJobRuns jobID s.limit (intMul s.limit i)])
          else
            s.completedJobRunsLoop jobID prevStartTime fuel (i + 1) p.HasMore
              (out.append p.Runs)
              (calls ++ [Call.completedJobRuns jobID s.limit (intMul s.limit i)]) := by
  simp only [completedJobRunsLoop, hf, Slice.index_last]

theorem completedJobRunsLoop_done (s : databricksService) (jobID prevStartTime : Int)
    (fuel i : Nat) (out : Slice jobRun) (calls : List Call) :
    s.completedJobRunsLoop jobID prevStartTime fuel i false out calls =
      some (.returned out none, calls) := by
  cases fuel <;> simp only [completedJobRunsLoop]

theorem completedJobRunsLoop_fail (s : databricksService) (jobID prevStartTime : Int)
    (e : error) (fuel i : Nat) (out : Slice jobRun) (calls : List Call)
    (hf : s.unmarshaller.completedJobRuns i jobID s.limit (intMul s.limit i) = .error e) :
    s.completedJobRunsLoop jobID prevStartTime (fuel + 1) i true out calls =
      some (.returned Slice.nil (some (Errorf "databricksService.completedJobRuns(): " e)),
        calls ++ [Call.completedJobRuns jobID s.limit (intMul s.limit i)]) := by
  simp only [completedJobRunsLoop, hf]

theorem Slice_isNil_of_getLast {α : Type} (x : Slice α) (r : α)
    (h : x.toList.getLast? = some r) : ¬ (x.isNil = true) := by
  cases x with
  | nil => simp [Slice.toList] at h
  | mk l => simp [Slice.isNil]

/-- An iteration on a page whose oldest run is not older than the watermark goes on to the
next iteration with the page appended. -/
theorem completedJobRunsLoop_continue (s : databricksService) (jobID prevStartTime : Int)
    (p : jobRunsResponse) (r : jobRun) (fuel i : Nat) (out : Slice jobRun) (calls : List Call)
    (hprev : prevStartTime ≠ 0)
    (hf : s.unmarshaller.completedJobRuns i jobID s.limit (intMul s.limit i) = .ok p)
    (hr : p.Runs.toList.getLast? = some r) (hge : prevStartTime ≤ r.StartTime) :
    s.completedJobRunsLoop jobID prevStartTime (fuel + 1) i true out calls =
      s.completedJobRunsLoop jobID prevStartTime fuel (i + 1) p.HasMore (out.append p.Runs)
        (calls ++ [Call.completedJobRuns jobID s.limit (intMul s.limit i)]) := by
  rw [completedJobRunsLoop_step s jobID prevStartTime p fuel i out calls hf]
  have hnil := Slice_isNil_of_getLast p.Runs r hr
  rw [if_neg (by simp [hprev, hnil]), hr]
  simp only
  rw [if_neg (by omega)]

/-- An iteration on a page whose oldest run is older than the watermark ends the walk. -/
theorem completedJobRunsLoop_stop (s : databricksService) (jobID prevStartTime : Int)
    (p : jobRunsResponse) (r : jobRun) (fuel i : Nat) (out : Slice jobRun) (calls : List Call)
    (hf : s.unmarshaller.completedJobRuns i jobID s.limit (intMul s.limit i) = .ok p)
    (hr : p.Runs.toList.getLast? = some r) (hlt : r.StartTime < prevStartTime) :
    s.completedJobRunsLoop jobID prevStartTime (fuel + 1) i true out calls =
      some (.returned (out.append p.Runs) none,
        calls ++ [Call.completedJobRuns jobID s.limit (intMul s.limit i)]) := by
  rw [completedJobRunsLoop_step s jobID prevStartTime p fuel i out calls hf]
  by_cases h0 : prevStartTime = 0 ∨ p.Runs.isNil = true
  · rw [if_pos h0]
  · rw [if_neg h0, hr]
    simp only
    rw [if_pos hlt]

/-- An iteration on a page whose run list is the nil slice ends the walk without indexing
the list. -/
theorem completedJobRunsLoop_nil_page (s : databricksService) (jobID prevStartTime : Int)
    (p : jobRunsResponse) (fuel i : Nat) (out : Slice jobRun) (calls : List Call)
    (hf : s.unmarshaller.completedJobRuns i jobID s.limit (intMul s.limit i) = .ok p)
    (hnil : p.Runs = Slice.nil) :
    s.completedJobRunsLoop jobID prevStartTime (fuel + 1) i true out calls =
      some (.returned out none,
        calls ++ [Call.completedJobRuns jobID s.limit (intMul s.limit i)]) := by
  rw [completedJobRunsLoop_step s jobID prevStartTime p fuel i out calls hf,
    if_pos (Or.inr (by rw [hnil]; rfl)), hnil]
  rfl

theorem completedJobRunsLoop_advance (s : databricksService) (jobID prevStartTime : Int)
    (pages : Nat → jobRunsResponse) (oldest : Nat → jobRun) (hprev : prevStartTime ≠ 0) :
    ∀ (n i fuel : Nat) (out : Slice jobRun) (calls : List Call),
      (∀ j, i ≤ j → j < i + n →
        s.unmarshaller.completedJobRuns j jobID s.limit (intMul s.limit j) = .ok (pages j) ∧
          (pages j).Runs.toList.getLast? = some (oldest j) ∧
          prevStartTime ≤ (oldest j).StartTime ∧ (pages j).HasMore = true) →
      s.completedJobRunsLoop jobID prevStartTime (fuel + n) i true out calls =
        s.completedJobRunsLoop jobID prevStartTime fuel (i + n) true
          (Slice.appendAll out ((List.range' i n).map (fun j => (pages j).Runs)))
          (calls ++ (List.range' i n).map
            (fun (j : Nat) => Call.completedJobRuns jobID s.limit (intMul s.limit j))) := by
  intro n
  induction n with
  | zero => intro i fuel out calls _; simp [Slice.appendAll_nil]
  | succ n ih =>
    intro i fuel out calls h
    obtain ⟨hf, hr, hge, hm⟩ := h i (le_refl i) (by omega)
    rw [show fuel + (n + 1) = fuel + n + 1 by omega,
      completedJobRunsLoop_continue s jobID prevStartTime (pages i) (oldest i) (fuel + n) i
        out calls hprev hf hr hge, hm,
      ih (i + 1) fuel _ _ (fun j h1 h2 => h j (by omega) (by omega))]
    simp [List.range'_succ, Slice.appendAll_cons, Nat.add_assoc, Nat.add_comm 1 n]

/-- The walk of `completedJobRuns` over pages `0..k`, page `k` being the first whose oldest
run is older than the watermark. -/
theorem completedJobRuns_walk_stop (s : databricksService) (jobID prevStartTime : Int)
    (pages : Nat → jobRunsResponse) (oldest : Nat → jobRun) (k fuel : Nat)
    (hprev : prevStartTime ≠ 0) (hfuel : k < fuel)
    (hfetch : ∀ i ≤ k,
      s.unmarshaller.completedJobRuns i jobID s.limit (intMul s.limit i) = .ok (pages i))
    (hold : ∀ i ≤ k, (pages i).Runs.toList.getLast? = some (oldest i))
    (hcont : ∀ i < k, prevStartTime ≤ (oldest i).StartTime ∧ (pages i).HasMore = true)
    (hstop : (oldest k).StartTime < prevStartTime) :
    s.completedJobRuns jobID prevStartTime fuel =
      some (.returned
          (Slice.appendAll Slice.nil ((List.range (k + 1)).map (fun i => (pages i).Runs))) none,
        (List.range (k + 1)).map
          (fun (i : Nat) => Call.completedJobRuns jobID s.limit (intMul s.limit i))) := by
  obtain ⟨f, rfl⟩ : ∃ f, fuel = f + 1 + k := ⟨fuel - k - 1, by omega⟩
  unfold completedJobRuns
  rw [completedJobRunsLoop_advance s jobID prevStartTime pages oldest hprev k 0 (f + 1)
      Slice.nil []
      (fun j _ h2 => ⟨hfetch j (by omega), hold j (by omega), (hcont j (by omega)).1,
        (hcont j (by omega)).2⟩),
    completedJobRunsLoop_stop s jobID prevStartTime (pages (0 + k)) (oldest (0 + k)) f (0 + k)
      _ _ (by simpa using hfetch k (le_refl k)) (by simpa using hold k (le_refl k))
      (by simpa using hstop)]
  simp [List.range_succ, Slice.appendAll_concat, ← List.range_eq_range']

/-- The walk of `completedJobRuns` when the fetch of page `k` fails. -/
theorem completedJobRuns_abort (s : databricksService) (jobID prevStartTime : Int)
    (pages : Nat → jobRunsResponse) (oldest : Nat → jobRun) (k fuel : Nat) (e : error)
    (hfuel : k < fuel)
    (hreach : ∀ i < k, prevStartTime ≠ 0 ∧
      s.unmarshaller.completedJobRuns i jobID s.limit (intMul s.limit i) = .ok (pages i) ∧
      (pages i).Runs.toList.getLast? = some (oldest i) ∧
      prevStartTime ≤ (oldest i).StartTime ∧ (pages i).HasMore = true)
    (hfail : s.unmarshaller.completedJobRuns k jobID s.limit (intMul s.limit k) = .error e) :
    s.completedJobRuns jobID prevStartTime fuel =
      some (.returned Slice.nil (some (Errorf "databricksService.completedJobRuns(): " e)),
        (List.range (k + 1)).map
          (fun (i : Nat) => Call.completedJobRuns jobID s.limit (intMul s.limit i))) := by
  obtain ⟨f, rfl⟩ : ∃ f, fuel = f + 1 + k := ⟨fuel - k - 1, by omega⟩
  unfold completedJobRuns
  rcases Nat.eq_zero_or_pos k with hk | hk
  · subst hk
    rw [completedJobRunsLoop_fail s jobID prevStartTime e (f + 0) 0 _ _ hfail]
    simp [List.range_succ]
  · have hprev : prevStartTime ≠ 0 := (hreach 0 hk).1
    rw [completedJobRunsLoop_advance s jobID prevStartTime pages oldest hprev k 0 (f + 1)
        Slice.nil [] (fun j _ h2 => (hreach j (by omega)).2),
      completedJobRunsLoop_fail s jobID prevStartTime e f (0 + k) _ _ (by simpa using hfail)]
    simp [List.range_succ, ← List.range_eq_range']

/-- Runs of pages `i .. i+n-1`, in order. -/
theorem flatten_range_succ {α : Type} (f : Nat → List α) (i n : Nat) :
    ((List.range' i (n + 1)).map f).flatten = f i ++ ((List.range' (i + 1) n).map f).flatten := by
  simp [List.range'_succ]

/-- From iteration `i` on, with pages `i..i+n` non-empty, page `i+n` the first without more
and the runs of these pages newest first, the walk returns what it had plus an initial part
of these runs, and every run it leaves out is older than the watermark. -/
theorem completedJobRunsLoop_cutoff (s : databricksService) (jobID prevStartTime : Int)
    (pages : Nat → jobRunsResponse) (hprev : prevStartTime ≠ 0) :
    ∀ (n i fuel : Nat) (out : Slice jobRun) (calls : List Call), n < fuel →
      (∀ j, i ≤ j → j ≤ i + n →
        s.unmarshaller.completedJobRuns j jobID s.limit (intMul s.limit j) = .ok (pages j) ∧
          (pages j).Runs.toList ≠ []) →
      (∀ j, i ≤ j → j < i + n → (pages j).HasMore = true) →
      (pages (i + n)).HasMore = false →
      List.Pairwise (fun a b : jobRun => b.StartTime ≤ a.StartTime)
        ((List.range' i (n + 1)).map (fun j => (pages j).Runs.toList)).flatten →
      ∃ taken rest out1 calls1,
        s.completedJobRunsLoop jobID prevStartTime fuel i true out calls =
            some (.returned out1 none, calls1) ∧
          out1.toList = out.toList ++ taken ∧
          ((List.range' i (n + 1)).map (fun j => (pages j).Runs.toList)).flatten =
            taken ++ rest ∧
          ∀ r ∈ rest, r.StartTime < prevStartTime := by
  intro n
  induction n with
  | zero =>
    intro i fuel out calls hfuel hpages _ hlast _
    obtain ⟨f, rfl⟩ : ∃ f, fuel = f + 1 := ⟨fuel - 1, by omega⟩
    obtain ⟨hf, hne⟩ := hpages i (le_refl i) (by omega)
    obtain ⟨r, hr⟩ : ∃ r, (pages i).Runs.toList.getLast? = some r := by
      cases h : (pages i).Runs.toList.getLast? with
      | none => exact absurd (List.getLast?_eq_none_iff.mp h) hne
      | some r => exact ⟨r, rfl⟩
    refine ⟨(pages i).Runs.toList, [], out.append (pages i).Runs,
      calls ++ [Call.completedJobRuns jobID s.limit (intMul s.limit i)], ?_,
      Slice.toList_append _ _, by simp, by simp⟩
    by_cases hlt : r.StartTime < prevStartTime
    · exact completedJobRunsLoop_stop s jobID prevStartTime (pages i) r f i out calls hf hr hlt
    · rw [completedJobRunsLoop_continue s jobID prevStartTime (pages i) r f i out calls hprev
        hf hr (by omega)]
      have : (pages i).HasMore = false := by simpa using hlast
      rw [this, completedJobRunsLoop_done]
  | succ n ih =>
    intro i fuel out calls hfuel hpages hmore hlast hsorted
    obtain ⟨f, rfl⟩ : ∃ f, fuel = f + 1 := ⟨fuel - 1, by omega⟩
    obtain ⟨hf, hne⟩ := hpages i (le_refl i) (by omega)
    obtain ⟨r, hr⟩ : ∃ r, (pages i).Runs.toList.getLast? = some r := by
      cases h : (pages i).Runs.toList.getLast? with
      | none => exact absurd (List.getLast?_eq_none_iff.mp h) hne
      | some r => exact ⟨r, rfl⟩
    rw [flatten_range_succ] at hsorted ⊢
    obtain ⟨_, hs2, hs3⟩ := List.pairwise_append.mp hsorted
    by_cases hlt : r.StartTime < prevStartTime
    · refine ⟨(pages i).Runs.toList, _, out.append (pages i).Runs, _,
        completedJobRunsLoop_stop s jobID prevStartTime (pages i) r f i out calls hf hr hlt,
        Slice.toList_append _ _, rfl, ?_⟩
      intro b hb
      have := hs3 r (List.mem_of_getLast?_eq_some hr) b hb
      omega
    · obtain ⟨taken, rest, out1, calls1, h1, h2, h3, h4⟩ :=
        ih (i + 1) f (out.append (pages i).Runs)
          (calls ++ [Call.completedJobRuns jobID s.limit (intMul s.limit i)]) (by omega)
          (fun j h1 h2 => hpages j (by omega) (by omega))
          (fun j h1 h2 => hmore j (by omega) (by omega))
          (by rw [show i + 1 + n = i + (n + 1) by omega]; exact hlast) hs2
      refine ⟨(pages i).Runs.toList ++ taken, rest, out1, calls1, ?_, ?_, ?_, h4⟩
      · rw [completedJobRunsLoop_continue s jobID prevStartTime (pages i) r f i out calls hprev
          hf hr (by omega), hmore i (le_refl i) (by omega)]
        exact h1
      · rw [h2, Slice.toList_append, List.append_assoc]
      · rw [h3, List.append_assoc]

end databricksService

/-- An iteration on a fetched page that ends the walk without a panic: first poll, nil run
list, oldest run older than the watermark, or no more pages announced. -/
theorem completedJobRunsLoop_end (s : databricksService) (jobID prevStartTime : Int)
    (p : jobRunsResponse) (fuel i : Nat) (out : Slice jobRun) (calls : List Call)
    (hf : s.unmarshaller.completedJobRuns i jobID s.limit (intMul s.limit i) = .ok p)
    (hend : prevStartTime = 0 ∨ p.Runs.isNil = true ∨
      ∃ r, p.Runs.toList.getLast? = some r ∧
        (r.StartTime < prevStartTime ∨ p.HasMore = false)) :
    s.completedJobRunsLoop jobID prevStartTime (fuel + 1) i true out calls =
      some (.returned (out.append p.Runs) none,
        calls ++ [Call.completedJobRuns jobID s.limit (intMul s.limit i)]) := by
  rw [databricksService.completedJobRunsLoop_step s jobID prevStartTime p fuel i out calls hf]
  by_cases h0 : prevStartTime = 0 ∨ p.Runs.isNil = true
  · rw [if_pos h0]
  · rw [if_neg h0]
    rcases hend with h | h | ⟨r, hr, h⟩
    · exact absurd (Or.inl h) h0
    · exact absurd (Or.inr h) h0
    · rw [hr]
      simp only
      by_cases hlt : r.StartTime < prevStartTime
      · rw [if_pos hlt]
      · rw [if_neg hlt]
        rcases h with h | h
        · exact absurd h hlt
        · rw [h, databricksService.completedJobRunsLoop_done]

/-- The walk of `completedJobRuns` over pages `0..k`, page `k` being the first that ends
it. -/
theorem completedJobRuns_walk_end (s : databricksService) (jobID prevStartTime : Int)
    (pages : Nat → jobRunsResponse) (oldest : Nat → jobRun) (k fuel : Nat) (hfuel : k < fuel)
    (hreach : ∀ i < k, prevStartTime ≠ 0 ∧
      s.unmarshaller.completedJobRuns i jobID s.limit (intMul s.limit i) = .ok (pages i) ∧
      (pages i).Runs.toList.getLast? = some (oldest i) ∧
      prevStartTime ≤ (oldest i).StartTime ∧ (pages i).HasMore = true)
    (hfetch : s.unmarshaller.completedJobRuns k jobID s.limit (intMul s.limit k) = .ok (pages k))
    (hend : prevStartTime = 0 ∨ (pages k).Runs.isNil = true ∨
      ∃ r, (pages k).Runs.toList.getLast? = some r ∧
        (r.StartTime < prevStartTime ∨ (pages k).HasMore = false)) :
    s.completedJobRuns jobID prevStartTime fuel =
      some (.returned
          (Slice.appendAll Slice.nil ((List.range (k + 1)).map (fun i => (pages i).Runs))) none,
        (List.range (k + 1)).map
          (fun (i : Nat) => Call.completedJobRuns jobID s.limit (intMul s.limit i))) := by
  obtain ⟨f, rfl⟩ : ∃ f, fuel = f + 1 + k := ⟨fuel - k - 1, by omega⟩
  unfold databricksService.completedJobRuns
  rcases Nat.eq_zero_or_pos k with hk | hk
  · subst hk
    rw [completedJobRunsLoop_end s jobID prevStartTime (pages 0) (f + 0) 0 _ _ hfetch hend]
    simp [List.range_succ, Slice.appendAll_singleton]
  · have hprev : prevStartTime ≠ 0 := (hreach 0 hk).1
    rw [databricksService.completedJobRunsLoop_advance s jobID prevStartTime pages oldest hprev
        k 0 (f + 1) Slice.nil [] (fun j _ h2 => (hreach j (by omega)).2),
      completedJobRunsLoop_end s jobID prevStartTime (pages (0 + k)) f (0 + k) _ _
        (by simpa using hfetch) (by simpa using hend)]
    simp [List.range_succ, Slice.appendAll_concat, ← List.range_eq_range']

/-! ## Page walks: the claims -/

/-- C1: for every page size and every sequence of job (resp. active-run) pages fetched
without failure in which page `k` is the first with `HasMore = false`, `jobs()` (resp.
`activeJobRuns()`) returns, with a nil error, exactly the items of pages `0..k` concatenated
in that order. -/
theorem jobs_activeJobRuns_concatenate_pages (s : databricksService) (k fuel : Nat)
    (hfuel : k < fuel) :
    (∀ pages : Nat → jobsListResponse,
      (∀ i ≤ k, s.unmarshaller.jobsList i s.limit (intMul s.limit i) = .ok (pages i)) →
      (∀ i < k, (pages i).HasMore = true) → (pages k).HasMore = false →
      ∃ out calls, s.jobs fuel = some ((out, none), calls) ∧
        out.toList = ((List.range (k + 1)).map (fun i => (pages i).Jobs.toList)).flatten) ∧
    (∀ pages : Nat → jobRunsResponse,
      (∀ i ≤ k, s.unmarshaller.activeJobRuns i s.limit (intMul s.limit i) = .ok (pages i)) →
      (∀ i < k, (pages i).HasMore = true) → (pages k).HasMore = false →
      ∃ out calls, s.activeJobRuns fuel = some ((out, none), calls) ∧
        out.toList = ((List.range (k + 1)).map (fun i => (pages i).Runs.toList)).flatten) := by
  refine ⟨fun pages hfetch hmore hlast => ⟨_, _,
      databricksService.jobs_walk s pages k fuel hfuel hfetch hmore hlast, ?_⟩,
    fun pages hfetch hmore hlast => ⟨_, _,
      databricksService.activeJobRuns_walk s pages k fuel hfuel hfetch hmore hlast, ?_⟩⟩
  · rw [Slice.toList_appendAll]; simp [Slice.toList, Function.comp_def]
  · rw [Slice.toList_appendAll]; simp [Slice.toList, Function.comp_def]

theorem jobs_activeJobRuns_concatenate_pages_witness :
    (∃ out calls, twoPageService.jobs 2 = some ((out, none), calls) ∧
      out.toList = [⟨1⟩, ⟨2⟩, ⟨3⟩]) ∧
    (∃ out calls, twoPageService.activeJobRuns 2 = some ((out, none), calls) ∧
      out.toList = [⟨11, 500⟩, ⟨12, 400⟩, ⟨13, 300⟩]) := by
  have h := jobs_activeJobRuns_concatenate_pages twoPageService 1 2 (by decide)
  exact ⟨h.1 twoPageJobs (by intro i hi; interval_cases i <;> rfl)
      (by intro i hi; interval_cases i; rfl) rfl,
    h.2 twoPageRuns (by intro i hi; interval_cases i <;> rfl)
      (by intro i hi; interval_cases i; rfl) rfl⟩

/-- C2: under the same assumptions `jobs()` and `activeJobRuns()` terminate (any bound above
`k` on the number of requests is enough) having issued exactly the `k + 1` requests
`i = 0..k`, the `i`-th with page size `limit` and with the offset `limit*i` as Go computes
it on `int`, and none after the page that reported `HasMore = false`; that offset is the
exact product `i * limit` whenever the product fits in a Go `int`. -/
theorem jobs_activeJobRuns_requests (s : databricksService) (k fuel : Nat)
    (hfuel : k < fuel) :
    (∀ pages : Nat → jobsListResponse,
      (∀ i ≤ k, s.unmarshaller.jobsList i s.limit (intMul s.limit i) = .ok (pages i)) →
      (∀ i < k, (pages i).HasMore = true) → (pages k).HasMore = false →
      ∃ res, s.jobs fuel = some (res,
        (List.range (k + 1)).map
          (fun (i : Nat) => Call.jobsList s.limit (intMul s.limit i)))) ∧
    (∀ pages : Nat → jobRunsResponse,
      (∀ i ≤ k, s.unmarshaller.activeJobRuns i s.limit (intMul s.limit i) = .ok (pages i)) →
      (∀ i < k, (pages i).HasMore = true) → (pages k).HasMore = false →
      ∃ res, s.activeJobRuns fuel = some (res,
        (List.range (k + 1)).map
          (fun (i : Nat) => Call.activeJobRuns s.limit (intMul s.limit i)))) ∧
    (∀ i : Nat, -2 ^ 63 ≤ s.limit * i → s.limit * i < 2 ^ 63 →
      intMul s.limit i = i * s.limit) := by
  refine ⟨fun pages hfetch hmore hlast => ?_, fun pages hfetch hmore hlast => ?_,
    fun i h1 h2 => ?_⟩
  · exact ⟨_, databricksService.jobs_walk s pages k fuel hfuel hfetch hmore hlast⟩
  · exact ⟨_, databricksService.activeJobRuns_walk s pages k fuel hfuel hfetch hmore hlast⟩
  · rw [intMul_of_inRange s.limit i h1 h2, mul_comm]

theorem jobs_activeJobRuns_requests_witness :
    (∃ res, twoPageService.jobs 2 = some (res, [Call.jobsList 2 0, Call.jobsList 2 2])) ∧
    (∃ res, twoPageService.activeJobRuns 2 =
      some (res, [Call.activeJobRuns 2 0, Call.activeJobRuns 2 2])) := by
  have h := jobs_activeJobRuns_requests twoPageService 1 2 (by decide)
  exact ⟨h.1 twoPageJobs (by intro i hi; interval_cases i <;> rfl)
      (by intro i hi; interval_cases i; rfl) rfl,
    h.2.1 twoPageRuns (by intro i hi; interval_cases i <;> rfl)
      (by intro i hi; interval_cases i; rfl) rfl⟩

/-- With the page size 2^62 the third request of `jobs()` carries the offset that the
product 2^62 * 2 wraps to on a 64-bit `int`, -2^63. -/
theorem jobs_offset_wraps :
    hugeLimitService.jobs 3 =
      some ((.mk [⟨1⟩, ⟨2⟩, ⟨3⟩], none),
        [Call.jobsList 4611686018427387904 0,
          Call.jobsList 4611686018427387904 4611686018427387904,
          Call.jobsList 4611686018427387904 (-9223372036854775808)]) := by
  rfl

/-- C3: when the walk of `jobs()`, `activeJobRuns()` or `completedJobRuns(jobID,
prevStartTime)` reaches request `k` (every earlier page was fetched and let the walk go on)
and that request fails with `e`, the operation returns the nil slice, whatever the earlier
pages held, together with an error built by `fmt.Errorf` with `%w` that wraps `e`, and the
requests issued are exactly those of pages `0..k` (the `i`-th with the offset `limit*i` as
Go computes it on `int`), none after the failing one. -/
theorem page_fetch_failure_discards_pages (s : databricksService) (jobID prevStartTime : Int)
    (k fuel : Nat) (e : error) (hfuel : k < fuel) :
    (∀ pages : Nat → jobsListResponse,
      (∀ i < k, s.unmarshaller.jobsList i s.limit (intMul s.limit i) = .ok (pages i) ∧
        (pages i).HasMore = true) →
      s.unmarshaller.jobsList k s.limit (intMul s.limit k) = .error e →
      s.jobs fuel =
        some ((Slice.nil, some (Errorf "databricksService.jobs(): " e)),
          (List.range (k + 1)).map (fun (i : Nat) => Call.jobsList s.limit (intMul s.limit i)))) ∧
    (∀ pages : Nat → jobRunsResponse,
      (∀ i < k, s.unmarshaller.activeJobRuns i s.limit (intMul s.limit i) = .ok (pages i) ∧
        (pages i).HasMore = true) →
      s.unmarshaller.activeJobRuns k s.limit (intMul s.limit k) = .error e →
      s.activeJobRuns fuel =
        some ((Slice.nil, some (Errorf "databricksService.activeJobRuns(): " e)),
          (List.range (k + 1)).map
            (fun (i : Nat) => Call.activeJobRuns s.limit (intMul s.limit i)))) ∧
    (∀ (pages : Nat → jobRunsResponse) (oldest : Nat → jobRun),
      (∀ i < k, prevStartTime ≠ 0 ∧
        s.unmarshaller.completedJobRuns i jobID s.limit (intMul s.limit i) = .ok (pages i) ∧
        (pages i).Runs.toList.getLast? = some (oldest i) ∧
        prevStartTime ≤ (oldest i).StartTime ∧ (pages i).HasMore = true) →
      s.unmarshaller.completedJobRuns k jobID s.limit (intMul s.limit k) = .error e →
      s.completedJobRuns jobID prevStartTime fuel =
        some (.returned Slice.nil
            (some (Errorf "databricksService.completedJobRuns(): " e)),
          (List.range (k + 1)).map
            (fun (i : Nat) => Call.completedJobRuns jobID s.limit (intMul s.limit i)))) ∧
    ∀ pre : String, (Errorf pre e).Unwrap = some e :=
  ⟨fun pages hreach hfail => databricksService.jobs_abort s pages k fuel e hfuel hreach hfail,
    fun pages hreach hfail =>
      databricksService.activeJobRuns_abort s pages k fuel e hfuel hreach hfail,
    fun pages oldest hreach hfail =>
      databricksService.completedJobRuns_abort s jobID prevStartTime pages oldest k fuel e
        hfuel hreach hfail,
    fun _ => rfl⟩

theorem page_fetch_failure_discards_pages_witness :
    failingService.jobs 2 =
        some ((Slice.nil,
            some (.wrapping "databricksService.jobs(): boom" (.failure "boom"))),
          [Call.jobsList 2 0, Call.jobsList 2 2]) ∧
      failingService.activeJobRuns 2 =
        some ((Slice.nil,
            some (.wrapping "databricksService.activeJobRuns(): boom" (.failure "boom"))),
          [Call.activeJobRuns 2 0, Call.activeJobRuns 2 2]) ∧
      failingService.completedJobRuns 7 100 2 =
        some (.returned Slice.nil
            (some (.wrapping "databricksService.completedJobRuns(): boom" (.failure "boom"))),
          [Call.completedJobRuns 7 2 0, Call.completedJobRuns 7 2 2]) := by
  have h := page_fetch_failure_discards_pages failingService 7 100 1 2 (.failure "boom")
    (by decide)
  exact ⟨h.1 (fun _ => ⟨.mk [⟨1⟩, ⟨2⟩], true⟩)
      (by intro i hi; interval_cases i; exact ⟨rfl, rfl⟩) rfl,
    h.2.1 (fun _ => ⟨.mk [⟨11, 500⟩, ⟨12, 400⟩], true⟩)
      (by intro i hi; interval_cases i; exact ⟨rfl, rfl⟩) rfl,
    h.2.2.1 (fun _ => ⟨.mk [⟨11, 500⟩, ⟨12, 400⟩], true⟩) (fun _ => ⟨12, 400⟩)
      (by intro i hi; interval_cases i; exact ⟨by decide, rfl, rfl, by decide, rfl⟩) rfl⟩

/-- C4: `completedJobRuns(jobID, 0)` issues exactly one request, the one for offset 0,
whatever the first page answers; when that request succeeds the operation returns, with a
nil error, exactly the runs of that page (whatever its `HasMore` flag and content). -/
theorem completedJobRuns_first_poll_single_request (s : databricksService) (jobID : Int)
    (fuel : Nat) (hfuel : 0 < fuel) :
    ∃ res, s.completedJobRuns jobID 0 fuel =
        some (res, [Call.completedJobRuns jobID s.limit 0]) ∧
      ∀ p, s.unmarshaller.completedJobRuns 0 jobID s.limit 0 = .ok p →
        ∃ out, res = .returned out none ∧ out.toList = p.Runs.toList := by
  obtain ⟨f, rfl⟩ : ∃ f, fuel = f + 1 := ⟨fuel - 1, by omega⟩
  have h0 : intMul s.limit ((0 : Nat) : Int) = 0 := by simpa using intMul_zero s.limit
  unfold databricksService.completedJobRuns
  cases hresp : s.unmarshaller.completedJobRuns 0 jobID s.limit (intMul s.limit ((0 : Nat) : Int)) with
  | error e =>
    rw [databricksService.completedJobRunsLoop_fail s jobID 0 e f 0 _ _ hresp, h0]
    refine ⟨_, rfl, ?_⟩
    intro p hp
    rw [h0] at hresp
    rw [hresp] at hp
    cases hp
  | ok q =>
    rw [databricksService.completedJobRunsLoop_step s jobID 0 q f 0 _ _ hresp,
      if_pos (Or.inl rfl), h0]
    refine ⟨_, rfl, ?_⟩
    intro p hp
    rw [h0] at hresp
    rw [hresp] at hp
    cases hp
    exact ⟨_, rfl, by rw [Slice.toList_append]; simp [Slice.toList]⟩

theorem completedJobRuns_first_poll_single_request_witness :
    ∃ res, twoPageService.completedJobRuns 7 0 1 = some (res, [Call.completedJobRuns 7 2 0]) ∧
      ∀ p, twoPageService.unmarshaller.completedJobRuns 0 7 2 0 = .ok p →
        ∃ out, res = .returned out none ∧ out.toList = p.Runs.toList :=
  completedJobRuns_first_poll_single_request twoPageService 7 1 (by decide)

/-- C5, as the code behaves: with a non-zero watermark and pages `0..k` fetched and
non-empty, let page `k` be the first page whose oldest (last) run starts strictly before the
watermark or whose `HasMore` flag is false (every page before `k` has an oldest run starting
at or after the watermark, equality included, and announces more).  Then `completedJobRuns`
issues exactly the requests `0..k`, so it stops immediately after page `k` and no earlier
page stopped it, and it returns the runs of pages `0..k` concatenated in order; when page
`k` has an old enough oldest run its `HasMore` flag plays no part. -/
theorem completedJobRuns_stops_after_first_old_or_last_page (s : databricksService)
    (jobID prevStartTime : Int) (pages : Nat → jobRunsResponse) (oldest : Nat → jobRun)
    (k fuel : Nat) (hprev : prevStartTime ≠ 0) (hfuel : k < fuel)
    (hfetch : ∀ i ≤ k,
      s.unmarshaller.completedJobRuns i jobID s.limit (intMul s.limit i) = .ok (pages i))
    (hold : ∀ i ≤ k, (pages i).Runs.toList.getLast? = some (oldest i))
    (hfirst : ∀ i < k,
      ¬ ((oldest i).StartTime < prevStartTime ∨ (pages i).HasMore = false))
    (hstop : (oldest k).StartTime < prevStartTime ∨ (pages k).HasMore = false) :
    ∃ out, s.completedJobRuns jobID prevStartTime fuel =
        some (.returned out none,
          (List.range (k + 1)).map
            (fun (i : Nat) => Call.completedJobRuns jobID s.limit (intMul s.limit i))) ∧
      out.toList = ((List.range (k + 1)).map (fun i => (pages i).Runs.toList)).flatten := by
  refine ⟨_, completedJobRuns_walk_end s jobID prevStartTime pages oldest k fuel hfuel
    (fun i hi => ?_) (hfetch k (le_refl k))
    (Or.inr (Or.inr ⟨oldest k, hold k (le_refl k), hstop⟩)), ?_⟩
  · have h := hfirst i hi
    simp only [not_or, not_lt, Bool.not_eq_false] at h
    exact ⟨hprev, hfetch i (by omega), hold i (by omega), h.1, h.2⟩
  · rw [Slice.toList_appendAll]; simp [Slice.toList, Function.comp_def]

theorem completedJobRuns_stops_after_first_old_or_last_page_witness :
    ∃ out, watermarkService.completedJobRuns 7 75 2 =
        some (.returned out none, [Call.completedJobRuns 7 2 0, Call.completedJobRuns 7 2 2]) ∧
      out.toList = [⟨1, 90⟩, ⟨2, 80⟩, ⟨3, 70⟩, ⟨4, 60⟩] :=
  completedJobRuns_stops_after_first_old_or_last_page watermarkService 7 75 watermarkPages
    watermarkOldest 1 2 (by decide) (by decide)
    (by intro i hi; interval_cases i <;> rfl) (by intro i hi; interval_cases i <;> rfl)
    (by intro i hi; interval_cases i; decide) (Or.inl (by decide))

/-- C5, as stated, fails: with watermark 75, a first page `P0` whose oldest run starts at 80
and whose `HasMore` flag is false, and a second page `P1` whose oldest run starts at 60, the
first page with an oldest run older than the watermark is `P1`, yet the walk makes one
request and returns the runs of `P0` only; for no bound on the number of requests does it
make the two requests and return `P0 ++ P1`. -/
theorem completedJobRuns_last_page_stops_before_old_page :
    earlyLastPageService.unmarshaller.completedJobRuns 0 7 2 0 =
        .ok ⟨.mk [⟨1, 90⟩, ⟨2, 80⟩], false⟩ ∧
      earlyLastPageService.unmarshaller.completedJobRuns 1 7 2 2 =
        .ok ⟨.mk [⟨3, 70⟩, ⟨4, 60⟩], true⟩ ∧
      earlyLastPageService.completedJobRuns 7 75 2 =
        some (.returned (.mk [⟨1, 90⟩, ⟨2, 80⟩]) none, [Call.completedJobRuns 7 2 0]) ∧
      ¬ ∃ fuel, earlyLastPageService.completedJobRuns 7 75 fuel =
        some (.returned (.mk [⟨1, 90⟩, ⟨2, 80⟩, ⟨3, 70⟩, ⟨4, 60⟩]) none,
          [Call.completedJobRuns 7 2 0, Call.completedJobRuns 7 2 2]) := by
  refine ⟨rfl, rfl, rfl, ?_⟩
  rintro ⟨fuel, h⟩
  rcases fuel with _ | fuel
  · have hnone : earlyLastPageService.completedJobRuns 7 75 0 = none := rfl
    rw [hnone] at h
    cases h
  · have h2 := completedJobRuns_walk_end earlyLastPageService 7 75
      (fun _ => ⟨.mk [⟨1, 90⟩, ⟨2, 80⟩], false⟩) (fun _ => ⟨2, 80⟩) 0 (fuel + 1) (by omega)
      (by intro i hi; omega) rfl (Or.inr (Or.inr ⟨⟨2, 80⟩, rfl, Or.inr rfl⟩))
    rw [h2] at h
    simp [List.range_succ] at h

/-- C6, as the code behaves: with watermark 75, a first page `P0` that announces more and
whose oldest run starts at 100, and a second page `P1` whose oldest run starts at 50,
`completedJobRuns` issues exactly two requests (offsets 0 and `limit`): `P0` does not stop the
walk, `P1` does, and the runs of `P0` followed by those of `P1` are returned. -/
theorem completedJobRuns_watermark_between_pages (s : databricksService) (jobID : Int)
    (P0 P1 : jobRunsResponse) (r0 r1 : jobRun) (fuel : Nat) (hfuel : 1 < fuel)
    (h0 : s.unmarshaller.completedJobRuns 0 jobID s.limit 0 = .ok P0)
    (hmore : P0.HasMore = true)
    (hr0 : P0.Runs.toList.getLast? = some r0) (ht0 : r0.StartTime = 100)
    (h1 : s.unmarshaller.completedJobRuns 1 jobID s.limit s.limit = .ok P1)
    (hr1 : P1.Runs.toList.getLast? = some r1) (ht1 : r1.StartTime = 50) :
    ∃ out, s.completedJobRuns jobID 75 fuel =
        some (.returned out none,
          [Call.completedJobRuns jobID s.limit 0, Call.completedJobRuns jobID s.limit s.limit]) ∧
      out.toList = P0.Runs.toList ++ P1.Runs.toList := by
  have e0 : intMul s.limit 0 = 0 := intMul_zero s.limit
  have e1 : intMul s.limit 1 = s.limit := intMul_one s.limit s.limitInRange
  have h := databricksService.completedJobRuns_walk_stop s jobID 75
    (fun i => if i = 0 then P0 else P1) (fun i => if i = 0 then r0 else r1) 1 fuel
    (by decide) hfuel
    (by intro i hi; interval_cases i <;> simp [h0, h1, e0, e1])
    (by intro i hi; interval_cases i <;> simp [hr0, hr1])
    (by intro i hi; interval_cases i; simp [ht0, hmore])
    (by simp [ht1])
  refine ⟨_, by simpa [List.range_succ, e0, e1] using h, ?_⟩
  rw [Slice.toList_appendAll]; simp [Slice.toList, List.range_succ]

theorem completedJobRuns_watermark_between_pages_witness :
    ∃ out, hundredFiftyService.completedJobRuns 7 75 2 =
        some (.returned out none, [Call.completedJobRuns 7 2 0, Call.completedJobRuns 7 2 2]) ∧
      out.toList = [⟨1, 120⟩, ⟨2, 100⟩] ++ [⟨3, 60⟩, ⟨4, 50⟩] :=
  completedJobRuns_watermark_between_pages hundredFiftyService 7
    ⟨.mk [⟨1, 120⟩, ⟨2, 100⟩], true⟩ ⟨.mk [⟨3, 60⟩, ⟨4, 50⟩], false⟩ ⟨2, 100⟩ ⟨4, 50⟩ 2
    (by decide) rfl rfl rfl rfl rfl rfl rfl

/-- C6, as stated, fails: on pages `P0` (more announced, oldest run starting at 100) and `P1`
(oldest run starting at 50) with watermark 75 the walk makes two requests and returns the
runs of both pages; for no bound on the number of requests does it end after a single one. -/
theorem completedJobRuns_watermark_not_single_request :
    hundredFiftyService.unmarshaller.completedJobRuns 0 7 2 0 =
        .ok ⟨.mk [⟨1, 120⟩, ⟨2, 100⟩], true⟩ ∧
      hundredFiftyService.unmarshaller.completedJobRuns 1 7 2 2 =
        .ok ⟨.mk [⟨3, 60⟩, ⟨4, 50⟩], false⟩ ∧
      hundredFiftyService.completedJobRuns 7 75 2 =
        some (.returned (.mk [⟨1, 120⟩, ⟨2, 100⟩, ⟨3, 60⟩, ⟨4, 50⟩]) none,
          [Call.completedJobRuns 7 2 0, Call.completedJobRuns 7 2 2]) ∧
      ¬ ∃ fuel res call, hundredFiftyService.completedJobRuns 7 75 fuel = some (res, [call]) := by
  refine ⟨rfl, rfl, rfl, ?_⟩
  rintro ⟨fuel, res, call, h⟩
  rcases fuel with _ | _ | fuel
  · have hnone : hundredFiftyService.completedJobRuns 7 75 0 = none := rfl
    rw [hnone] at h
    cases h
  · have hnone : hundredFiftyService.completedJobRuns 7 75 (0 + 1) = none := rfl
    rw [hnone] at h
    cases h
  · have h2 := databricksService.completedJobRuns_walk_stop hundredFiftyService 7 75
      (fun i => if i = 0 then ⟨.mk [⟨1, 120⟩, ⟨2, 100⟩], true⟩
        else ⟨.mk [⟨3, 60⟩, ⟨4, 50⟩], false⟩)
      (fun i => if i = 0 then ⟨2, 100⟩ else ⟨4, 50⟩) 1 (fuel + 1 + 1)
      (by decide) (by omega)
      (by intro i hi; interval_cases i <;> rfl) (by intro i hi; interval_cases i <;> rfl)
      (by intro i hi; interval_cases i; exact ⟨by decide, rfl⟩) (by decide)
    rw [h2] at h
    simp [List.range_succ] at h

/-- C7, failing input: a fetched completed-run page whose run list is present but holds no
run, with the non-zero watermark 75, makes `completedJobRuns` panic on the index expression
(index -1) instead of returning. -/
theorem completedJobRuns_empty_page_panics (fuel : Nat) :
    emptyPageService.unmarshaller.completedJobRuns 0 7 2 0 = .ok ⟨.mk [], false⟩ ∧
      emptyPageService.completedJobRuns 7 75 (fuel + 1) =
        some (.panicked "runtime error: index out of range [-1]",
          [Call.completedJobRuns 7 2 0]) :=
  ⟨rfl, rfl⟩

/-- C8: with a non-zero watermark, pages `0..m` fetched and non-empty, page `m` the first with
`HasMore = false`, and the runs `H` of pages `0..m` ordered newest first, `completedJobRuns`
returns a list `out` with `H = out ++ rest` where every run of `rest` starts strictly before
the watermark; hence every run of `H` starting at or after the watermark is returned. -/
theorem completedJobRuns_keeps_runs_since_watermark (s : databricksService)
    (jobID prevStartTime : Int) (pages : Nat → jobRunsResponse) (m fuel : Nat)
    (hprev : prevStartTime ≠ 0) (hfuel : m < fuel)
    (hfetch : ∀ i ≤ m,
      s.unmarshaller.completedJobRuns i jobID s.limit (intMul s.limit i) = .ok (pages i))
    (hne : ∀ i ≤ m, (pages i).Runs.toList ≠ [])
    (hmore : ∀ i < m, (pages i).HasMore = true) (hlast : (pages m).HasMore = false)
    (hsorted : List.Pairwise (fun a b : jobRun => b.StartTime ≤ a.StartTime)
      ((List.range (m + 1)).map (fun i => (pages i).Runs.toList)).flatten) :
    ∃ out calls rest,
      s.completedJobRuns jobID prevStartTime fuel = some (.returned out none, calls) ∧
        ((List.range (m + 1)).map (fun i => (pages i).Runs.toList)).flatten =
          out.toList ++ rest ∧
        (∀ r ∈ rest, r.StartTime < prevStartTime) ∧
        ∀ r ∈ ((List.range (m + 1)).map (fun i => (pages i).Runs.toList)).flatten,
          prevStartTime ≤ r.StartTime → r ∈ out.toList := by
  rw [List.range_eq_range'] at hsorted ⊢
  obtain ⟨taken, rest, out1, calls1, h1, h2, h3, h4⟩ :=
    databricksService.completedJobRunsLoop_cutoff s jobID prevStartTime pages hprev m 0 fuel
      Slice.nil [] hfuel
      (fun j _ hj => ⟨hfetch j (by omega), hne j (by omega)⟩)
      (fun j _ hj => hmore j (by omega)) (by simpa using hlast) hsorted
  have h2' : out1.toList = taken := by simpa [Slice.toList] using h2
  refine ⟨out1, calls1, rest, h1, by rw [h3, h2'], h4, ?_⟩
  intro r hr hge
  rw [h3, List.mem_append] at hr
  rcases hr with hr | hr
  · rw [h2']; exact hr
  · have := h4 r hr
    omega

theorem completedJobRuns_keeps_runs_since_watermark_witness :
    ∃ out calls rest,
      watermarkService.completedJobRuns 7 75 3 = some (.returned out none, calls) ∧
        ((List.range (2 + 1)).map (fun i => (watermarkPages i).Runs.toList)).flatten =
          out.toList ++ rest ∧
        (∀ r ∈ rest, r.StartTime < 75) ∧
        ∀ r ∈ ((List.range (2 + 1)).map (fun i => (watermarkPages i).Runs.toList)).flatten,
          (75 : Int) ≤ r.StartTime → r ∈ out.toList :=
  completedJobRuns_keeps_runs_since_watermark watermarkService 7 75 watermarkPages 2 3
    (by decide) (by decide)
    (by intro i hi; interval_cases i <;> rfl)
    (by intro i hi; interval_cases i <;> decide)
    (by intro i hi; interval_cases i <;> rfl) rfl (by decide)

/-! ## Cluster filter and pipeline resolution -/

theorem flatten_map_singleton {α β : Type} (f : α → β) (l : List α) :
    (l.map (fun x => [f x])).flatten = l.map f := by
  induction l with
  | nil => rfl
  | cons a t ih => simp [ih]

theorem runningClustersLoop_toList (l : List cluster) (out : Slice cluster) :
    (databricksService.runningClustersLoop l out).toList =
      out.toList ++ l.filter (fun c => decide (c.State = "RUNNING")) := by
  induction l generalizing out with
  | nil => simp [databricksService.runningClustersLoop]
  | cons c rest ih =>
    by_cases hc : c.State = "RUNNING"
    · rw [databricksService.runningClustersLoop, if_neg (by simp [hc]), ih,
        Slice.toList_append]
      simp [hc, Slice.toList]
    · simp [databricksService.runningClustersLoop, hc, ih]

theorem runningPipelinesLoop_resolved (s : databricksService)
    (details : Nat → pipelineResponse) :
    ∀ (statuses : List pipelineStatus) (n : Nat) (out : Slice pipelineSummary)
      (calls : List Call),
      (∀ p ∈ (statuses.filter (fun st => decide (st.State = "RUNNING"))).enumFrom n,
        s.unmarshaller.pipeline p.1 p.2.PipelineId = .ok (details p.1)) →
      s.runningPipelinesLoop statuses n out calls =
        ((Slice.appendAll out
            (((statuses.filter (fun st => decide (st.State = "RUNNING"))).enumFrom n).map
              (fun p => Slice.mk [⟨p.2.PipelineId, p.2.Name, (details p.1).ClusterId⟩])),
          none),
          calls ++ (statuses.filter (fun st => decide (st.State = "RUNNING"))).map
            (fun st => Call.pipeline st.PipelineId)) := by
  intro statuses
  induction statuses with
  | nil => intro n out calls _; simp [databricksService.runningPipelinesLoop, Slice.appendAll_nil]
  | cons st rest ih =>
    intro n out calls h
    by_cases hst : st.State = "RUNNING"
    · simp only [hst, decide_True, List.filter_cons_of_pos, List.enumFrom_cons,
        List.mem_cons, forall_eq_or_imp] at h
      obtain ⟨hd, hrest⟩ := h
      simp only [databricksService.runningPipelinesLoop, hst, ne_eq, not_true_eq_false,
        if_false, hd]
      rw [ih (n + 1) _ _ hrest]
      simp [hst, List.enumFrom_cons, Slice.appendAll_cons]
    · simp only [hst, decide_False, Bool.false_eq_true, not_false_eq_true,
        List.filter_cons_of_neg] at h
      simp only [databricksService.runningPipelinesLoop, hst, ne_eq, not_false_eq_true,
        if_true]
      rw [ih n out calls h]
      simp [hst]

/-- C9: for every cluster roster the unmarshaller returns, `runningClusters()` makes the one
roster call and returns, with a nil error, exactly the clusters of the roster whose `State`
is the string "RUNNING" (string equality, so case-sensitive), each once and in roster
order. -/
theorem runningClusters_keeps_running_in_order (s : databricksService)
    (cl : clusterListResponse) (hroster : s.unmarshaller.clusterList = .ok cl) :
    ∃ out, s.runningClusters = ((out, none), [Call.clusterList]) ∧
      out.toList = cl.Clusters.toList.filter (fun c => decide (c.State = "RUNNING")) := by
  refine ⟨databricksService.runningClustersLoop cl.Clusters.toList Slice.nil, ?_, ?_⟩
  · simp only [databricksService.runningClusters, hroster]
  · rw [runningClustersLoop_toList]; simp [Slice.toList]

theorem runningClusters_keeps_running_in_order_witness :
    ∃ out, rosterService.runningClusters = ((out, none), [Call.clusterList]) ∧
      out.toList = [⟨"c1", "RUNNING"⟩, ⟨"c3", "RUNNING"⟩] :=
  runningClusters_keeps_running_in_order rosterService
    ⟨.mk [⟨"c1", "RUNNING"⟩, ⟨"c2", "TERMINATED"⟩, ⟨"c3", "RUNNING"⟩, ⟨"c4", "PENDING"⟩]⟩ rfl

/-- C10: for every list of pipeline statuses, when the detail call made for each status in
state "RUNNING" succeeds (the `j`-th such call answering `details j`), `runningPipelines()`
issues, after the listing call, exactly one detail call per running status, in list order
and with that status's pipeline id, none for the other statuses, and returns with a nil
error one summary per running status, in the same order, made of that status's pipeline id
and name and of the cluster id answered by the detail call made for it. -/
theorem runningPipelines_resolves_running (s : databricksService) (ps : pipelinesResponse)
    (details : Nat → pipelineResponse) (hlist : s.unmarshaller.pipelines = .ok ps)
    (hdetail : ∀ p ∈ (ps.Statuses.toList.filter (fun st => decide (st.State = "RUNNING"))).enum,
      s.unmarshaller.pipeline p.1 p.2.PipelineId = .ok (details p.1)) :
    ∃ out, s.runningPipelines =
        ((out, none),
          Call.pipelines ::
            (ps.Statuses.toList.filter (fun st => decide (st.State = "RUNNING"))).map
              (fun st => Call.pipeline st.PipelineId)) ∧
      out.toList =
        (ps.Statuses.toList.filter (fun st => decide (st.State = "RUNNING"))).enum.map
          (fun p => ⟨p.2.PipelineId, p.2.Name, (details p.1).ClusterId⟩) := by
  refine ⟨Slice.appendAll Slice.nil
    (((ps.Statuses.toList.filter (fun st => decide (st.State = "RUNNING"))).enumFrom 0).map
      (fun p => Slice.mk [⟨p.2.PipelineId, p.2.Name, (details p.1).ClusterId⟩])), ?_, ?_⟩
  · simp only [databricksService.runningPipelines, hlist]
    rw [runningPipelinesLoop_resolved s details ps.Statuses.toList 0 Slice.nil
      [Call.pipelines] hdetail]
    rfl
  · rw [Slice.toList_appendAll, List.map_map]
    exact flatten_map_singleton
      (fun p : Nat × pipelineStatus => (⟨p.2.PipelineId, p.2.Name, (details p.1).ClusterId⟩ :
        pipelineSummary)) _

theorem runningPipelines_resolves_running_witness :
    ∃ out, rosterService.runningPipelines =
        ((out, none), [Call.pipelines, Call.pipeline "a"]) ∧
      out.toList = [⟨"a", "alpha", "c-a"⟩] :=
  runningPipelines_resolves_running rosterService
    ⟨.mk [⟨"a", "alpha", "RUNNING"⟩, ⟨"b", "beta", "STOPPED"⟩]⟩ (fun _ => ⟨"c-a"⟩) rfl
    (by
      intro p hp
      have hp1 : p = (0, ⟨"a", "alpha", "RUNNING"⟩) := by
        simpa [Slice.toList, List.enum, List.enumFrom, List.filter] using hp
      subst hp1
      rfl)

/-! ## Pipeline resolution: failure of a detail call -/

theorem runningPipelinesLoop_abort (s : databricksService) (details : Nat → pipelineResponse)
    (p : pipelineStatus) (post : List pipelineStatus) (e : error)
    (hrun : p.State = "RUNNING") :
    ∀ (pre : List pipelineStatus) (n : Nat) (out : Slice pipelineSummary) (calls : List Call),
      (∀ q ∈ (pre.filter (fun st => decide (st.State = "RUNNING"))).enumFrom n,
        s.unmarshaller.pipeline q.1 q.2.PipelineId = .ok (details q.1)) →
      s.unmarshaller.pipeline
          (n + (pre.filter (fun st => decide (st.State = "RUNNING"))).length) p.PipelineId =
        .error e →
      s.runningPipelinesLoop (pre ++ p :: post) n out calls =
        ((Slice.nil,
          some (Errorf
            ("databricksService.runningPipelines(): failed to get pipeline info: pipeline id: "
              ++ p.PipelineId ++ ": ") e)),
          calls ++ (pre.filter (fun st => decide (st.State = "RUNNING"))).map
              (fun st => Call.pipeline st.PipelineId) ++ [Call.pipeline p.PipelineId]) := by
  intro pre
  induction pre with
  | nil =>
    intro n out calls _ hfail
    simp only [List.filter_nil, List.length_nil, Nat.add_zero] at hfail
    simp only [List.nil_append, databricksService.runningPipelinesLoop, hrun, ne_eq,
      not_true_eq_false, if_false, hfail]
    simp
  | cons st rest ih =>
    intro n out calls h hfail
    by_cases hst : st.State = "RUNNING"
    · simp only [hst, decide_True, List.filter_cons_of_pos, List.enumFrom_cons,
        List.mem_cons, forall_eq_or_imp, List.length_cons] at h hfail
      obtain ⟨hd, hrest⟩ := h
      rw [List.cons_append, databricksService.runningPipelinesLoop]
      simp only [hst, ne_eq, not_true_eq_false, if_false, hd]
      rw [ih (n + 1) _ _ hrest (by rw [← hfail]; congr 1; omega)]
      simp [hst]
    · simp only [hst, decide_False, Bool.false_eq_true, not_false_eq_true,
        List.filter_cons_of_neg] at h hfail
      rw [List.cons_append, databricksService.runningPipelinesLoop]
      simp only [hst, ne_eq, not_false_eq_true, if_true]
      rw [ih n out calls h hfail]
      simp [hst]

/-- C11: when the statuses are `pre ++ p :: post`, `p` is in state "RUNNING", the detail
calls for the running statuses of `pre` succeed and the detail call for `p` fails with `e`,
`runningPipelines()` returns the nil slice (no summary of the earlier pipelines) and an error
that wraps `e` and whose message is the fixed text ending in "pipeline id: ", then the
pipeline id of `p`, then ": " and the message of `e`; the calls made are the listing call, the
detail calls of the running statuses of `pre` and the failing one, and none for `post`. -/
theorem runningPipelines_detail_failure_aborts (s : databricksService)
    (ps : pipelinesResponse) (details : Nat → pipelineResponse)
    (pre post : List pipelineStatus) (p : pipelineStatus) (e : error)
    (hlist : s.unmarshaller.pipelines = .ok ps)
    (hsplit : ps.Statuses.toList = pre ++ p :: post) (hrun : p.State = "RUNNING")
    (hearlier : ∀ q ∈ (pre.filter (fun st => decide (st.State = "RUNNING"))).enum,
      s.unmarshaller.pipeline q.1 q.2.PipelineId = .ok (details q.1))
    (hfail : s.unmarshaller.pipeline
      (pre.filter (fun st => decide (st.State = "RUNNING"))).length p.PipelineId = .error e) :
    ∃ err, s.runningPipelines =
        ((Slice.nil, some err),
          Call.pipelines ::
            ((pre.filter (fun st => decide (st.State = "RUNNING"))).map
              (fun st => Call.pipeline st.PipelineId) ++ [Call.pipeline p.PipelineId])) ∧
      err.Unwrap = some e ∧
      err.Error =
        "databricksService.runningPipelines(): failed to get pipeline info: pipeline id: "
          ++ p.PipelineId ++ ": " ++ e.Error := by
  refine ⟨Errorf
    ("databricksService.runningPipelines(): failed to get pipeline info: pipeline id: "
      ++ p.PipelineId ++ ": ") e, ?_, rfl, rfl⟩
  simp only [databricksService.runningPipelines, hlist, hsplit]
  rw [runningPipelinesLoop_abort s details p post e hrun pre 0 Slice.nil [Call.pipelines]
    hearlier (by simpa using hfail)]
  simp

theorem runningPipelines_detail_failure_aborts_witness :
    ∃ err, brokenDetailService.runningPipelines =
        ((Slice.nil, some err),
          [Call.pipelines, Call.pipeline "a", Call.pipeline "c"]) ∧
      err.Unwrap = some (.failure "boom") ∧
      err.Error =
        "databricksService.runningPipelines(): failed to get pipeline info: pipeline id: c: boom" :=
  runningPipelines_detail_failure_aborts brokenDetailService
    ⟨.mk [⟨"a", "alpha", "RUNNING"⟩, ⟨"b", "beta", "STOPPED"⟩,
      ⟨"c", "gamma", "RUNNING"⟩, ⟨"d", "delta", "RUNNING"⟩]⟩ (fun _ => ⟨"c-a"⟩)
    [⟨"a", "alpha", "RUNNING"⟩, ⟨"b", "beta", "STOPPED"⟩] [⟨"d", "delta", "RUNNING"⟩]
    ⟨"c", "gamma", "RUNNING"⟩ (.failure "boom") rfl rfl rfl
    (by
      intro q hq
      have hq1 : q = (0, ⟨"a", "alpha", "RUNNING"⟩) := by
        simpa [List.enum, List.enumFrom, List.filter] using hq
      subst hq1
      rfl)
    rfl

/-! ## Error message of `completedJobRuns` -/

theorem mentions_of_eq (msg part : String) (a b : List Char)
    (h : msg.toList = a ++ part.toList ++ b) : mentions msg part = true := by
  unfold mentions
  rw [decide_eq_true_iff]
  exact ⟨a, b, h.symm⟩

/-- C15, as the code behaves: when the walk of `completedJobRuns(jobID, prevStartTime)`
reaches a page fetch that fails with `e`, the returned error wraps `e` and its message is
"databricksService.completedJobRuns(): " followed by the message of `e`; it names the logical
operation, and nothing of it depends on `jobID`. -/
theorem completedJobRuns_failure_message (s : databricksService) (jobID prevStartTime : Int)
    (pages : Nat → jobRunsResponse) (oldest : Nat → jobRun) (k fuel : Nat) (e : error)
    (hfuel : k < fuel)
    (hreach : ∀ i < k, prevStartTime ≠ 0 ∧
      s.unmarshaller.completedJobRuns i jobID s.limit (intMul s.limit i) = .ok (pages i) ∧
      (pages i).Runs.toList.getLast? = some (oldest i) ∧
      prevStartTime ≤ (oldest i).StartTime ∧ (pages i).HasMore = true)
    (hfail : s.unmarshaller.completedJobRuns k jobID s.limit (intMul s.limit k) = .error e) :
    ∃ err calls,
      s.completedJobRuns jobID prevStartTime fuel = some (.returned Slice.nil (some err), calls) ∧
        err.Unwrap = some e ∧
        err.Error = "databricksService.completedJobRuns(): " ++ e.Error ∧
        mentions err.Error "completedJobRuns" = true := by
  refine ⟨Errorf "databricksService.completedJobRuns(): " e, _,
    databricksService.completedJobRuns_abort s jobID prevStartTime pages oldest k fuel e hfuel
      hreach hfail, rfl, rfl, ?_⟩
  refine mentions_of_eq _ _ "databricksService.".toList ("(): ".toList ++ e.Error.toList) ?_
  simp [Errorf, error.Error, String.toList]

theorem completedJobRuns_failure_message_witness :
    ∃ err calls,
      failingService.completedJobRuns 123456 100 2 =
          some (.returned Slice.nil (some err), calls) ∧
        err.Unwrap = some (.failure "boom") ∧
        err.Error = "databricksService.completedJobRuns(): " ++ "boom" ∧
        mentions err.Error "completedJobRuns" = true :=
  completedJobRuns_failure_message failingService 123456 100
    (fun _ => ⟨.mk [⟨11, 500⟩, ⟨12, 400⟩], true⟩) (fun _ => ⟨12, 400⟩) 1 2 (.failure "boom")
    (by decide)
    (by intro i hi; interval_cases i; exact ⟨by decide, rfl, rfl, by decide, rfl⟩) rfl

/-- C15, as stated, fails: with job id 123456 and a second page fetch failing with "boom",
the message of the returned error is "databricksService.completedJobRuns(): boom"; it names
the operation but the job id does not occur in it. -/
theorem completedJobRuns_failure_message_without_job_id :
    failingService.completedJobRuns 123456 100 2 =
        some (.returned Slice.nil
            (some (.wrapping "databricksService.completedJobRuns(): boom" (.failure "boom"))),
          [Call.completedJobRuns 123456 2 0, Call.completedJobRuns 123456 2 2]) ∧
      mentions "databricksService.completedJobRuns(): boom" "completedJobRuns" = true ∧
      mentions "databricksService.completedJobRuns(): boom" (toString (123456 : Int)) = false := by
  refine ⟨rfl, by decide, by decide⟩

/-! ## Repeated objects -/

theorem count_toList_appendAll {α : Type} [DecidableEq α] (f : Nat → Slice α) (n : Nat)
    (x : α) :
    (Slice.appendAll Slice.nil ((List.range n).map f)).toList.count x =
      ((List.range n).map (fun i => (f i).toList.count x)).sum := by
  rw [Slice.toList_appendAll, List.count_append, List.count_flatten, List.map_map,
    List.map_map]
  simp [Slice.toList, Function.comp_def]

/-- C16, as the code behaves: the three walks return the plain concatenation of the pages
they fetched, so every object occurs in the result exactly as many times as it occurs in
those pages together (nothing is removed).  Pages `0..k` are the pages fetched: for `jobs()`
and `activeJobRuns()` page `k` is the first with `HasMore = false`; for `completedJobRuns`
page `k` is the first that ends the walk. -/
theorem walks_keep_every_occurrence (s : databricksService) (jobID prevStartTime : Int)
    (k fuel : Nat) (hfuel : k < fuel) :
    (∀ pages : Nat → jobsListResponse,
      (∀ i ≤ k, s.unmarshaller.jobsList i s.limit (intMul s.limit i) = .ok (pages i)) →
      (∀ i < k, (pages i).HasMore = true) → (pages k).HasMore = false →
      ∃ out calls, s.jobs fuel = some ((out, none), calls) ∧
        ∀ x, out.toList.count x =
          ((List.range (k + 1)).map (fun i => (pages i).Jobs.toList.count x)).sum) ∧
    (∀ pages : Nat → jobRunsResponse,
      (∀ i ≤ k, s.unmarshaller.activeJobRuns i s.limit (intMul s.limit i) = .ok (pages i)) →
      (∀ i < k, (pages i).HasMore = true) → (pages k).HasMore = false →
      ∃ out calls, s.activeJobRuns fuel = some ((out, none), calls) ∧
        ∀ x, out.toList.count x =
          ((List.range (k + 1)).map (fun i => (pages i).Runs.toList.count x)).sum) ∧
    (∀ (pages : Nat → jobRunsResponse) (oldest : Nat → jobRun),
      (∀ i < k, prevStartTime ≠ 0 ∧
        s.unmarshaller.completedJobRuns i jobID s.limit (intMul s.limit i) = .ok (pages i) ∧
        (pages i).Runs.toList.getLast? = some (oldest i) ∧
        prevStartTime ≤ (oldest i).StartTime ∧ (pages i).HasMore = true) →
      s.unmarshaller.completedJobRuns k jobID s.limit (intMul s.limit k) = .ok (pages k) →
      (prevStartTime = 0 ∨ (pages k).Runs.isNil = true ∨
        ∃ r, (pages k).Runs.toList.getLast? = some r ∧
          (r.StartTime < prevStartTime ∨ (pages k).HasMore = false)) →
      ∃ out calls, s.completedJobRuns jobID prevStartTime fuel =
          some (.returned out none, calls) ∧
        ∀ x, out.toList.count x =
          ((List.range (k + 1)).map (fun i => (pages i).Runs.toList.count x)).sum) := by
  refine ⟨fun pages hfetch hmore hlast => ⟨_, _,
      databricksService.jobs_walk s pages k fuel hfuel hfetch hmore hlast, fun x => ?_⟩,
    fun pages hfetch hmore hlast => ⟨_, _,
      databricksService.activeJobRuns_walk s pages k fuel hfuel hfetch hmore hlast,
      fun x => ?_⟩,
    fun pages oldest hreach hfetch hend => ⟨_, _,
      completedJobRuns_walk_end s jobID prevStartTime pages oldest k fuel hfuel hreach hfetch
        hend, fun x => ?_⟩⟩
  · exact count_toList_appendAll (fun i => (pages i).Jobs) (k + 1) x
  · exact count_toList_appendAll (fun i => (pages i).Runs) (k + 1) x
  · exact count_toList_appendAll (fun i => (pages i).Runs) (k + 1) x

theorem walks_keep_every_occurrence_witness :
    (∃ out calls, repeatingService.jobs 2 = some ((out, none), calls) ∧
      out.toList.count ⟨2⟩ = 2) ∧
    (∃ out calls, repeatingService.activeJobRuns 2 = some ((out, none), calls) ∧
      out.toList.count ⟨11, 500⟩ = 3) ∧
    (∃ out calls, repeatingService.completedJobRuns 7 100 2 =
        some (.returned out none, calls) ∧
      out.toList.count ⟨11, 500⟩ = 3) := by
  have h := walks_keep_every_occurrence repeatingService 7 100 1 2 (by decide)
  obtain ⟨o1, c1, h1, h1'⟩ := h.1 repeatingJobs (by intro i hi; interval_cases i <;> rfl)
    (by intro i hi; interval_cases i; rfl) rfl
  obtain ⟨o2, c2, h2, h2'⟩ := h.2.1 repeatingRuns (by intro i hi; interval_cases i <;> rfl)
    (by intro i hi; interval_cases i; rfl) rfl
  obtain ⟨o3, c3, h3, h3'⟩ := h.2.2 repeatingRuns (fun _ => ⟨11, 500⟩)
    (by intro i hi; interval_cases i; exact ⟨by decide, rfl, rfl, by decide, rfl⟩) rfl
    (Or.inr (Or.inr ⟨⟨12, 400⟩, rfl, Or.inr rfl⟩))
  exact ⟨⟨o1, c1, h1, by rw [h1']; decide⟩, ⟨o2, c2, h2, by rw [h2']; decide⟩,
    ⟨o3, c3, h3, by rw [h3']; decide⟩⟩

/-- C16, as stated, fails: when job 2 is served in both job pages and run 11 three times in
the run pages, the slices returned by `jobs()`, `activeJobRuns()` and `completedJobRuns()`
hold them that many times; none of the three results is free of duplicates. -/
theorem walks_return_duplicates :
    repeatingService.jobs 2 =
        some ((.mk [⟨1⟩, ⟨2⟩, ⟨2⟩, ⟨3⟩], none), [Call.jobsList 2 0, Call.jobsList 2 2]) ∧
      ¬ List.Nodup ([⟨1⟩, ⟨2⟩, ⟨2⟩, ⟨3⟩] : List job) ∧
      repeatingService.activeJobRuns 2 =
        some ((.mk [⟨11, 500⟩, ⟨11, 500⟩, ⟨11, 500⟩, ⟨12, 400⟩], none),
          [Call.activeJobRuns 2 0, Call.activeJobRuns 2 2]) ∧
      repeatingService.completedJobRuns 7 100 2 =
        some (.returned (.mk [⟨11, 500⟩, ⟨11, 500⟩, ⟨11, 500⟩, ⟨12, 400⟩]) none,
          [Call.completedJobRuns 7 2 0, Call.completedJobRuns 7 2 2]) ∧
      ¬ List.Nodup ([⟨11, 500⟩, ⟨11, 500⟩, ⟨11, 500⟩, ⟨12, 400⟩] : List jobRun) := by
  refine ⟨rfl, by decide, rfl, rfl, by decide⟩

/-! ## Number of requests of `completedJobRuns` -/

/-- With a non-zero watermark and pages `0..m` non-empty, page `m` the first without more,
the walk ends at some page `k ≤ m`, and every page before `k` has an oldest run that is not
older than the watermark. -/
theorem completedJobRuns_stop_index (s : databricksService) (jobID prevStartTime : Int)
    (pages : Nat → jobRunsResponse) (m fuel : Nat) (hprev : prevStartTime ≠ 0)
    (hfuel : m < fuel)
    (hfetch : ∀ i ≤ m,
      s.unmarshaller.completedJobRuns i jobID s.limit (intMul s.limit i) = .ok (pages i))
    (hne : ∀ i ≤ m, (pages i).Runs.toList ≠ [])
    (hmore : ∀ i < m, (pages i).HasMore = true) (hlast : (pages m).HasMore = false) :
    ∃ k, k ≤ m ∧
      s.completedJobRuns jobID prevStartTime fuel =
        some (.returned
            (Slice.appendAll Slice.nil ((List.range (k + 1)).map (fun i => (pages i).Runs)))
            none,
          (List.range (k + 1)).map
            (fun (i : Nat) => Call.completedJobRuns jobID s.limit (intMul s.limit i))) ∧
      ∀ i < k, ∀ r, (pages i).Runs.toList.getLast? = some r → prevStartTime ≤ r.StartTime := by
  classical
  have hex : ∃ i, i = m ∨
      ∃ r, (pages i).Runs.toList.getLast? = some r ∧ r.StartTime < prevStartTime :=
    ⟨m, Or.inl rfl⟩
  have hkm : Nat.find hex ≤ m := Nat.find_min' hex (Or.inl rfl)
  have hold : ∀ i ≤ m, (pages i).Runs.toList.getLast? =
      some (((pages i).Runs.toList.getLast?).getD ⟨0, 0⟩) := by
    intro i hi
    cases h : (pages i).Runs.toList.getLast? with
    | none => exact absurd (List.getLast?_eq_none_iff.mp h) (hne i hi)
    | some r => rfl
  have hbefore : ∀ i < Nat.find hex, ∀ r, (pages i).Runs.toList.getLast? = some r →
      prevStartTime ≤ r.StartTime := by
    intro i hi r hr
    have hn := Nat.find_min hex hi
    by_contra hlt
    exact hn (Or.inr ⟨r, hr, by omega⟩)
  refine ⟨Nat.find hex, hkm, ?_, hbefore⟩
  refine completedJobRuns_walk_end s jobID prevStartTime pages
    (fun i => ((pages i).Runs.toList.getLast?).getD ⟨0, 0⟩) (Nat.find hex) fuel (by omega)
    ?_ (hfetch _ hkm) ?_
  · intro i hi
    exact ⟨hprev, hfetch i (by omega), hold i (by omega),
      hbefore i hi _ (hold i (by omega)), hmore i (by omega)⟩
  · rcases Nat.find_spec hex with h | ⟨r, hr, hlt⟩
    · exact Or.inr (Or.inr ⟨_, hold _ hkm, Or.inr (by rw [h]; exact hlast)⟩)
    · exact Or.inr (Or.inr ⟨r, hr, Or.inl hlt⟩)

theorem length_flatten_full {α : Type} (f : Nat → List α) (L : Nat) :
    ∀ k, (∀ i < k, (f i).length = L) → ((List.range k).map f).flatten.length = k * L := by
  intro k
  induction k with
  | zero => intro _; simp
  | succ k ih =>
    intro h
    rw [List.range_succ, List.map_append, List.flatten_append, List.length_append,
      ih (fun i hi => h i (by omega))]
    simp [h k (by omega), Nat.succ_mul]

/-- In a list ordered newest first, every run is at least as recent as the last one. -/
theorem startTime_ge_last (l : List jobRun) (r x : jobRun)
    (hsorted : List.Pairwise (fun a b : jobRun => b.StartTime ≤ a.StartTime) l)
    (hr : l.getLast? = some r) (hx : x ∈ l) : r.StartTime ≤ x.StartTime := by
  obtain ⟨ys, rfl⟩ := List.getLast?_eq_some_iff.mp hr
  rcases List.mem_append.mp hx with h | h
  · exact (List.pairwise_append.mp hsorted).2.2 x h r (by simp)
  · simp only [List.mem_singleton] at h
    rw [h]

/-- C17: with a positive page size `limit`, a non-zero watermark, and a non-empty history `H`
ordered newest first and served in pages `0..m` of exactly `limit` runs (the last one
non-empty, possibly shorter) with `HasMore` set on all pages but the last,
`completedJobRuns` returns after at most `n / limit + 1` requests, `n` being the number of
runs of `H` that start at or after the watermark. -/
theorem completedJobRuns_request_bound (s : databricksService) (jobID prevStartTime : Int)
    (pages : Nat → jobRunsResponse) (m fuel : Nat) (hlimit : 0 < s.limit)
    (hprev : prevStartTime ≠ 0) (hfuel : m < fuel)
    (hfetch : ∀ i ≤ m,
      s.unmarshaller.completedJobRuns i jobID s.limit (intMul s.limit i) = .ok (pages i))
    (hfull : ∀ i < m, ((pages i).Runs.toList.length : Int) = s.limit)
    (hne : (pages m).Runs.toList ≠ [])
    (hmore : ∀ i < m, (pages i).HasMore = true) (hlast : (pages m).HasMore = false)
    (hsorted : List.Pairwise (fun a b : jobRun => b.StartTime ≤ a.StartTime)
      ((List.range (m + 1)).map (fun i => (pages i).Runs.toList)).flatten) :
    ∃ res calls, s.completedJobRuns jobID prevStartTime fuel = some (res, calls) ∧
      (calls.length : Int) ≤
        ((((List.range (m + 1)).map (fun i => (pages i).Runs.toList)).flatten.countP
          (fun r => decide (prevStartTime ≤ r.StartTime)) : Nat) : Int) / s.limit + 1 := by
  obtain ⟨L, hL⟩ : ∃ L : Nat, s.limit = L := ⟨s.limit.toNat, by omega⟩
  have hLpos : 0 < L := by omega
  have hne' : ∀ i ≤ m, (pages i).Runs.toList ≠ [] := by
    intro i hi
    rcases Nat.lt_or_eq_of_le hi with h | h
    · intro hnil
      have := hfull i h
      rw [hnil] at this
      simp at this
      omega
    · rw [h]; exact hne
  obtain ⟨k, hkm, hres, hbefore⟩ := completedJobRuns_stop_index s jobID prevStartTime pages m
    fuel hprev hfuel hfetch hne' hmore hlast
  refine ⟨_, _, hres, ?_⟩
  -- the pages before `k` are full and hold only runs that are not older than the watermark
  have hsplit : List.range (m + 1) = List.range k ++ List.range' k (m + 1 - k) := by
    have h := List.range'_append 0 k (m + 1 - k) 1
    simp only [Nat.zero_add, Nat.one_mul] at h
    rw [List.range_eq_range', List.range_eq_range', h]
    congr 1; omega
  have hpairs := (List.pairwise_flatten.mp hsorted).1
  have hall : ∀ x ∈ ((List.range k).map (fun i => (pages i).Runs.toList)).flatten,
      decide (prevStartTime ≤ x.StartTime) = true := by
    intro x hx
    obtain ⟨l, hl, hxl⟩ := List.mem_flatten.mp hx
    obtain ⟨i, hi, rfl⟩ := List.mem_map.mp hl
    have hik : i < k := List.mem_range.mp hi
    obtain ⟨r, hr⟩ : ∃ r, (pages i).Runs.toList.getLast? = some r := by
      cases h : (pages i).Runs.toList.getLast? with
      | none => exact absurd (List.getLast?_eq_none_iff.mp h) (hne' i (by omega))
      | some r => exact ⟨r, rfl⟩
    have h1 := hbefore i hik r hr
    have h2 := startTime_ge_last _ r x
      (hpairs _ (List.mem_map.mpr ⟨i, List.mem_range.mpr (by omega), rfl⟩)) hr hxl
    exact decide_eq_true (by omega)
  have hlen : ((List.range k).map (fun i => (pages i).Runs.toList)).flatten.length = k * L :=
    length_flatten_full _ L k (fun i hi => by
      have := hfull i (by omega)
      rw [hL] at this
      exact_mod_cast this)
  have hcount : k * L ≤ ((List.range (m + 1)).map (fun i => (pages i).Runs.toList)).flatten.countP
      (fun r => decide (prevStartTime ≤ r.StartTime)) := by
    rw [hsplit, List.map_append, List.flatten_append, List.countP_append,
      List.countP_eq_length.mpr hall, hlen]
    omega
  have hk : k ≤ ((List.range (m + 1)).map (fun i => (pages i).Runs.toList)).flatten.countP
      (fun r => decide (prevStartTime ≤ r.StartTime)) / L :=
    (Nat.le_div_iff_mul_le hLpos).mpr hcount
  rw [hL, List.length_map, List.length_range]
  have : ((k : Nat) : Int) ≤ ((((List.range (m + 1)).map
      (fun i => (pages i).Runs.toList)).flatten.countP
      (fun r => decide (prevStartTime ≤ r.StartTime)) / L : Nat) : Int) := by exact_mod_cast hk
  push_cast at this ⊢
  omega

theorem completedJobRuns_request_bound_witness :
    ∃ res calls, watermarkService.completedJobRuns 7 75 3 = some (res, calls) ∧
      (calls.length : Int) ≤
        ((((List.range (2 + 1)).map (fun i => (watermarkPages i).Runs.toList)).flatten.countP
          (fun r => decide ((75 : Int) ≤ r.StartTime)) : Nat) : Int) /
            watermarkService.limit + 1 :=
  completedJobRuns_request_bound watermarkService 7 75 watermarkPages 2 3 (by decide)
    (by decide) (by decide)
    (by intro i hi; interval_cases i <;> rfl)
    (by intro i hi; interval_cases i <;> rfl)
    (by decide)
    (by intro i hi; interval_cases i <;> rfl) rfl (by decide)

/-! ## `completedJobRuns` against the plain has-more walk -/

theorem refinement_loops (s : databricksService) (jobID prevStartTime : Int)
    (hprev : prevStartTime ≠ 0)
    (hsame : ∀ i : Nat, s.unmarshaller.completedJobRuns i jobID s.limit (intMul s.limit i) =
      s.unmarshaller.activeJobRuns i s.limit (intMul s.limit i)) :
    ∀ (fuel i : Nat) (out : Slice jobRun),
      (∀ j, i ≤ j →
        (∀ l, i ≤ l → l < j →
          ∃ q, s.unmarshaller.activeJobRuns l s.limit (intMul s.limit l) = .ok q ∧
            q.HasMore = true) →
        ∀ p, s.unmarshaller.activeJobRuns j s.limit (intMul s.limit j) = .ok p →
          ∃ r, p.Runs.toList.getLast? = some r ∧ prevStartTime ≤ r.StartTime) →
      (s.activeJobRunsLoop fuel i true out
            ((List.range i).map (fun (j : Nat) => Call.activeJobRuns s.limit (intMul s.limit j))) =
          none ∧
        s.completedJobRunsLoop jobID prevStartTime fuel i true out
            ((List.range i).map
              (fun (j : Nat) => Call.completedJobRuns jobID s.limit (intMul s.limit j))) =
          none) ∨
      (∃ (n : Nat) (res : Slice jobRun),
        s.activeJobRunsLoop fuel i true out
            ((List.range i).map (fun (j : Nat) => Call.activeJobRuns s.limit (intMul s.limit j))) =
          some ((res, none),
            (List.range n).map (fun (j : Nat) => Call.activeJobRuns s.limit (intMul s.limit j))) ∧
        s.completedJobRunsLoop jobID prevStartTime fuel i true out
            ((List.range i).map
              (fun (j : Nat) => Call.completedJobRuns jobID s.limit (intMul s.limit j))) =
          some (.returned res none,
            (List.range n).map
              (fun (j : Nat) => Call.completedJobRuns jobID s.limit (intMul s.limit j)))) ∨
      (∃ (n : Nat) (e : error),
        s.activeJobRunsLoop fuel i true out
            ((List.range i).map (fun (j : Nat) => Call.activeJobRuns s.limit (intMul s.limit j))) =
          some ((Slice.nil, some (Errorf "databricksService.activeJobRuns(): " e)),
            (List.range n).map (fun (j : Nat) => Call.activeJobRuns s.limit (intMul s.limit j))) ∧
        s.completedJobRunsLoop jobID prevStartTime fuel i true out
            ((List.range i).map
              (fun (j : Nat) => Call.completedJobRuns jobID s.limit (intMul s.limit j))) =
          some (.returned Slice.nil
              (some (Errorf "databricksService.completedJobRuns(): " e)),
            (List.range n).map
              (fun (j : Nat) => Call.completedJobRuns jobID s.limit (intMul s.limit j)))) := by
  intro fuel
  induction fuel with
  | zero =>
    intro i out _
    exact Or.inl ⟨by simp only [databricksService.activeJobRunsLoop],
      by simp only [databricksService.completedJobRunsLoop]⟩
  | succ fuel ih =>
    intro i out hgood
    cases hf : s.unmarshaller.activeJobRuns i s.limit (intMul s.limit i) with
    | error e =>
      refine Or.inr (Or.inr ⟨i + 1, e, ?_, ?_⟩)
      · rw [databricksService.activeJobRunsLoop_fail s e fuel i _ _ hf, List.range_succ,
          List.map_append]
        rfl
      · rw [databricksService.completedJobRunsLoop_fail s jobID prevStartTime e fuel i _ _
          ((hsame i).trans hf), List.range_succ, List.map_append]
        rfl
    | ok p =>
      obtain ⟨r, hr, hge⟩ := hgood i (le_refl i) (fun l h1 h2 => absurd h2 (by omega)) p hf
      have hc := databricksService.completedJobRunsLoop_continue s jobID prevStartTime p r
        fuel i out
        ((List.range i).map (fun (j : Nat) => Call.completedJobRuns jobID s.limit (intMul s.limit j)))
        hprev ((hsame i).trans hf) hr hge
      have hcalls : (List.range i).map
            (fun (j : Nat) => Call.completedJobRuns jobID s.limit (intMul s.limit j)) ++
          [Call.completedJobRuns jobID s.limit (intMul s.limit i)] =
          (List.range (i + 1)).map
            (fun (j : Nat) => Call.completedJobRuns jobID s.limit (intMul s.limit j)) := by
        rw [List.range_succ, List.map_append]; rfl
      have hcallsA : (List.range i).map
            (fun (j : Nat) => Call.activeJobRuns s.limit (intMul s.limit j)) ++
          [Call.activeJobRuns s.limit (intMul s.limit i)] =
          (List.range (i + 1)).map
            (fun (j : Nat) => Call.activeJobRuns s.limit (intMul s.limit j)) := by
        rw [List.range_succ, List.map_append]; rfl
      rw [hcalls] at hc
      cases hm : p.HasMore with
      | false =>
        refine Or.inr (Or.inl ⟨i + 1, out.append p.Runs, ?_, ?_⟩)
        · rw [databricksService.activeJobRunsLoop_last s p fuel i _ _ hf hm, hcallsA]
        · rw [hc, hm, databricksService.completedJobRunsLoop_done]
      | true =>
        have ha : s.activeJobRunsLoop (fuel + 1) i true out
            ((List.range i).map (fun (j : Nat) => Call.activeJobRuns s.limit (intMul s.limit j))) =
            s.activeJobRunsLoop fuel (i + 1) true (out.append p.Runs)
              ((List.range (i + 1)).map
                (fun (j : Nat) => Call.activeJobRuns s.limit (intMul s.limit j))) := by
          rw [← hcallsA]
          simp only [databricksService.activeJobRunsLoop, hf, hm]
        rw [ha, hc, hm]
        refine ih (i + 1) (out.append p.Runs) ?_
        intro j hj hbetween q hq
        refine hgood j (by omega) ?_ q hq
        intro l hl1 hl2
        rcases Nat.eq_or_lt_of_le hl1 with h | h
        · subst h; exact ⟨p, hf, hm⟩
        · exact hbetween l (by omega) hl2

/-- C18: with a non-zero watermark, when the completed-run endpoint serves the same pages as
the active-run endpoint and every page the walk fetches is non-empty with an oldest run not
older than the watermark, `completedJobRuns` and `activeJobRuns` behave alike for every
bound on the number of requests: both hit the bound, or both return the same slice with a
nil error after the same number of requests, or both return the nil slice and an error
wrapping the same failure after the same number of requests.  The `j`-th request of either
walk has page size `limit` and the offset `limit*j` as Go computes it on `int`, which is the
exact product `j * limit` whenever the product fits in a Go `int`. -/
theorem completedJobRuns_refines_activeJobRuns (s : databricksService)
    (jobID prevStartTime : Int) (fuel : Nat) (hprev : prevStartTime ≠ 0)
    (hsame : ∀ i : Nat, s.unmarshaller.completedJobRuns i jobID s.limit (intMul s.limit i) =
      s.unmarshaller.activeJobRuns i s.limit (intMul s.limit i))
    (hgood : ∀ j : Nat,
      (∀ l, l < j →
        ∃ q, s.unmarshaller.activeJobRuns l s.limit (intMul s.limit l) = .ok q ∧ q.HasMore = true) →
      ∀ p, s.unmarshaller.activeJobRuns j s.limit (intMul s.limit j) = .ok p →
        ∃ r, p.Runs.toList.getLast? = some r ∧ prevStartTime ≤ r.StartTime) :
    ((s.activeJobRuns fuel = none ∧ s.completedJobRuns jobID prevStartTime fuel = none) ∨
    (∃ (n : Nat) (res : Slice jobRun),
      s.activeJobRuns fuel =
        some ((res, none),
          (List.range n).map (fun (j : Nat) => Call.activeJobRuns s.limit (intMul s.limit j))) ∧
      s.completedJobRuns jobID prevStartTime fuel =
        some (.returned res none,
          (List.range n).map
            (fun (j : Nat) => Call.completedJobRuns jobID s.limit (intMul s.limit j)))) ∨
    (∃ (n : Nat) (e : error),
      s.activeJobRuns fuel =
        some ((Slice.nil, some (Errorf "databricksService.activeJobRuns(): " e)),
          (List.range n).map (fun (j : Nat) => Call.activeJobRuns s.limit (intMul s.limit j))) ∧
      s.completedJobRuns jobID prevStartTime fuel =
        some (.returned Slice.nil (some (Errorf "databricksService.completedJobRuns(): " e)),
          (List.range n).map
            (fun (j : Nat) => Call.completedJobRuns jobID s.limit (intMul s.limit j))))) ∧
    (∀ j : Nat, -2 ^ 63 ≤ s.limit * j → s.limit * j < 2 ^ 63 →
      intMul s.limit j = j * s.limit) := by
  have h := refinement_loops s jobID prevStartTime hprev hsame fuel 0 Slice.nil
    (fun j _ hbetween p hp => hgood j (fun l hl => hbetween l (Nat.zero_le l) hl) p hp)
  refine ⟨by simpa [databricksService.activeJobRuns, databricksService.completedJobRuns]
    using h, fun j h1 h2 => ?_⟩
  rw [intMul_of_inRange s.limit j h1 h2, mul_comm]

theorem completedJobRuns_refines_activeJobRuns_witness :
    ((twoPageService.activeJobRuns 2 = none ∧
        twoPageService.completedJobRuns 7 100 2 = none) ∨
    (∃ (n : Nat) (res : Slice jobRun),
      twoPageService.activeJobRuns 2 =
        some ((res, none),
          (List.range n).map
            (fun (j : Nat) => Call.activeJobRuns twoPageService.limit
              (intMul twoPageService.limit j))) ∧
      twoPageService.completedJobRuns 7 100 2 =
        some (.returned res none,
          (List.range n).map
            (fun (j : Nat) => Call.completedJobRuns 7 twoPageService.limit
              (intMul twoPageService.limit j)))) ∨
    (∃ (n : Nat) (e : error),
      twoPageService.activeJobRuns 2 =
        some ((Slice.nil, some (Errorf "databricksService.activeJobRuns(): " e)),
          (List.range n).map
            (fun (j : Nat) => Call.activeJobRuns twoPageService.limit
              (intMul twoPageService.limit j))) ∧
      twoPageService.completedJobRuns 7 100 2 =
        some (.returned Slice.nil (some (Errorf "databricksService.completedJobRuns(): " e)),
          (List.range n).map
            (fun (j : Nat) => Call.completedJobRuns 7 twoPageService.limit
              (intMul twoPageService.limit j))))) ∧
    (∀ j : Nat, -2 ^ 63 ≤ twoPageService.limit * j → twoPageService.limit * j < 2 ^ 63 →
      intMul twoPageService.limit j = j * twoPageService.limit) :=
  completedJobRuns_refines_activeJobRuns twoPageService 7 100 2 (by decide) (fun _ => rfl)
    (by
      intro j _ p hp
      rcases j with _ | _ | j
      · have : p = ⟨.mk [⟨11, 500⟩, ⟨12, 400⟩], true⟩ := by
          have h : twoPageService.unmarshaller.activeJobRuns 0 twoPageService.limit
              (intMul twoPageService.limit ((0 : Nat) : Int)) =
              .ok ⟨.mk [⟨11, 500⟩, ⟨12, 400⟩], true⟩ := rfl
          rw [h] at hp
          exact (Except.ok.inj hp).symm
        subst this
        exact ⟨⟨12, 400⟩, rfl, by decide⟩
      · have : p = ⟨.mk [⟨13, 300⟩], false⟩ := by
          have h : twoPageService.unmarshaller.activeJobRuns (0 + 1) twoPageService.limit
              (intMul twoPageService.limit ((0 + 1 : Nat) : Int)) =
              .ok ⟨.mk [⟨13, 300⟩], false⟩ := rfl
          rw [h] at hp
          exact (Except.ok.inj hp).symm
        subst this
        exact ⟨⟨13, 300⟩, rfl, by decide⟩
      · have h : twoPageService.unmarshaller.activeJobRuns (j + 1 + 1) twoPageService.limit
            (intMul twoPageService.limit ((j + 1 + 1 : Nat) : Int)) =
            .error (.failure "no response") := rfl
        rw [h] at hp
        cases hp)

/-! ## Maps filled by one fetch per key -/

theorem setEntry_fresh {κ ν : Type} [DecidableEq κ] (l : List (κ × ν)) (k : κ) (v : ν)
    (h : k ∉ l.map Prod.fst) : GoMap.setEntry l k v = l ++ [(k, v)] := by
  induction l with
  | nil => rfl
  | cons a rest ih =>
    obtain ⟨k1, v1⟩ := a
    simp only [List.map_cons, List.mem_cons, not_or] at h
    rw [GoMap.setEntry, if_neg (fun hk => h.1 hk.symm), ih h.2]
    rfl

theorem fillMap_ok {κ ν : Type} [DecidableEq κ] (fetch : Nat → κ → Except error ν)
    (wrap : κ → error → error) (vals : Nat → ν) :
    ∀ (ks : List κ) (n : Nat) (out : List (κ × ν)), ks.Nodup →
      (∀ k ∈ ks, k ∉ out.map Prod.fst) →
      (∀ q ∈ ks.enumFrom n, fetch q.1 q.2 = .ok (vals q.1)) →
      fillMap fetch wrap ks n out =
        ((GoMap.mk (out ++ (ks.enumFrom n).map (fun q => (q.2, vals q.1))), none), ks) := by
  intro ks
  induction ks with
  | nil => intro n out _ _ _; simp [fillMap]
  | cons k rest ih =>
    intro n out hnd hfresh hfetch
    simp only [List.enumFrom_cons, List.mem_cons, forall_eq_or_imp] at hfetch
    obtain ⟨hk, hrest⟩ := hfetch
    have hkout : k ∉ out.map Prod.fst := hfresh k (List.mem_cons_self k rest)
    have hnd' := List.nodup_cons.mp hnd
    have hih := ih (n + 1) (GoMap.setEntry out k (vals n)) hnd'.2
      (by
        intro a ha
        rw [setEntry_fresh out k (vals n) hkout, List.map_append, List.mem_append, not_or]
        refine ⟨hfresh a (List.mem_cons_of_mem k ha), ?_⟩
        simp only [List.map_cons, List.map_nil, List.mem_singleton]
        intro hak
        exact hnd'.1 (hak ▸ ha))
      hrest
    simp only [fillMap, hk, hih, List.enumFrom_cons, List.map_cons]
    rw [setEntry_fresh out k (vals n) hkout]
    simp

theorem fillMap_fail {κ ν : Type} [DecidableEq κ] (fetch : Nat → κ → Except error ν)
    (wrap : κ → error → error) (vals : Nat → ν) (k : κ) (post : List κ) (e : error) :
    ∀ (pre : List κ) (n : Nat) (out : List (κ × ν)),
      (∀ q ∈ pre.enumFrom n, fetch q.1 q.2 = .ok (vals q.1)) →
      fetch (n + pre.length) k = .error e →
      fillMap fetch wrap (pre ++ k :: post) n out =
        ((GoMap.nil, some (wrap k e)), pre ++ [k]) := by
  intro pre
  induction pre with
  | nil =>
    intro n out _ hfail
    simp only [List.length_nil, Nat.add_zero] at hfail
    simp only [List.nil_append, fillMap, hfail]
  | cons a rest ih =>
    intro n out hfetch hfail
    simp only [List.enumFrom_cons, List.mem_cons, forall_eq_or_imp] at hfetch
    obtain ⟨hk, hrest⟩ := hfetch
    have hih := ih (n + 1) (GoMap.setEntry out a (vals n)) hrest
      (by rw [← hfail]; congr 1; simp only [List.length_cons]; omega)
    rw [List.cons_append, fillMap]
    simp only [hk, hih, List.cons_append]

/-- In a map filled from a list of pairwise distinct keys, the value under a key is the one
fetched for it. -/
theorem lookup_enumFrom {κ ν : Type} [DecidableEq κ] (vals : Nat → ν) :
    ∀ (ks : List κ) (n : Nat), ks.Nodup → ∀ q ∈ ks.enumFrom n,
      ((ks.enumFrom n).map (fun q => (q.2, vals q.1))).lookup q.2 = some (vals q.1) := by
  intro ks
  induction ks with
  | nil => intro n _ q hq; simp at hq
  | cons k rest ih =>
    intro n hnd q hq
    have hnd' := List.nodup_cons.mp hnd
    simp only [List.enumFrom_cons, List.mem_cons] at hq
    rcases hq with hq | hq
    · subst hq
      simp [List.lookup_cons]
    · have hmem : q.2 ∈ rest := List.snd_mem_of_mem_enumFrom hq
      have hne : q.2 ≠ k := fun h => hnd'.1 (h ▸ hmem)
      simp only [List.enumFrom_cons, List.map_cons, List.lookup_cons]
      have hbeq : (q.2 == k) = false := by simpa using hne
      rw [hbeq]
      exact ih (n + 1) hnd'.2 q hq

namespace sparkRestService

theorem getSparkExecutorInfoSliceByAppLoop_eq (json : spark.Unmarshal) (unm : spark.Client) :
    ∀ (apps : List spark.Application) (n : Nat)
      (out : List (spark.Application × Slice spark.ExecutorInfo)) (calls : List spark.RawCall),
      getSparkExecutorInfoSliceByAppLoop json unm apps n out calls =
        ((fillMap (fun m a => unm.AppExecutors json m a.Id)
            (fun a err => Errorf ("failed to get executors for app id: " ++ a.Id ++ ": ") err)
            apps n out).1,
          calls ++ (fillMap (fun m a => unm.AppExecutors json m a.Id)
            (fun a err => Errorf ("failed to get executors for app id: " ++ a.Id ++ ": ") err)
            apps n out).2.map (fun a => spark.RawCall.AppExecutors a.Id)) := by
  intro apps
  induction apps with
  | nil => intro n out calls; simp [getSparkExecutorInfoSliceByAppLoop, fillMap]
  | cons app rest ih =>
    intro n out calls
    rw [getSparkExecutorInfoSliceByAppLoop, fillMap]
    cases h : unm.AppExecutors json n app.Id with
    | error err => simp
    | ok v => simp [ih]

theorem getSparkJobInfoSliceByAppLoop_eq (json : spark.Unmarshal) (unm : spark.Client) :
    ∀ (apps : List spark.Application) (n : Nat)
      (out : List (spark.Application × Slice spark.JobInfo)) (calls : List spark.RawCall),
      getSparkJobInfoSliceByAppLoop json unm apps n out calls =
        ((fillMap (fun m a => unm.AppJobs json m a.Id)
            (fun a err => Errorf ("failed to get jobs for app id: " ++ a.Id ++ ": ") err)
            apps n out).1,
          calls ++ (fillMap (fun m a => unm.AppJobs json m a.Id)
            (fun a err => Errorf ("failed to get jobs for app id: " ++ a.Id ++ ": ") err)
            apps n out).2.map (fun a => spark.RawCall.AppJobs a.Id)) := by
  intro apps
  induction apps with
  | nil => intro n out calls; simp [getSparkJobInfoSliceByAppLoop, fillMap]
  | cons app rest ih =>
    intro n out calls
    rw [getSparkJobInfoSliceByAppLoop, fillMap]
    cases h : unm.AppJobs json n app.Id with
    | error err => simp
    | ok v => simp [ih]

theorem getSparkStageInfoSliceByAppLoop_eq (json : spark.Unmarshal) (unm : spark.Client) :
    ∀ (apps : List spark.Application) (n : Nat)
      (out : List (spark.Application × Slice spark.StageInfo)) (calls : List spark.RawCall),
      getSparkStageInfoSliceByAppLoop json unm apps n out calls =
        ((fillMap (fun m a => unm.AppStages json m a.Id)
            (fun a err => Errorf ("failed to get jobs for app id: " ++ a.Id ++ ": ") err)
            apps n out).1,
          calls ++ (fillMap (fun m a => unm.AppStages json m a.Id)
            (fun a err => Errorf ("failed to get jobs for app id: " ++ a.Id ++ ": ") err)
            apps n out).2.map (fun a => spark.RawCall.AppStages a.Id)) := by
  intro apps
  induction apps with
  | nil => intro n out calls; simp [getSparkStageInfoSliceByAppLoop, fillMap]
  | cons app rest ih =>
    intro n out calls
    rw [getSparkStageInfoSliceByAppLoop, fillMap]
    cases h : unm.AppStages json n app.Id with
    | error err => simp
    | ok v => simp [ih]

theorem getSparkCoreMetricsForClustersLoop_eq (json : spark.Unmarshal)
    (s : sparkRestService) :
    ∀ (clusters : List cluster) (n : Nat) (out : List (cluster × spark.ClusterMetrics)),
      getSparkCoreMetricsForClustersLoop json s clusters n out =
        (fillMap (fun m c => s.getSparkCoreMetricsForCluster json m c.ClusterId)
          (fun c err =>
            Errorf ("error getting spark metrics for cluster: " ++ c.format ++ ": ") err)
          clusters n out).1 := by
  intro clusters
  induction clusters with
  | nil => intro n out; simp [getSparkCoreMetricsForClustersLoop, fillMap]
  | cons c rest ih =>
    intro n out
    rw [getSparkCoreMetricsForClustersLoop, fillMap]
    cases h : s.getSparkCoreMetricsForCluster json n c.ClusterId with
    | error err => simp
    | ok v => simp [ih]

end sparkRestService

/-! ## Fan-out per application: the claims -/

theorem filled_keys {κ ν : Type} (vals : Nat → ν) (ks : List κ) (n : Nat) :
    (GoMap.mk ([] ++ (ks.enumFrom n).map (fun q => (q.2, vals q.1)))).keys = ks := by
  simp only [GoMap.keys, GoMap.entries, List.nil_append, List.map_map]
  exact List.enumFrom_map_snd n ks

/-- C12: when the application list of the cluster is fetched and holds pairwise distinct
applications, and the sub-fetch made for each listed application succeeds (the `j`-th one,
made with the id of the `j`-th application, answering `recs j`), each of the three fan-out
operations returns, with a nil error, a map whose keys are exactly the listed applications
and in which the value under each application is the slice answered by the sub-fetch made
with its own id. -/
theorem fanout_maps_keyed_by_application (json : spark.Unmarshal) (s : sparkRestService)
    (clusterID : String) (apps : Slice spark.Application) (hnodup : apps.toList.Nodup)
    (happs : (s.newClient 0 clusterID).Applications json = .ok apps) :
    (∀ recs : Nat → Slice spark.ExecutorInfo,
      (∀ q ∈ apps.toList.enum,
        (s.newClient 0 clusterID).AppExecutors json q.1 q.2.Id = .ok (recs q.1)) →
      ∃ m calls, s.getSparkExecutorInfoSliceByApp json clusterID = ((m, none), calls) ∧
        m.keys = apps.toList ∧ ∀ q ∈ apps.toList.enum, m.get? q.2 = some (recs q.1)) ∧
    (∀ recs : Nat → Slice spark.JobInfo,
      (∀ q ∈ apps.toList.enum,
        (s.newClient 0 clusterID).AppJobs json q.1 q.2.Id = .ok (recs q.1)) →
      ∃ m calls, s.getSparkJobInfoSliceByApp json clusterID = ((m, none), calls) ∧
        m.keys = apps.toList ∧ ∀ q ∈ apps.toList.enum, m.get? q.2 = some (recs q.1)) ∧
    (∀ recs : Nat → Slice spark.StageInfo,
      (∀ q ∈ apps.toList.enum,
        (s.newClient 0 clusterID).AppStages json q.1 q.2.Id = .ok (recs q.1)) →
      ∃ m calls, s.getSparkStageInfoSliceByApp json clusterID = ((m, none), calls) ∧
        m.keys = apps.toList ∧ ∀ q ∈ apps.toList.enum, m.get? q.2 = some (recs q.1)) := by
  refine ⟨fun recs hsub => ?_, fun recs hsub => ?_, fun recs hsub => ?_⟩
  · refine ⟨GoMap.mk ([] ++ (apps.toList.enumFrom 0).map (fun q => (q.2, recs q.1))),
      spark.RawCall.Applications :: apps.toList.map (fun a => spark.RawCall.AppExecutors a.Id), ?_,
      filled_keys recs apps.toList 0, fun q hq => ?_⟩
    · simp only [sparkRestService.getSparkExecutorInfoSliceByApp, happs]
      rw [sparkRestService.getSparkExecutorInfoSliceByAppLoop_eq,
        fillMap_ok (fun m (a : spark.Application) => (s.newClient 0 clusterID).AppExecutors json m a.Id)
          (fun (a : spark.Application) err => Errorf ("failed to get executors for app id: " ++ a.Id ++ ": ") err)
          recs apps.toList 0 [] hnodup (by simp) hsub]
      rfl
    · exact lookup_enumFrom recs apps.toList 0 hnodup q hq
  · refine ⟨GoMap.mk ([] ++ (apps.toList.enumFrom 0).map (fun q => (q.2, recs q.1))),
      spark.RawCall.Applications :: apps.toList.map (fun a => spark.RawCall.AppJobs a.Id), ?_,
      filled_keys recs apps.toList 0, fun q hq => ?_⟩
    · simp only [sparkRestService.getSparkJobInfoSliceByApp, happs]
      rw [sparkRestService.getSparkJobInfoSliceByAppLoop_eq,
        fillMap_ok (fun m (a : spark.Application) => (s.newClient 0 clusterID).AppJobs json m a.Id)
          (fun (a : spark.Application) err => Errorf ("failed to get jobs for app id: " ++ a.Id ++ ": ") err)
          recs apps.toList 0 [] hnodup (by simp) hsub]
      rfl
    · exact lookup_enumFrom recs apps.toList 0 hnodup q hq
  · refine ⟨GoMap.mk ([] ++ (apps.toList.enumFrom 0).map (fun q => (q.2, recs q.1))),
      spark.RawCall.Applications :: apps.toList.map (fun a => spark.RawCall.AppStages a.Id), ?_,
      filled_keys recs apps.toList 0, fun q hq => ?_⟩
    · simp only [sparkRestService.getSparkStageInfoSliceByApp, happs]
      rw [sparkRestService.getSparkStageInfoSliceByAppLoop_eq,
        fillMap_ok (fun m (a : spark.Application) => (s.newClient 0 clusterID).AppStages json m a.Id)
          (fun (a : spark.Application) err => Errorf ("failed to get jobs for app id: " ++ a.Id ++ ": ") err)
          recs apps.toList 0 [] hnodup (by simp) hsub]
      rfl
    · exact lookup_enumFrom recs apps.toList 0 hnodup q hq

theorem fanout_maps_keyed_by_application_witness :
    (∃ m calls, toySparkService.getSparkExecutorInfoSliceByApp toyJson "c1" =
        ((m, none), calls) ∧
      m.keys = [⟨"app-1", "first"⟩, ⟨"app-2", "second"⟩] ∧
      ∀ q ∈ ([⟨"app-1", "first"⟩, ⟨"app-2", "second"⟩] : List spark.Application).enum,
        m.get? q.2 = some (toyExecutorRecs q.1)) ∧
    (∃ m calls, toySparkService.getSparkJobInfoSliceByApp toyJson "c1" = ((m, none), calls) ∧
      m.keys = [⟨"app-1", "first"⟩, ⟨"app-2", "second"⟩] ∧
      ∀ q ∈ ([⟨"app-1", "first"⟩, ⟨"app-2", "second"⟩] : List spark.Application).enum,
        m.get? q.2 = some (toyJobRecs q.1)) ∧
    (∃ m calls, toySparkService.getSparkStageInfoSliceByApp toyJson "c1" = ((m, none), calls) ∧
      m.keys = [⟨"app-1", "first"⟩, ⟨"app-2", "second"⟩] ∧
      ∀ q ∈ ([⟨"app-1", "first"⟩, ⟨"app-2", "second"⟩] : List spark.Application).enum,
        m.get? q.2 = some (toyStageRecs q.1)) := by
  have h := fanout_maps_keyed_by_application toyJson toySparkService "c1"
    (.mk [⟨"app-1", "first"⟩, ⟨"app-2", "second"⟩]) (by decide) rfl
  refine ⟨h.1 toyExecutorRecs ?_, h.2.1 toyJobRecs ?_, h.2.2 toyStageRecs ?_⟩
  · intro q hq
    have hq1 : q = (0, ⟨"app-1", "first"⟩) ∨ q = (1, ⟨"app-2", "second"⟩) := by
      simpa [Slice.toList, List.enum, List.enumFrom] using hq
    rcases hq1 with rfl | rfl <;> rfl
  · intro q hq
    have hq1 : q = (0, ⟨"app-1", "first"⟩) ∨ q = (1, ⟨"app-2", "second"⟩) := by
      simpa [Slice.toList, List.enum, List.enumFrom] using hq
    rcases hq1 with rfl | rfl <;> rfl
  · intro q hq
    have hq1 : q = (0, ⟨"app-1", "first"⟩) ∨ q = (1, ⟨"app-2", "second"⟩) := by
      simpa [Slice.toList, List.enum, List.enumFrom] using hq
    rcases hq1 with rfl | rfl <;> rfl

/-- C13: for each of the three fan-out operations, (a) when the fetch of the application
list fails the operation returns the nil map and an error, having made that one request; (b)
when the listed applications are `pre ++ a :: post`, the sub-fetches for `pre` succeed and
the one for `a` fails, the operation returns the nil map (nothing of what was fetched for
`pre`) and an error, and the requests made are the list request, the sub-fetches for `pre`
and the failing one: none is made for `post`. -/
theorem fanout_failure_aborts (json : spark.Unmarshal) (s : sparkRestService)
    (clusterID : String) (e : error) :
    ((s.newClient 0 clusterID).Applications json = .error e →
      s.getSparkExecutorInfoSliceByApp json clusterID =
          ((GoMap.nil, some (Errorf "failed to get applications from spark: " e)),
            [spark.RawCall.Applications]) ∧
        s.getSparkJobInfoSliceByApp json clusterID =
          ((GoMap.nil, some (Errorf "failed to get applications from spark: " e)),
            [spark.RawCall.Applications]) ∧
        s.getSparkStageInfoSliceByApp json clusterID =
          ((GoMap.nil, some (Errorf "failed to get applications from spark: " e)),
            [spark.RawCall.Applications])) ∧
    (∀ (apps : Slice spark.Application) (pre post : List spark.Application)
        (a : spark.Application),
      (s.newClient 0 clusterID).Applications json = .ok apps →
      apps.toList = pre ++ a :: post →
      (∀ recs : Nat → Slice spark.ExecutorInfo,
        (∀ q ∈ pre.enum,
          (s.newClient 0 clusterID).AppExecutors json q.1 q.2.Id = .ok (recs q.1)) →
        (s.newClient 0 clusterID).AppExecutors json pre.length a.Id = .error e →
        ∃ err, s.getSparkExecutorInfoSliceByApp json clusterID =
          ((GoMap.nil, some err),
            spark.RawCall.Applications ::
              (pre.map (fun b => spark.RawCall.AppExecutors b.Id) ++
                [spark.RawCall.AppExecutors a.Id]))) ∧
      (∀ recs : Nat → Slice spark.JobInfo,
        (∀ q ∈ pre.enum,
          (s.newClient 0 clusterID).AppJobs json q.1 q.2.Id = .ok (recs q.1)) →
        (s.newClient 0 clusterID).AppJobs json pre.length a.Id = .error e →
        ∃ err, s.getSparkJobInfoSliceByApp json clusterID =
          ((GoMap.nil, some err),
            spark.RawCall.Applications ::
              (pre.map (fun b => spark.RawCall.AppJobs b.Id) ++
                [spark.RawCall.AppJobs a.Id]))) ∧
      (∀ recs : Nat → Slice spark.StageInfo,
        (∀ q ∈ pre.enum,
          (s.newClient 0 clusterID).AppStages json q.1 q.2.Id = .ok (recs q.1)) →
        (s.newClient 0 clusterID).AppStages json pre.length a.Id = .error e →
        ∃ err, s.getSparkStageInfoSliceByApp json clusterID =
          ((GoMap.nil, some err),
            spark.RawCall.Applications ::
              (pre.map (fun b => spark.RawCall.AppStages b.Id) ++
                [spark.RawCall.AppStages a.Id])))) := by
  refine ⟨fun hlist => ⟨?_, ?_, ?_⟩, fun apps pre post a happs hsplit =>
    ⟨fun recs hpre hfail => ?_, fun recs hpre hfail => ?_, fun recs hpre hfail => ?_⟩⟩
  · simp only [sparkRestService.getSparkExecutorInfoSliceByApp, hlist]
  · simp only [sparkRestService.getSparkJobInfoSliceByApp, hlist]
  · simp only [sparkRestService.getSparkStageInfoSliceByApp, hlist]
  · refine ⟨Errorf ("failed to get executors for app id: " ++ a.Id ++ ": ") e, ?_⟩
    simp only [sparkRestService.getSparkExecutorInfoSliceByApp, happs, hsplit]
    rw [sparkRestService.getSparkExecutorInfoSliceByAppLoop_eq,
      fillMap_fail (fun m (b : spark.Application) => (s.newClient 0 clusterID).AppExecutors json m b.Id)
        (fun (b : spark.Application) err =>
          Errorf ("failed to get executors for app id: " ++ b.Id ++ ": ") err)
        recs a post e pre 0 [] hpre (by simpa using hfail)]
    simp
  · refine ⟨Errorf ("failed to get jobs for app id: " ++ a.Id ++ ": ") e, ?_⟩
    simp only [sparkRestService.getSparkJobInfoSliceByApp, happs, hsplit]
    rw [sparkRestService.getSparkJobInfoSliceByAppLoop_eq,
      fillMap_fail (fun m (b : spark.Application) => (s.newClient 0 clusterID).AppJobs json m b.Id)
        (fun (b : spark.Application) err =>
          Errorf ("failed to get jobs for app id: " ++ b.Id ++ ": ") err)
        recs a post e pre 0 [] hpre (by simpa using hfail)]
    simp
  · refine ⟨Errorf ("failed to get jobs for app id: " ++ a.Id ++ ": ") e, ?_⟩
    simp only [sparkRestService.getSparkStageInfoSliceByApp, happs, hsplit]
    rw [sparkRestService.getSparkStageInfoSliceByAppLoop_eq,
      fillMap_fail (fun m (b : spark.Application) => (s.newClient 0 clusterID).AppStages json m b.Id)
        (fun (b : spark.Application) err =>
          Errorf ("failed to get jobs for app id: " ++ b.Id ++ ": ") err)
        recs a post e pre 0 [] hpre (by simpa using hfail)]
    simp

theorem fanout_failure_aborts_witness :
    toySparkService.getSparkJobInfoSliceByApp toyJson "c-down" =
        ((GoMap.nil,
            some (Errorf "failed to get applications from spark: "
              (Errorf "failed to get applications from spark: " (.failure "down")))),
          [spark.RawCall.Applications]) ∧
      (∃ err, brokenSparkService.getSparkExecutorInfoSliceByApp toyJson "c1" =
        ((GoMap.nil, some err),
          [spark.RawCall.Applications, spark.RawCall.AppExecutors "app-1",
            spark.RawCall.AppExecutors "app-2"])) ∧
      (∃ err, brokenSparkService.getSparkJobInfoSliceByApp toyJson "c1" =
        ((GoMap.nil, some err),
          [spark.RawCall.Applications, spark.RawCall.AppJobs "app-1",
            spark.RawCall.AppJobs "app-2"])) ∧
      (∃ err, brokenSparkService.getSparkStageInfoSliceByApp toyJson "c1" =
        ((GoMap.nil, some err),
          [spark.RawCall.Applications, spark.RawCall.AppStages "app-1",
            spark.RawCall.AppStages "app-2"])) := by
  have hq : ∀ q ∈ ([⟨"app-1", "first"⟩] : List spark.Application).enum,
      q = (0, ⟨"app-1", "first"⟩) := by
    intro q hq
    simpa [List.enum, List.enumFrom] using hq
  refine ⟨((fanout_failure_aborts toyJson toySparkService "c-down"
      (Errorf "failed to get applications from spark: " (.failure "down"))).1 rfl).2.1,
    ((fanout_failure_aborts toyJson brokenSparkService "c1"
      (Errorf "failed to get app executors from spark: " (.failure "boom"))).2
      (.mk [⟨"app-1", "first"⟩, ⟨"app-2", "second"⟩]) [⟨"app-1", "first"⟩] []
      ⟨"app-2", "second"⟩ rfl rfl).1 toyExecutorRecs
      (by intro q h; rw [hq q h]; rfl) rfl,
    ((fanout_failure_aborts toyJson brokenSparkService "c1"
      (Errorf "failed to get jobs from spark: " (.failure "boom"))).2
      (.mk [⟨"app-1", "first"⟩, ⟨"app-2", "second"⟩]) [⟨"app-1", "first"⟩] []
      ⟨"app-2", "second"⟩ rfl rfl).2.1 toyJobRecs
      (by intro q h; rw [hq q h]; rfl) rfl,
    ((fanout_failure_aborts toyJson brokenSparkService "c1"
      (Errorf "failed to get jobs from spark: " (.failure "boom"))).2
      (.mk [⟨"app-1", "first"⟩, ⟨"app-2", "second"⟩]) [⟨"app-1", "first"⟩] []
      ⟨"app-2", "second"⟩ rfl rfl).2.2 toyStageRecs
      (by intro q h; rw [hq q h]; rfl) rfl⟩

set_option maxRecDepth 8000 in
/-- C14, failing input: when the stage sub-fetch for application `app-2` fails with "boom",
the message of the error returned by `getSparkStageInfoSliceByApp` is "failed to get jobs for
app id: app-2: failed to get jobs from spark: boom": it holds the application id but names
jobs, not stages.  The two sibling operations name their own resource kind. -/
theorem getSparkStageInfoSliceByApp_error_names_jobs :
    (brokenSparkService.getSparkStageInfoSliceByApp toyJson "c1").1.2.map error.Error =
        some "failed to get jobs for app id: app-2: failed to get jobs from spark: boom" ∧
      mentions "failed to get jobs for app id: app-2: failed to get jobs from spark: boom"
        "stages" = false ∧
      mentions "failed to get jobs for app id: app-2: failed to get jobs from spark: boom"
        "app-2" = true ∧
      (brokenSparkService.getSparkExecutorInfoSliceByApp toyJson "c1").1.2.map error.Error =
        some ("failed to get executors for app id: app-2: " ++
          "failed to get app executors from spark: boom") ∧
      (brokenSparkService.getSparkJobInfoSliceByApp toyJson "c1").1.2.map error.Error =
        some "failed to get jobs for app id: app-2: failed to get jobs from spark: boom" := by
  refine ⟨rfl, by decide, by decide, rfl, rfl⟩

/-! ## Executor metrics -/

namespace sparkExtraMetricsBuilder

theorem recordExecutor_recorded (builder : MetricsBuilder) (now : Nat) (clstr : cluster)
    (sparkApp : spark.Application) (execInfo : spark.ExecutorInfo) :
    (recordExecutor builder now clstr sparkApp execInfo).recorded =
      builder.recorded ++ executorDataPoints now clstr.ClusterId sparkApp.Id execInfo := by
  simp [recordExecutor, executorDataPoints,
    MetricsBuilder.RecordDatabricksSparkExecutorMemoryUsedDataPoint,
    MetricsBuilder.RecordDatabricksSparkExecutorDiskUsedDataPoint,
    MetricsBuilder.RecordDatabricksSparkExecutorTotalInputBytesDataPoint,
    MetricsBuilder.RecordDatabricksSparkExecutorTotalShuffleReadDataPoint,
    MetricsBuilder.RecordDatabricksSparkExecutorTotalShuffleWriteDataPoint,
    MetricsBuilder.RecordDatabricksSparkExecutorMaxMemoryDataPoint]

theorem recordRecords_recorded (now : Nat) (clstr : cluster) (sparkApp : spark.Application) :
    ∀ (infos : List spark.ExecutorInfo) (builder : MetricsBuilder),
      (infos.foldl (fun bld1 execInfo => recordExecutor bld1 now clstr sparkApp execInfo)
          builder).recorded =
        builder.recorded ++
          infos.flatMap (fun execInfo =>
            executorDataPoints now clstr.ClusterId sparkApp.Id execInfo) := by
  intro infos
  induction infos with
  | nil => intro builder; simp
  | cons info rest ih =>
    intro builder
    rw [List.foldl_cons, ih, recordExecutor_recorded]
    simp [List.flatMap_cons]

theorem recordCluster_recorded (now : Nat) (clstr : cluster) :
    ∀ (visit : List (spark.Application × Slice spark.ExecutorInfo))
      (builder : MetricsBuilder),
      (recordCluster builder now clstr visit).recorded =
        builder.recorded ++ clusterDataPoints now clstr.ClusterId visit := by
  intro visit
  induction visit with
  | nil => intro builder; simp [recordCluster, clusterDataPoints]
  | cons entry rest ih =>
    intro builder
    have h := ih (entry.2.toList.foldl
      (fun bld1 execInfo => recordExecutor bld1 now clstr entry.1 execInfo) builder)
    simp only [recordCluster, List.foldl_cons] at h ⊢
    rw [h, recordRecords_recorded]
    simp [clusterDataPoints, List.flatMap_cons]

theorem buildExecutorMetricsLoop_ok (b : sparkExtraMetricsBuilder)
    (rangeOrder : Nat → GoMap spark.Application (Slice spark.ExecutorInfo) →
      List (spark.Application × Slice spark.ExecutorInfo))
    (now : Nat) (maps : Nat → GoMap spark.Application (Slice spark.ExecutorInfo)) :
    ∀ (clusters : List cluster) (n : Nat) (builder : MetricsBuilder),
      (∀ q ∈ clusters.enumFrom n,
        b.ssvc.getSparkExecutorInfoSliceByApp q.1 q.2.ClusterId = (maps q.1, none)) →
      buildExecutorMetricsLoop b rangeOrder now clusters n builder =
        (none,
          ⟨builder.recorded ++ (clusters.enumFrom n).flatMap (fun q =>
            clusterDataPoints now q.2.ClusterId (rangeOrder q.1 (maps q.1)))⟩) := by
  intro clusters
  induction clusters with
  | nil => intro n builder _; simp [buildExecutorMetricsLoop]
  | cons c rest ih =>
    intro n builder h
    simp only [List.enumFrom_cons, List.mem_cons, forall_eq_or_imp] at h
    obtain ⟨hc, hrest⟩ := h
    rw [buildExecutorMetricsLoop]
    simp only [hc]
    rw [ih (n + 1) _ hrest, recordCluster_recorded]
    simp [List.enumFrom_cons, List.flatMap_cons]

theorem buildExecutorMetricsLoop_fail (b : sparkExtraMetricsBuilder)
    (rangeOrder : Nat → GoMap spark.Application (Slice spark.ExecutorInfo) →
      List (spark.Application × Slice spark.ExecutorInfo))
    (now : Nat) (maps : Nat → GoMap spark.Application (Slice spark.ExecutorInfo))
    (c : cluster) (post : List cluster)
    (m : GoMap spark.Application (Slice spark.ExecutorInfo)) (e : error) :
    ∀ (pre : List cluster) (n : Nat) (builder : MetricsBuilder),
      (∀ q ∈ pre.enumFrom n,
        b.ssvc.getSparkExecutorInfoSliceByApp q.1 q.2.ClusterId = (maps q.1, none)) →
      b.ssvc.getSparkExecutorInfoSliceByApp (n + pre.length) c.ClusterId = (m, some e) →
      buildExecutorMetricsLoop b rangeOrder now (pre ++ c :: post) n builder =
        (some (Errorf ("failed to get executor info for cluster: " ++ c.ClusterId ++ ": ") e),
          ⟨builder.recorded ++ (pre.enumFrom n).flatMap (fun q =>
            clusterDataPoints now q.2.ClusterId (rangeOrder q.1 (maps q.1)))⟩) := by
  intro pre
  induction pre with
  | nil =>
    intro n builder _ hfail
    simp only [List.length_nil, Nat.add_zero] at hfail
    rw [List.nil_append, buildExecutorMetricsLoop]
    simp only [hfail]
    simp
  | cons a rest ih =>
    intro n builder h hfail
    simp only [List.enumFrom_cons, List.mem_cons, forall_eq_or_imp] at h
    obtain ⟨ha, hrest⟩ := h
    rw [List.cons_append, buildExecutorMetricsLoop]
    simp only [ha]
    rw [ih (n + 1) _ hrest (by rw [← hfail]; congr 1; simp only [List.length_cons]; omega),
      recordCluster_recorded]
    simp [List.enumFrom_cons, List.flatMap_cons]

end sparkExtraMetricsBuilder

theorem length_clusterDataPoints (now : Nat) (clusterId : String) :
    ∀ visit : List (spark.Application × Slice spark.ExecutorInfo),
      (clusterDataPoints now clusterId visit).length =
        6 * (visit.map (fun entry => entry.2.toList.length)).sum := by
  have hinner : ∀ (aid : String) (infos : List spark.ExecutorInfo),
      (infos.flatMap (fun execInfo => executorDataPoints now clusterId aid execInfo)).length =
        6 * infos.length := by
    intro aid infos
    induction infos with
    | nil => rfl
    | cons info rest ih =>
      rw [List.flatMap_cons, List.length_append, ih]
      simp [executorDataPoints]
      omega
  intro visit
  induction visit with
  | nil => rfl
  | cons entry rest ih =>
    simp only [clusterDataPoints, List.flatMap_cons, List.length_append, List.map_cons,
      List.sum_cons] at ih ⊢
    rw [hinner, ih]
    omega

/-- C19: `buildExecutorMetrics` is not all-or-nothing.  (a) When the clusters are
`pre ++ c :: post`, the executor fan-outs for `pre` succeed (the `j`-th answering `maps j`)
and the one for `c` fails with `e`, the call returns an error wrapping `e` whose message
names the cluster id of `c`, and the builder has received, after what it held, exactly the
data points of the clusters of `pre`, none for `c` or `post`.  (b) When every fan-out
succeeds the call returns nil and the builder has received the data points of every cluster.
(c) One executor record gives six data points, each tagged with the cluster id, the id of
the owning application and the executor id.  (d) Whatever order `range` takes over a map,
the data points of a cluster are the same up to order, six per executor record. -/
theorem buildExecutorMetrics_records_before_failure (b : sparkExtraMetricsBuilder)
    (rangeOrder : Nat → GoMap spark.Application (Slice spark.ExecutorInfo) →
      List (spark.Application × Slice spark.ExecutorInfo))
    (builder : MetricsBuilder) (now : Nat)
    (maps : Nat → GoMap spark.Application (Slice spark.ExecutorInfo)) :
    (∀ (clusters : Slice cluster) (pre post : List cluster) (c : cluster)
        (m : GoMap spark.Application (Slice spark.ExecutorInfo)) (e : error),
      clusters.toList = pre ++ c :: post →
      (∀ q ∈ pre.enum,
        b.ssvc.getSparkExecutorInfoSliceByApp q.1 q.2.ClusterId = (maps q.1, none)) →
      b.ssvc.getSparkExecutorInfoSliceByApp pre.length c.ClusterId = (m, some e) →
      b.buildExecutorMetrics rangeOrder builder now clusters =
        (some (Errorf ("failed to get executor info for cluster: " ++ c.ClusterId ++ ": ") e),
          ⟨builder.recorded ++ pre.enum.flatMap (fun q =>
            clusterDataPoints now q.2.ClusterId (rangeOrder q.1 (maps q.1)))⟩)) ∧
    (∀ clusters : Slice cluster,
      (∀ q ∈ clusters.toList.enum,
        b.ssvc.getSparkExecutorInfoSliceByApp q.1 q.2.ClusterId = (maps q.1, none)) →
      b.buildExecutorMetrics rangeOrder builder now clusters =
        (none,
          ⟨builder.recorded ++ clusters.toList.enum.flatMap (fun q =>
            clusterDataPoints now q.2.ClusterId (rangeOrder q.1 (maps q.1)))⟩)) ∧
    (∀ (clusterId sparkAppId : String) (execInfo : spark.ExecutorInfo),
      (executorDataPoints now clusterId sparkAppId execInfo).length = 6 ∧
        ∀ p ∈ executorDataPoints now clusterId sparkAppId execInfo,
          p.clusterId = clusterId ∧ p.sparkAppId = sparkAppId ∧ p.executorId = execInfo.Id) ∧
    (∀ (n : Nat) (m : GoMap spark.Application (Slice spark.ExecutorInfo))
        (clusterId : String),
      (rangeOrder n m).Perm m.entries →
      (clusterDataPoints now clusterId (rangeOrder n m)).Perm
          (clusterDataPoints now clusterId m.entries) ∧
        (clusterDataPoints now clusterId (rangeOrder n m)).length =
          6 * (m.entries.map (fun entry => entry.2.toList.length)).sum) := by
  refine ⟨?_, ?_, ?_, ?_⟩
  · intro clusters pre post c m e hsplit hpre hfail
    unfold sparkExtraMetricsBuilder.buildExecutorMetrics
    rw [hsplit]
    exact sparkExtraMetricsBuilder.buildExecutorMetricsLoop_fail b rangeOrder now maps c post m
      e pre 0 builder hpre (by simpa using hfail)
  · intro clusters hall
    exact sparkExtraMetricsBuilder.buildExecutorMetricsLoop_ok b rangeOrder now maps
      clusters.toList 0 builder hall
  · intro clusterId sparkAppId execInfo
    refine ⟨rfl, ?_⟩
    intro p hp
    simp only [executorDataPoints, List.mem_cons, List.mem_singleton, List.not_mem_nil,
      or_false] at hp
    rcases hp with rfl | rfl | rfl | rfl | rfl | rfl <;> exact ⟨rfl, rfl, rfl⟩
  · intro n m clusterId hperm
    have hp : (clusterDataPoints now clusterId (rangeOrder n m)).Perm
        (clusterDataPoints now clusterId m.entries) := List.Perm.flatMap_right _ hperm
    refine ⟨hp, ?_⟩
    rw [hp.length_eq, length_clusterDataPoints]

theorem buildExecutorMetrics_records_before_failure_witness :
    (sparkExtraMetricsBuilder.mk toyExecutorService).buildExecutorMetrics
        (fun _ m => m.entries) ⟨[]⟩ 99
        (.mk [⟨"c1", "RUNNING"⟩, ⟨"c-down", "RUNNING"⟩, ⟨"c3", "RUNNING"⟩]) =
      (some (Errorf "failed to get executor info for cluster: c-down: " (.failure "boom")),
        ⟨[] ++ ([⟨"c1", "RUNNING"⟩] : List cluster).enum.flatMap (fun q =>
          clusterDataPoints 99 q.2.ClusterId toyExecutors.entries)⟩) ∧
    (sparkExtraMetricsBuilder.mk toyExecutorService).buildExecutorMetrics
        (fun _ m => m.entries) ⟨[]⟩ 99 (.mk [⟨"c1", "RUNNING"⟩, ⟨"c3", "RUNNING"⟩]) =
      (none,
        ⟨[] ++ ([⟨"c1", "RUNNING"⟩, ⟨"c3", "RUNNING"⟩] : List cluster).enum.flatMap (fun q =>
          clusterDataPoints 99 q.2.ClusterId toyExecutors.entries)⟩) ∧
    (clusterDataPoints 99 "c1" toyExecutors.entries).length = 6 * 3 := by
  have h := buildExecutorMetrics_records_before_failure
    (sparkExtraMetricsBuilder.mk toyExecutorService) (fun _ m => m.entries) ⟨[]⟩ 99
    (fun _ => toyExecutors)
  refine ⟨h.1 (.mk [⟨"c1", "RUNNING"⟩, ⟨"c-down", "RUNNING"⟩, ⟨"c3", "RUNNING"⟩])
      [⟨"c1", "RUNNING"⟩] [⟨"c3", "RUNNING"⟩] ⟨"c-down", "RUNNING"⟩ .nil (.failure "boom") rfl
      ?_ rfl,
    h.2.1 (.mk [⟨"c1", "RUNNING"⟩, ⟨"c3", "RUNNING"⟩]) ?_,
    (h.2.2.2 0 toyExecutors "c1" (List.Perm.refl _)).2⟩
  · intro q hq
    have hq1 : q = (0, ⟨"c1", "RUNNING"⟩) := by
      simpa [List.enum, List.enumFrom] using hq
    subst hq1
    rfl
  · intro q hq
    have hq1 : q = (0, ⟨"c1", "RUNNING"⟩) ∨ q = (1, ⟨"c3", "RUNNING"⟩) := by
      simpa [Slice.toList, List.enum, List.enumFrom] using hq
    rcases hq1 with rfl | rfl <;> rfl

/-! ## Core metrics per cluster -/

/-- C20: (a) for pairwise distinct clusters whose metrics fetches all succeed (the `j`-th,
made with the `ClusterId` of the `j`-th cluster, answering `metrics j`),
`getSparkCoreMetricsForClusters` returns with a nil error a map whose keys are exactly the
input clusters, the value under each cluster being the metrics fetched with its
`ClusterId`; (b) when the clusters are `pre ++ c :: post`, the fetches for `pre` succeed and
the one for `c` fails, it returns the nil map and an error; (c) for the empty cluster list
it returns an empty, non-nil map and a nil error. -/
theorem getSparkCoreMetricsForClusters_map (json : spark.Unmarshal) (s : sparkRestService) :
    (∀ (clusters : Slice cluster) (metrics : Nat → spark.ClusterMetrics),
      clusters.toList.Nodup →
      (∀ q ∈ clusters.toList.enum,
        s.getSparkCoreMetricsForCluster json q.1 q.2.ClusterId = .ok (metrics q.1)) →
      ∃ m, s.getSparkCoreMetricsForClusters json clusters = (m, none) ∧
        m.keys = clusters.toList ∧
        ∀ q ∈ clusters.toList.enum, m.get? q.2 = some (metrics q.1)) ∧
    (∀ (clusters : Slice cluster) (pre post : List cluster) (c : cluster)
        (metrics : Nat → spark.ClusterMetrics) (e : error),
      clusters.toList = pre ++ c :: post →
      (∀ q ∈ pre.enum,
        s.getSparkCoreMetricsForCluster json q.1 q.2.ClusterId = .ok (metrics q.1)) →
      s.getSparkCoreMetricsForCluster json pre.length c.ClusterId = .error e →
      ∃ err, s.getSparkCoreMetricsForClusters json clusters = (GoMap.nil, some err) ∧
        err.Unwrap = some e) ∧
    (∀ clusters : Slice cluster, clusters.toList = [] →
      s.getSparkCoreMetricsForClusters json clusters = (GoMap.mk [], none)) := by
  refine ⟨?_, ?_, ?_⟩
  · intro clusters metrics hnodup hall
    refine ⟨GoMap.mk ([] ++ (clusters.toList.enumFrom 0).map (fun q => (q.2, metrics q.1))),
      ?_, filled_keys metrics clusters.toList 0,
      fun q hq => lookup_enumFrom metrics clusters.toList 0 hnodup q hq⟩
    unfold sparkRestService.getSparkCoreMetricsForClusters
    rw [sparkRestService.getSparkCoreMetricsForClustersLoop_eq,
      fillMap_ok (fun m (c : cluster) => s.getSparkCoreMetricsForCluster json m c.ClusterId)
        (fun (c : cluster) err =>
          Errorf ("error getting spark metrics for cluster: " ++ c.format ++ ": ") err)
        metrics clusters.toList 0 [] hnodup (by simp) hall]
  · intro clusters pre post c metrics e hsplit hpre hfail
    refine ⟨Errorf ("error getting spark metrics for cluster: " ++ c.format ++ ": ") e, ?_,
      rfl⟩
    unfold sparkRestService.getSparkCoreMetricsForClusters
    rw [hsplit, sparkRestService.getSparkCoreMetricsForClustersLoop_eq,
      fillMap_fail (fun m (c : cluster) => s.getSparkCoreMetricsForCluster json m c.ClusterId)
        (fun (c : cluster) err =>
          Errorf ("error getting spark metrics for cluster: " ++ c.format ++ ": ") err)
        metrics c post e pre 0 [] hpre (by simpa using hfail)]
  · intro clusters hnil
    unfold sparkRestService.getSparkCoreMetricsForClusters
    rw [hnil]
    rfl

theorem getSparkCoreMetricsForClusters_map_witness :
    (∃ m, toySparkService.getSparkCoreMetricsForClusters toyJson
          (.mk [⟨"c1", "RUNNING"⟩, ⟨"c3", "RUNNING"⟩]) = (m, none) ∧
        m.keys = [⟨"c1", "RUNNING"⟩, ⟨"c3", "RUNNING"⟩] ∧
        ∀ q ∈ ([⟨"c1", "RUNNING"⟩, ⟨"c3", "RUNNING"⟩] : List cluster).enum,
          m.get? q.2 = some (⟨"metrics of " ++ q.2.ClusterId⟩ : spark.ClusterMetrics)) ∧
    (∃ err, toySparkService.getSparkCoreMetricsForClusters toyJson
          (.mk [⟨"c1", "RUNNING"⟩, ⟨"c-down", "RUNNING"⟩, ⟨"c3", "RUNNING"⟩]) =
        (GoMap.nil, some err) ∧
      err.Unwrap = some (Errorf "failed to get metrics from spark: " (.failure "down"))) ∧
    toySparkService.getSparkCoreMetricsForClusters toyJson (.mk []) = (GoMap.mk [], none) := by
  have h := getSparkCoreMetricsForClusters_map toyJson toySparkService
  obtain ⟨m, hm, hk, hg⟩ := h.1 (.mk [⟨"c1", "RUNNING"⟩, ⟨"c3", "RUNNING"⟩])
    (fun i => if i = 0 then ⟨"metrics of c1"⟩ else ⟨"metrics of c3"⟩) (by decide)
    (by
      intro q hq
      have hq1 : q = (0, ⟨"c1", "RUNNING"⟩) ∨ q = (1, ⟨"c3", "RUNNING"⟩) := by
        simpa [Slice.toList, List.enum, List.enumFrom] using hq
      rcases hq1 with rfl | rfl <;> rfl)
  refine ⟨⟨m, hm, hk, ?_⟩,
    h.2.1 (.mk [⟨"c1", "RUNNING"⟩, ⟨"c-down", "RUNNING"⟩, ⟨"c3", "RUNNING"⟩])
      [⟨"c1", "RUNNING"⟩] [⟨"c3", "RUNNING"⟩] ⟨"c-down", "RUNNING"⟩
      (fun _ => ⟨"metrics of c1"⟩)
      (Errorf "failed to get metrics from spark: " (.failure "down")) rfl
      (by
        intro q hq
        have hq1 : q = (0, ⟨"c1", "RUNNING"⟩) := by
          simpa [List.enum, List.enumFrom] using hq
        subst hq1
        rfl)
      rfl,
    h.2.2 (.mk []) rfl⟩
  intro q hq
  have hq1 : q = (0, ⟨"c1", "RUNNING"⟩) ∨ q = (1, ⟨"c3", "RUNNING"⟩) := by
    simpa [List.enum, List.enumFrom] using hq
  have := hg q (by simpa [Slice.toList] using hq)
  rcases hq1 with rfl | rfl
  · exact this
  · exact this

/-! ## Request paths of the raw clients -/

theorem Sprintf_jobsListPath (limit offset : Int) :
    Sprintf jobsListPath [.int limit, .int offset] =
      "/api/2.1/jobs/list?expand_tasks=true&limit=" ++ toString limit ++ "&offset=" ++
        toString offset := by
  apply String.ext
  simp [Sprintf, jobsListPath, SprintfChars, FmtArg.render, String.toList]

theorem Sprintf_activeJobRunsPath (limit offset : Int) :
    Sprintf activeJobRunsPath [.int limit, .int offset] =
      "/api/2.1/jobs/runs/list?active_only=true&limit=" ++ toString limit ++ "&offset=" ++
        toString offset := by
  apply String.ext
  simp [Sprintf, activeJobRunsPath, SprintfChars, FmtArg.render, String.toList]

theorem Sprintf_completedJobRunsPath (jobID limit offset : Int) :
    Sprintf completedJobRunsPath [.int jobID, .int limit, .int offset] =
      "/api/2.1/jobs/runs/list?completed_only=true&expand_tasks=true&job_id=" ++
        toString jobID ++ "&limit=" ++ toString limit ++ "&offset=" ++ toString offset := by
  apply String.ext
  simp [Sprintf, completedJobRunsPath, SprintfChars, FmtArg.render, String.toList]

theorem Sprintf_appExecutorsPathFmt (appID : String) :
    Sprintf spark.appExecutorsPathFmt [.str appID] =
      "/api/v1/applications/" ++ appID ++ "/executors" := by
  apply String.ext
  simp [Sprintf, spark.appExecutorsPathFmt, spark.applicationsPath, SprintfChars,
    FmtArg.render, String.toList]

theorem Sprintf_appJobsPathFmt (appID : String) :
    Sprintf spark.appJobsPathFmt [.str appID] = "/api/v1/applications/" ++ appID ++ "/jobs" := by
  apply String.ext
  simp [Sprintf, spark.appJobsPathFmt, spark.applicationsPath, SprintfChars, FmtArg.render,
    String.toList]

theorem Sprintf_appStagesPathFmt (appID : String) :
    Sprintf spark.appStagesPathFmt [.str appID] =
      "/api/v1/applications/" ++ appID ++ "/stages" := by
  apply String.ext
  simp [Sprintf, spark.appStagesPathFmt, spark.applicationsPath, SprintfChars, FmtArg.render,
    String.toList]

/-- C21: for every job id, page size and offset, `completedJobRuns(jobID, limit, offset)` of
the raw client logs and requests exactly the path
"/api/2.1/jobs/runs/list?completed_only=true&expand_tasks=true&job_id=J&limit=L&offset=O"
where `J`, `L`, `O` are the decimal renderings of `jobID`, `limit`, `offset` in this order,
and returns what the transport answers for it; `jobsList` and `activeJobRuns` put `limit`
and `offset` after `limit=` and `offset=` of their own paths.  On job 7, page size 25 and
offset 50 the path ends in "job_id=7&limit=25&offset=50". -/
theorem databricksRawClient_request_paths (c : databricksRawClient)
    (jobID limit offset : Int) :
    c.completedJobRuns jobID limit offset =
        (c.authClient.Get
            ("/api/2.1/jobs/runs/list?completed_only=true&expand_tasks=true&job_id=" ++
              toString jobID ++ "&limit=" ++ toString limit ++ "&offset=" ++ toString offset),
          [.Debug "databricksRawClient.completedJobRuns"
              ("/api/2.1/jobs/runs/list?completed_only=true&expand_tasks=true&job_id=" ++
                toString jobID ++ "&limit=" ++ toString limit ++ "&offset=" ++
                toString offset),
            .Get
              ("/api/2.1/jobs/runs/list?completed_only=true&expand_tasks=true&job_id=" ++
                toString jobID ++ "&limit=" ++ toString limit ++ "&offset=" ++
                toString offset)]) ∧
      c.jobsList limit offset =
        (c.authClient.Get
            ("/api/2.1/jobs/list?expand_tasks=true&limit=" ++ toString limit ++ "&offset=" ++
              toString offset),
          [.Debug "databricksRawClient.jobsList"
              ("/api/2.1/jobs/list?expand_tasks=true&limit=" ++ toString limit ++
                "&offset=" ++ toString offset),
            .Get
              ("/api/2.1/jobs/list?expand_tasks=true&limit=" ++ toString limit ++
                "&offset=" ++ toString offset)]) ∧
      c.activeJobRuns limit offset =
        (c.authClient.Get
            ("/api/2.1/jobs/runs/list?active_only=true&limit=" ++ toString limit ++
              "&offset=" ++ toString offset),
          [.Debug "databricksRawClient.activeJobRuns"
              ("/api/2.1/jobs/runs/list?active_only=true&limit=" ++ toString limit ++
                "&offset=" ++ toString offset),
            .Get
              ("/api/2.1/jobs/runs/list?active_only=true&limit=" ++ toString limit ++
                "&offset=" ++ toString offset)]) ∧
      (databricksRawClient.mk echoTransport).completedJobRuns 7 25 50 =
        (.ok ("/api/2.1/jobs/runs/list?completed_only=true&expand_tasks=true" ++
            "&job_id=7&limit=25&offset=50"),
          [.Debug "databricksRawClient.completedJobRuns"
              ("/api/2.1/jobs/runs/list?completed_only=true&expand_tasks=true" ++
                "&job_id=7&limit=25&offset=50"),
            .Get ("/api/2.1/jobs/runs/list?completed_only=true&expand_tasks=true" ++
              "&job_id=7&limit=25&offset=50")]) := by
  refine ⟨?_, ?_, ?_, ?_⟩
  · simp only [databricksRawClient.completedJobRuns, Sprintf_completedJobRunsPath]
  · simp only [databricksRawClient.jobsList, Sprintf_jobsListPath]
  · simp only [databricksRawClient.activeJobRuns, Sprintf_activeJobRunsPath]
  · rfl

/-- C22: whatever the service and the arguments, the operations `jobs`, `activeJobRuns`,
`completedJobRuns`, `runningClusters` and `runningPipelines` of `sparkRestService` end in the
panic "implement me"; none of them returns a slice or an error. -/
theorem sparkRestService_databricks_operations_panic (s : sparkRestService) (i i2 : Int) :
    (s.jobs = .panicked "implement me" ∧
      s.activeJobRuns = .panicked "implement me" ∧
      s.completedJobRuns i i2 = .panicked "implement me" ∧
      s.runningClusters = .panicked "implement me" ∧
      s.runningPipelines = .panicked "implement me") ∧
    (∀ out err, s.jobs ≠ .returned out err) ∧
    (∀ out err, s.activeJobRuns ≠ .returned out err) ∧
    (∀ out err, s.completedJobRuns i i2 ≠ .returned out err) ∧
    (∀ out err, s.runningClusters ≠ .returned out err) ∧
    (∀ out err, s.runningPipelines ≠ .returned out err) := by
  refine ⟨⟨rfl, rfl, rfl, rfl, rfl⟩, ?_, ?_, ?_, ?_, ?_⟩ <;>
    · intro out err h
      cases h

theorem suffix_ne_of_ne (pre a x y : String) (h : x.toList ≠ y.toList) :
    pre ++ a ++ x ≠ pre ++ a ++ y := by
  intro heq
  have h1 := congrArg String.toList heq
  simp only [String.toList, String.data_append, List.append_assoc,
    List.append_cancel_left_eq] at h1
  exact h h1

/-- C23: for every application id `a`, `AppExecutors(a)`, `AppJobs(a)` and `AppStages(a)` of
the Spark raw client request the paths "/api/v1/applications/a/executors",
"/api/v1/applications/a/jobs" and "/api/v1/applications/a/stages" respectively (and return
what the transport answers for them); these three paths are pairwise distinct. -/
theorem spark_rawClient_request_paths (c : spark.rawClient) (a : String) :
    c.AppExecutors a =
        (c.authClient.Get ("/api/v1/applications/" ++ a ++ "/executors"),
          [.Get ("/api/v1/applications/" ++ a ++ "/executors")]) ∧
      c.AppJobs a =
        (c.authClient.Get ("/api/v1/applications/" ++ a ++ "/jobs"),
          [.Get ("/api/v1/applications/" ++ a ++ "/jobs")]) ∧
      c.AppStages a =
        (c.authClient.Get ("/api/v1/applications/" ++ a ++ "/stages"),
          [.Get ("/api/v1/applications/" ++ a ++ "/stages")]) ∧
      "/api/v1/applications/" ++ a ++ "/executors" ≠ "/api/v1/applications/" ++ a ++ "/jobs" ∧
      "/api/v1/applications/" ++ a ++ "/executors" ≠
        "/api/v1/applications/" ++ a ++ "/stages" ∧
      "/api/v1/applications/" ++ a ++ "/jobs" ≠ "/api/v1/applications/" ++ a ++ "/stages" := by
  refine ⟨?_, ?_, ?_, suffix_ne_of_ne _ a _ _ (by decide), suffix_ne_of_ne _ a _ _ (by decide),
    suffix_ne_of_ne _ a _ _ (by decide)⟩
  · simp only [spark.rawClient.AppExecutors, Sprintf_appExecutorsPathFmt]
  · simp only [spark.rawClient.AppJobs, Sprintf_appJobsPathFmt]
  · simp only [spark.rawClient.AppStages, Sprintf_appStagesPathFmt]

end databricksreceiver
